import Mathlib

/-!
# Dictionary predictor (prediction/dictionary_predictor.cc)

A shallow embedding of `mozc::DictionaryPredictor` and a verification of the
properties its specification states.

Conventions of the embedding:

* a C++ `std::string` is the list of its bytes (`Str`);
* `int` / `int32` values are integers, every arithmetic result being reduced
  by `wrap32` (two's complement, 32 bits); `size_t` values are naturals,
  subtraction and addition being reduced modulo `2^64`;
* a pointer to a `Node` is the node itself, the `bnext` chain returned by a
  dictionary lookup is a list of nodes;
* the collaborators (dictionary, converter, connector, segmenter, suggestion
  filter, configuration flags) are the fields of `Env`;
* a call that raises `std::out_of_range` (a `substr` past the end of a
  string) has no result: the functions concerned return `Option`;
* a loop over the indices of a vector is a recursion on the number of indices
  left; a loop whose body writes element `i` from element `i` alone is a
  `List.map`.
-/

set_option autoImplicit false

namespace Mozc

/-! ## Machine integers and strings -/

/-- A `std::string`: its bytes, in order. -/
abbrev Str := List Nat

/-- The constant `INT_MAX` of `<limits.h>` for a 32-bit `int`. -/
def INT_MAX : Int := 2147483647

/-- Two's complement reduction of an integer to 32 bits. -/
def wrap32 (x : Int) : Int := (x + 2147483648) % 4294967296 - 2147483648

/-- Subtraction of two `size_t` values. -/
def size_sub (a b : Nat) : Nat := (a + (18446744073709551616 - b % 18446744073709551616)) % 18446744073709551616

/-- Addition of two `size_t` values. -/
def size_add (a b : Nat) : Nat := (a + b) % 18446744073709551616

/-- The bytes of the UTF-8 encoding of one code point. -/
def encodeChar (c : Nat) : Str :=
  if c < 0x80 then [c]
  else if c < 0x800 then [0xC0 + c / 64, 0x80 + c % 64]
  else if c < 0x10000 then [0xE0 + c / 4096, 0x80 + c / 64 % 64, 0x80 + c % 64]
  else [0xF0 + c / 262144, 0x80 + c / 4096 % 64, 0x80 + c / 64 % 64, 0x80 + c % 64]

/-- The UTF-8 bytes of a string literal. -/
def utf8 (s : String) : Str := s.toList.flatMap (fun c => encodeChar c.toNat)

/-- The member `std::string::substr(pos, n)`: the bytes `[pos, pos + n)` cut at
the end of the string; `none` stands for the `std::out_of_range` raised when
`pos` is past the end. The callers pass `n = size() - pos`, a `size_t`
difference that only counts when `pos <= size()`, where it does not wrap. -/
def substr (s : Str) (pos n : Nat) : Option Str :=
  if pos > s.length then none else some ((s.drop pos).take n)

/-- Modelled from the spec: `Util::StartsWith(str, prefix)` of base/util.h, which
is not part of the sources at hand; `str.starts_with(prefix)` on bytes. -/
def StartsWith (str pre : Str) : Bool := pre.isPrefixOf str

/-- Modelled from the spec: `Util::OneCharLen` of base/util.h, the byte length
of a UTF-8 character read off its first byte. -/
def OneCharLen (b : Nat) : Nat :=
  if b < 0xC0 then 1
  else if b < 0xE0 then 2
  else if b < 0xF0 then 3
  else if b < 0xF8 then 4
  else if b < 0xFC then 5
  else if b < 0xFE then 6
  else 1

/-- The loop of `Util::CharsLen`: one character per round, `fuel` bounding the
number of rounds by the number of bytes. -/
def CharsLenLoop : Nat → Str → Nat
  | 0, _ => 0
  | _, [] => 0
  | fuel + 1, b :: rest => 1 + CharsLenLoop fuel (rest.drop (OneCharLen b - 1))

/-- Modelled from the spec: `Util::CharsLen` of base/util.h, the number of
characters of a UTF-8 string. -/
def CharsLen (s : Str) : Nat := CharsLenLoop s.length s

/-- Modelled from the spec: `Util::UTF8ToUCS4` of base/util.h: the first code
point of a byte string and the number of bytes it takes (one byte and code
point 0 on a malformed lead). -/
def UTF8ToUCS4 (s : Str) : Nat × Nat :=
  match s with
  | [] => (0, 1)
  | b0 :: rest =>
    if b0 < 0x80 then (b0, 1)
    else if 2 ≤ s.length ∧ 0xC0 ≤ b0 ∧ b0 < 0xE0 then
      ((b0 % 32) * 64 + rest.getD 0 0 % 64, 2)
    else if 3 ≤ s.length ∧ 0xE0 ≤ b0 ∧ b0 < 0xF0 then
      ((b0 % 16) * 4096 + (rest.getD 0 0 % 64) * 64 + rest.getD 1 0 % 64, 3)
    else if 4 ≤ s.length ∧ 0xF0 ≤ b0 ∧ b0 < 0xF8 then
      ((b0 % 8) * 262144 + (rest.getD 0 0 % 64) * 4096 + (rest.getD 1 0 % 64) * 64
        + rest.getD 2 0 % 64, 4)
    else if 5 ≤ s.length ∧ 0xF8 ≤ b0 ∧ b0 < 0xFC then
      ((b0 % 4) * 16777216 + (rest.getD 0 0 % 64) * 262144 + (rest.getD 1 0 % 64) * 4096
        + (rest.getD 2 0 % 64) * 64 + rest.getD 3 0 % 64, 5)
    else if 6 ≤ s.length ∧ 0xFC ≤ b0 ∧ b0 < 0xFE then
      ((b0 % 2) * 1073741824 + (rest.getD 0 0 % 64) * 16777216 + (rest.getD 1 0 % 64) * 262144
        + (rest.getD 2 0 % 64) * 4096 + (rest.getD 3 0 % 64) * 64 + rest.getD 4 0 % 64, 6)
    else (0, 1)

/-- The code points a `ConstChar32Iterator` yields, `fuel` bounding the number
of steps by the number of bytes. -/
def Chars32Loop : Nat → Str → List Nat
  | 0, _ => []
  | _, [] => []
  | fuel + 1, b :: rest =>
    (UTF8ToUCS4 (b :: rest)).1 :: Chars32Loop fuel ((b :: rest).drop (UTF8ToUCS4 (b :: rest)).2)

/-- Modelled from the spec: the sequence of code points that
`ConstChar32Iterator` (base/util.h) walks through. -/
def Chars32 (s : Str) : List Nat := Chars32Loop s.length s

/-- The loop of `Util::SubString`: skips `start` characters, then keeps
`length` characters. -/
def SubStringLoop : Nat → Str → Nat → Nat → Str
  | 0, _, _, _ => []
  | _, [], _, _ => []
  | fuel + 1, b :: rest, start, length =>
    if start > 0 then SubStringLoop fuel (rest.drop (OneCharLen b - 1)) (start - 1) length
    else if length > 0 then
      (b :: rest).take (OneCharLen b)
        ++ SubStringLoop fuel (rest.drop (OneCharLen b - 1)) 0 (length - 1)
    else []

/-- Modelled from the spec: `Util::SubString(src, start, length)` of
base/util.h, the `length` characters of `src` from character `start` on. -/
def SubString (src : Str) (start length : Nat) : Str :=
  SubStringLoop src.length src start length

/-- Modelled from the spec: the values of `Util::ScriptType` (base/util.h). -/
inductive ScriptType
  | UNKNOWN_SCRIPT
  | KATAKANA
  | HIRAGANA
  | KANJI
  | NUMBER
  | ALPHABET
  deriving DecidableEq, Repr, Inhabited

/-! ## Data model (converter/segments.h, converter/node.h) -/

/-- Modelled from the spec: the values of `Segments::RequestType`. -/
inductive RequestType
  | CONVERSION
  | PREDICTION
  | SUGGESTION
  | PARTIAL_PREDICTION
  | PARTIAL_SUGGESTION
  deriving DecidableEq, Repr, Inhabited

/-- Modelled from the spec: a `Segment::Candidate` record. The attribute bitset
is read and written through its `SPELLING_CORRECTION` bit only. -/
structure Candidate where
  key : Str
  value : Str
  content_key : Str
  content_value : Str
  lid : Nat
  rid : Nat
  wcost : Int
  cost : Int
  spelling_correction : Bool
  deriving DecidableEq, Repr, Inhabited

/-- Modelled from the spec: a `Segment`, its reading and its candidates. -/
structure Segment where
  key : Str
  candidates : List Candidate
  deriving DecidableEq, Repr, Inhabited

/-- Modelled from the spec: the `Segments` container. The history segments come
first in `segment(i)`, the conversion segments after them. -/
structure Segments where
  request_type : RequestType
  history_segments : List Segment
  conversion_segments : List Segment
  max_prediction_candidates_size : Nat
  deriving DecidableEq, Repr, Inhabited

/-- Modelled from the spec: a lattice `Node`. The attribute bitset is read and
written through its `SPELLING_CORRECTION` bit only; `bnext` is the list
structure of lookup results. -/
structure Node where
  key : Str
  value : Str
  lid : Nat
  rid : Nat
  wcost : Int
  spelling_correction : Bool
  deriving DecidableEq, Repr, Inhabited

/-- Modelled from the spec: the bitset `PredictionType` over REALTIME, UNIGRAM,
BIGRAM and SUFFIX; `NO_PREDICTION` is the empty bitset. -/
structure PredictionType where
  realtime : Bool
  unigram : Bool
  bigram : Bool
  suffix : Bool
  deriving DecidableEq, Repr, Inhabited

/-- The empty bitset. -/
def NO_PREDICTION : PredictionType := ⟨false, false, false, false⟩

/-- The bitset with the REALTIME bit only. -/
def REALTIME : PredictionType := ⟨true, false, false, false⟩

/-- The bitset with the UNIGRAM bit only. -/
def UNIGRAM : PredictionType := ⟨false, true, false, false⟩

/-- The bitset with the BIGRAM bit only. -/
def BIGRAM : PredictionType := ⟨false, false, true, false⟩

/-- The bitset with the SUFFIX bit only. -/
def SUFFIX : PredictionType := ⟨false, false, false, true⟩

/-- Modelled from the spec: a `Result` (node, type, cost); the constructor
`Result(node, type)` leaves the cost at 0. -/
structure Result where
  node : Node
  type : PredictionType
  cost : Int
  deriving DecidableEq, Repr, Inhabited

/-- Modelled from the spec: `ResultCompare`, the order that makes the heap a
min-heap on cost (`a.cost > b.cost`). -/
def ResultCompare (a b : Result) : Bool := decide (a.cost > b.cost)

namespace Segments

/-- The accessor `segments_size()`. -/
def segments_size (s : Segments) : Nat :=
  s.history_segments.length + s.conversion_segments.length

/-- The accessor `segment(i)`. -/
def segment (s : Segments) (i : Nat) : Segment :=
  (s.history_segments ++ s.conversion_segments).getD i default

/-- The accessor `history_segments_size()`. -/
def history_segments_size (s : Segments) : Nat := s.history_segments.length

/-- The accessor `history_segment(i)`. -/
def history_segment (s : Segments) (i : Nat) : Segment := s.history_segments.getD i default

/-- The accessor `conversion_segments_size()`. -/
def conversion_segments_size (s : Segments) : Nat := s.conversion_segments.length

/-- The accessor `conversion_segment(i)`; an empty segment stands for an access
past the end, which is undefined in C++. -/
def conversion_segment (s : Segments) (i : Nat) : Segment := s.conversion_segments.getD i default

/-- The setter `set_max_prediction_candidates_size`. -/
def set_max_prediction_candidates_size (s : Segments) (n : Nat) : Segments :=
  { s with max_prediction_candidates_size := n }

/-- Replaces the candidates of `conversion_segment(0)`, what the writes through
`mutable_conversion_segment(0)` amount to. Without a conversion segment, where
the C++ access is undefined, the segments stay as they are. -/
def set_candidates (s : Segments) (cs : List Candidate) : Segments :=
  match s.conversion_segments with
  | [] => s
  | seg :: rest => { s with conversion_segments := { seg with candidates := cs } :: rest }

end Segments

/-! ## The heap algorithms of the C++ standard library

`std::make_heap` and `std::pop_heap` as in libstdc++ (bits/stl_heap.h), on the
first `len` elements of a vector. `comp a b` is the strict order of the heap:
the top is an element no other is `comp`-above. -/

section Heap

variable {α : Type} [Inhabited α]

/-- The function `std::__push_heap`: moves the hole up while its parent is
`comp`-below `value`, then stores `value`. -/
def push_heap_loop (comp : α → α → Bool) : Nat → List α → Nat → Nat → α → List α
  | 0, v, holeIndex, _, value => v.set holeIndex value
  | fuel + 1, v, holeIndex, topIndex, value =>
    if holeIndex > topIndex ∧ comp (v.getD ((holeIndex - 1) / 2) default) value = true then
      push_heap_loop comp fuel (v.set holeIndex (v.getD ((holeIndex - 1) / 2) default))
        ((holeIndex - 1) / 2) topIndex value
    else v.set holeIndex value

/-- The first loop of `std::__adjust_heap`: moves the hole down to a node with
fewer than two children, promoting the `comp`-greater child each time. Returns
the vector and the final hole. -/
def adjust_heap_loop (comp : α → α → Bool) : Nat → List α → Nat → Nat → List α × Nat
  | 0, v, holeIndex, _ => (v, holeIndex)
  | fuel + 1, v, holeIndex, len =>
    if holeIndex < (len - 1) / 2 then
      let secondChild :=
        if comp (v.getD (2 * (holeIndex + 1)) default) (v.getD (2 * (holeIndex + 1) - 1) default)
        then 2 * (holeIndex + 1) - 1 else 2 * (holeIndex + 1)
      adjust_heap_loop comp fuel (v.set holeIndex (v.getD secondChild default)) secondChild len
    else (v, holeIndex)

/-- The function `std::__adjust_heap(first, holeIndex, len, value, comp)`. -/
def adjust_heap (comp : α → α → Bool) (v : List α) (holeIndex len : Nat) (value : α) : List α :=
  let p := adjust_heap_loop comp len v holeIndex len
  let q :=
    if len % 2 = 0 ∧ p.2 = (len - 2) / 2 then
      (p.1.set p.2 (p.1.getD (2 * (p.2 + 1) - 1) default), 2 * (p.2 + 1) - 1)
    else p
  push_heap_loop comp (q.2 + 1) q.1 q.2 holeIndex value

/-- The function `std::pop_heap(first, first + len, comp)`: the top goes to
position `len - 1`, the first `len - 1` elements are a heap again. -/
def pop_heap (comp : α → α → Bool) (v : List α) (len : Nat) : List α :=
  if len > 1 then
    adjust_heap comp (v.set (len - 1) (v.getD 0 default)) 0 (len - 1) (v.getD (len - 1) default)
  else v

/-- The loop of `std::__make_heap`: adjusts the subtrees rooted at `parent`,
`parent - 1`, ..., `0`. -/
def make_heap_loop (comp : α → α → Bool) : Nat → List α → Nat → Nat → List α
  | 0, v, _, _ => v
  | fuel + 1, v, parent, len =>
    if parent = 0 then adjust_heap comp v parent len (v.getD parent default)
    else make_heap_loop comp fuel (adjust_heap comp v parent len (v.getD parent default))
      (parent - 1) len

/-- The function `std::make_heap(first, last, comp)` on the whole vector. -/
def make_heap (comp : α → α → Bool) (v : List α) : List α :=
  if v.length < 2 then v
  else make_heap_loop comp ((v.length - 2) / 2 + 1) v ((v.length - 2) / 2) v.length

end Heap

/-! ## Collaborators -/

/-- Modelled from the spec: `DictionaryInterface`. Each lookup gets the search
key and the `max_nodes_size` of the allocator, and returns the nodes of the
`bnext` chain in order; `LookupPredictiveWithLimit` also gets the entries of
`limit.begin_with_trie`, `none` when no trie is set. -/
structure DictionaryInterface where
  LookupPredictive : Str → Nat → List Node
  LookupPredictiveWithLimit : Str → Option (List Str) → Nat → List Node
  LookupPrefix : Str → Nat → List Node

/-- Modelled from the spec: a `ConversionRequest`; the composer, when there is
one, is given by what `GetQueriesForPrediction` yields (base, expanded). -/
structure ConversionRequest where
  composer : Option (Str × List Str)

/-- Everything the predictor reads from outside this file: the request and
configuration flags, the injected collaborators, the static tables and the
library functions whose tables are not part of the sources at hand. -/
structure Env where
  /-- The flag `GET_REQUEST(mixed_conversion)`. -/
  mixed_conversion : Bool
  /-- The flag `GET_REQUEST(zero_query_suggestion)`. -/
  zero_query_suggestion : Bool
  /-- The flag `GET_CONFIG(use_realtime_conversion)`. -/
  use_realtime_conversion : Bool
  /-- The flag `GET_CONFIG(use_dictionary_suggest)`. -/
  use_dictionary_suggest : Bool
  /-- The flag `FLAGS_enable_expansion_for_dictionary_predictor`. -/
  enable_expansion_for_dictionary_predictor : Bool
  /-- The call `immutable_converter_->Convert(segments)`: its return value and
  the segments as it leaves them. -/
  Convert : Segments → Bool × Segments
  /-- The member `dictionary_`. -/
  dictionary : DictionaryInterface
  /-- The member `suffix_dictionary_`. -/
  suffix_dictionary : DictionaryInterface
  /-- The call `connector_->GetTransitionCost(rid, lid)`. -/
  GetTransitionCost : Nat → Nat → Int
  /-- The call `segmenter_->GetSuffixPenalty(rid)`. -/
  GetSuffixPenalty : Nat → Int
  /-- The call `SuggestionFilter::IsBadSuggestion(value)`. -/
  IsBadSuggestion : Str → Bool
  /-- The member `counter_suffix_word_id_`. -/
  counter_suffix_word_id : Nat
  /-- The table `ZeroQueryNum`: each row is a trigger followed by suffixes. -/
  ZeroQueryNum : List (List Str)
  /-- The function `Util::KatakanaToHiragana`. -/
  KatakanaToHiragana : Str → Str
  /-- The function `Util::GetScriptType` on strings. -/
  GetScriptType : Str → ScriptType
  /-- The function `log` of the C library on the `double` of a positive
  integer `x`: the result, which is not negative, is `m * 2^-e` for the pair
  `(m, e)`. -/
  log : Nat → Nat × Nat
  /-- The `max_nodes_size` of a freshly built `NodeAllocator`. -/
  default_max_nodes_size : Nat

/-! ## Helpers of the anonymous namespace -/

/-- The constant `kSuggestionMaxNodesSize`. -/
def kSuggestionMaxNodesSize : Nat := 256

/-- The constant `kPredictionMaxNodesSize`. -/
def kPredictionMaxNodesSize : Nat := 100000

/-- The function `IsNumber`: every byte is an ASCII digit. -/
def IsNumber (str : Str) : Bool := str.all (fun b => decide (48 ≤ b ∧ b ≤ 57))

/-- The constant `kDefault` of `GetNumberSuffixArray`, the bytes of "default". -/
def kDefault : Str := [100, 101, 102, 97, 117, 108, 116]

/-- The first loop of `GetNumberSuffixArray`: the last row whose trigger is
"default" and the last other row whose trigger is the history input. -/
def FindNumberRows (history_input : Str) :
    List (List Str) → Nat → Option Nat × Option Nat → Option Nat × Option Nat
  | [], _, acc => acc
  | row :: rows, i, acc =>
    if kDefault = row.getD 0 [] then FindNumberRows history_input rows (i + 1) (some i, acc.2)
    else if history_input = row.getD 0 [] then
      FindNumberRows history_input rows (i + 1) (acc.1, some i)
    else FindNumberRows history_input rows (i + 1) acc

/-- The function `GetNumberSuffixArray`: the suffixes of the row of the history
input, then those of the default row. -/
def GetNumberSuffixArray (table : List (List Str)) (history_input : Str) : List Str :=
  let nums := FindNumberRows history_input table 0 (none, none)
  (match nums.2 with
    | some suffix_num => (table.getD suffix_num []).drop 1
    | none => [])
  ++ (match nums.1 with
    | some default_num => (table.getD default_num []).drop 1
    | none => [])

/-! ## DictionaryPredictor -/

/-- The method `GetLMCost`: transition cost plus word cost, plus the suffix
penalty for results that are not REALTIME. -/
def GetLMCost (env : Env) (type : PredictionType) (node : Node) (rid : Nat) : Int :=
  let lm_cost := wrap32 (env.GetTransitionCost rid node.lid + node.wcost)
  if !type.realtime then wrap32 (lm_cost + env.GetSuffixPenalty node.rid) else lm_cost

/-- The search loop of `LookupKeyValueFromDictionary` along the `bnext` chain. -/
def FindValue (value : Str) : List Node → Option Node
  | [] => none
  | node :: rest => if value = node.value then some node else FindValue value rest

/-- The method `LookupKeyValueFromDictionary`; `none` is the NULL result. -/
def LookupKeyValueFromDictionary (env : Env) (key value : Str) (max_nodes_size : Nat) :
    Option Node :=
  FindValue value (DictionaryInterface.LookupPrefix env.dictionary key max_nodes_size)

/-- The method `GetHistoryKeyAndValue`: its return value and the two strings,
which stay empty when it returns false. -/
def GetHistoryKeyAndValue (segments : Segments) : Bool × Str × Str :=
  if segments.history_segments_size > 0 then
    let history_segment := segments.history_segment (segments.history_segments_size - 1)
    if history_segment.candidates.length > 0 then
      (true, (history_segment.candidates.getD 0 default).key,
        (history_segment.candidates.getD 0 default).value)
    else (false, [], [])
  else (false, [], [])

/-- The significand of the `double` nearest to 0.4: the literal `0.4` is
`kPointFour / 2^53`. -/
def kPointFour : Nat := 3602879701896397

/-- The search for the exponent of the last place of a `double`: the smallest
`s` from the given one on with `n / 2^s < 2^53`. -/
def RoundShiftLoop : Nat → Nat → Nat → Nat
  | 0, _, s => s
  | fuel + 1, n, s => if n / 2 ^ s < 2 ^ 53 then s else RoundShiftLoop fuel n (s + 1)

/-- Rounding of a natural number to 53 significant bits, to nearest and ties to
even, as the conversion of a `size_t` to `double` and the `double` product
round: the result is `q * 2^s` with `q` of at most 53 bits. Scaling by a power
of two does not change the rounding, so the product of two doubles `a * 2^-i`
and `b * 2^-j` is `RoundToDouble (a * b) * 2^-(i+j)`. -/
def RoundToDouble (n : Nat) : Nat :=
  let s := RoundShiftLoop 128 n 0
  let q := n / 2 ^ s
  let r := n % 2 ^ s
  if 2 * r > 2 ^ s ∨ (2 * r = 2 ^ s ∧ q % 2 = 1) then (q + 1) * 2 ^ s else q * 2 ^ s

/-- The expression `static_cast<size_t>(0.4 * key_len)`: `key_len` converted to
`double`, the `double` product with the literal 0.4, and the integer part of
the product. -/
def PointFourTimes (key_len : Nat) : Nat :=
  RoundToDouble (RoundToDouble key_len * kPointFour) / 2 ^ 53

/-- The expression `cost - kCostFactor * log(1.0 + remain_len)` of
`SetPredictionCost` and its conversion to the `int` member `cost`, for an
`int` `remain_len` that is not negative. The sum `1.0 + remain_len` is exact;
with `log(1.0 + remain_len) = m * 2^-e` the product with 500 is
`RoundToDouble (500 * m) * 2^-e`, the difference is the rounding of
`(cost * 2^e - b) * 2^-e`, and the conversion cuts the fraction off (towards
zero). A value outside the range of `int`, where C++ leaves the conversion
undefined, is reduced to 32 bits. -/
def SubtractLengthBonus (env : Env) (cost : Int) (remain_len : Int) : Int :=
  let l := env.log (1 + remain_len.toNat)
  let b := RoundToDouble (500 * l.1)
  let n := cost * 2 ^ l.2 - (b : Int)
  let t := RoundToDouble n.natAbs / 2 ^ l.2
  wrap32 (if n < 0 then -(t : Int) else (t : Int))

/-- The method `IsAggressiveSuggestion`. -/
def IsAggressiveSuggestion (query_len key_len : Nat) (cost : Int) (is_suggestion : Bool)
    (total_candidates_size : Nat) : Bool :=
  is_suggestion && decide (total_candidates_size ≥ 10) && decide (key_len ≥ 8) &&
    decide (cost ≥ 5000) && decide (query_len ≤ PointFourTimes key_len)

/-- The `rid` that `SetPredictionCost` and `SetLMCost` start from: that of the
top candidate of the last history segment, 0 (BOS) without one. -/
def HistoryRid (segments : Segments) : Nat :=
  if segments.history_segments_size > 0 then
    let history_segment := segments.history_segment (segments.history_segments_size - 1)
    if history_segment.candidates.length > 0 then (history_segment.candidates.getD 0 default).rid
    else 0
  else 0

/-- The body of the loop of `SetPredictionCost` for one result. -/
def SetPredictionCostOne (env : Env) (segments : Segments) (total : Nat) (r : Result) : Result :=
  let input_key := (segments.conversion_segment 0).key
  let history_key := (GetHistoryKeyAndValue segments).2.1
  let bigram_key := history_key ++ input_key
  let is_suggestion := decide (segments.request_type = RequestType.SUGGESTION)
  let bigram_key_len := CharsLen bigram_key
  let unigram_key_len := CharsLen input_key
  let cost := GetLMCost env r.type r.node (HistoryRid segments)
  let query_len := if r.type.bigram then bigram_key_len else unigram_key_len
  let key_len := CharsLen r.node.key
  if IsAggressiveSuggestion query_len key_len cost is_suggestion total then
    { r with cost := INT_MAX }
  else
    { r with cost := SubtractLengthBonus env cost (max 0 (wrap32 ((key_len : Int) - query_len))) }

/-- The method `SetPredictionCost` (desktop cost): the loop writes each result
from that result alone and the size of the vector. -/
def SetPredictionCost (env : Env) (segments : Segments) (results : List Result) : List Result :=
  results.map (SetPredictionCostOne env segments results.length)

/-- The `prev_cost` of `SetLMCost`: the cost of the history top candidate, 5000
when that is 0, and 0 without a history candidate. -/
def HistoryPrevCost (segments : Segments) : Int :=
  if segments.history_segments_size > 0 then
    let history_segment := segments.history_segment (segments.history_segments_size - 1)
    if history_segment.candidates.length > 0 then
      if (history_segment.candidates.getD 0 default).cost = 0 then 5000
      else (history_segment.candidates.getD 0 default).cost
    else 0
  else 0

/-- The body of the loop of `SetLMCost` for one result. -/
def SetLMCostOne (env : Env) (segments : Segments) (r : Result) : Result :=
  let cost := GetLMCost env r.type r.node (HistoryRid segments)
  let cost1 :=
    if r.type.unigram then
      if CharsLen r.node.key > CharsLen (segments.conversion_segment 0).key then
        wrap32 (cost + 1956)
      else cost
    else cost
  let cost2 :=
    if r.type.bigram then wrap32 (cost1 + wrap32 (1347 - HistoryPrevCost segments)) else cost1
  { r with cost := cost2 }

/-- The method `SetLMCost` (mixed-mode cost). -/
def SetLMCost (env : Env) (segments : Segments) (results : List Result) : List Result :=
  results.map (SetLMCostOne env segments)

/-- The constant `kKeyExpansionPenalty`. -/
def kKeyExpansionPenalty : Int := 1151

/-- The method `ApplyPenaltyForKeyExpansion`. -/
def ApplyPenaltyForKeyExpansion (segments : Segments) (results : List Result) : List Result :=
  if segments.conversion_segments_size = 0 then results
  else
    results.map (fun r =>
      if !StartsWith r.node.key (segments.conversion_segment 0).key then
        { r with cost := wrap32 (r.cost + kKeyExpansionPenalty) }
      else r)

/-- The method `SetCost`. -/
def SetCost (env : Env) (segments : Segments) (results : List Result) : List Result :=
  ApplyPenaltyForKeyExpansion segments
    (if env.mixed_conversion then SetLMCost env segments results
     else SetPredictionCost env segments results)

/-- The two loops of `GetMissSpelledPosition` on the code points of the
converted value and of the key. -/
def MissSpelledLoop : List Nat → List Nat → Nat → Nat
  | h :: hs, k :: ks, position => if h ≠ k then position else MissSpelledLoop hs ks (position + 1)
  | [], ks, position => position + ks.length
  | _ :: _, [], position => position

/-- The method `GetMissSpelledPosition`. -/
def GetMissSpelledPosition (env : Env) (key value : Str) : Nat :=
  let hiragana_value := env.KatakanaToHiragana value
  if env.GetScriptType hiragana_value ≠ ScriptType.HIRAGANA then CharsLen key
  else MissSpelledLoop (Chars32 hiragana_value) (Chars32 key) 0

/-- Sets the type of the results at the given indices to `NO_PREDICTION`. -/
def MarkNoPrediction (results : List Result) (indices : List Nat) : List Result :=
  indices.foldl
    (fun rs j => rs.set j { rs.getD j default with type := NO_PREDICTION }) results

/-- The loop of `RemoveMissSpelledCandidates` from index `i` on, with the
counter `spelling_correction_size`; the first argument is the number of
indices left, `results->size() - i`. -/
def RemoveMissSpelledLoop (env : Env) (request_key_len : Nat) :
    Nat → Nat → Int → List Result → List Result
  | 0, _, _, results => results
  | n + 1, i, spelling_correction_size, results =>
    let result := results.getD i default
    if !result.node.spelling_correction then
      RemoveMissSpelledLoop env request_key_len n (i + 1) spelling_correction_size results
    else if spelling_correction_size - 1 = 0 then results
    else
      let others := (List.range results.length).filter (fun j =>
        decide (i ≠ j) && !(results.getD j default).node.spelling_correction)
      let same_key_index := others.filter (fun j =>
        decide ((results.getD j default).node.key = result.node.key))
      let same_value_index := others.filter (fun j =>
        decide ((results.getD j default).node.value = result.node.value))
      let results1 :=
        if !same_key_index.isEmpty && !same_value_index.isEmpty then
          MarkNoPrediction (MarkNoPrediction results [i]) same_key_index
        else if same_key_index.isEmpty && !same_value_index.isEmpty then
          MarkNoPrediction results [i]
        else if !same_key_index.isEmpty && same_value_index.isEmpty then
          let marked := MarkNoPrediction results same_key_index
          if request_key_len ≤ GetMissSpelledPosition env result.node.key result.node.value then
            MarkNoPrediction marked [i]
          else marked
        else results
      RemoveMissSpelledLoop env request_key_len n (i + 1) (spelling_correction_size - 1) results1

/-- The method `RemoveMissSpelledCandidates`. -/
def RemoveMissSpelledCandidates (env : Env) (request_key_len : Nat) (results : List Result) :
    List Result :=
  if results.length ≤ 1 then results
  else RemoveMissSpelledLoop env request_key_len results.length 0 5 results

/-- The method `RemovePrediction`. -/
def RemovePrediction (env : Env) (segments : Segments) (results : List Result) : List Result :=
  if !env.mixed_conversion then
    RemoveMissSpelledCandidates env (CharsLen (segments.conversion_segment 0).key) results
  else results

/-- The method `GetRealtimeCandidateMaxSize`. -/
def GetRealtimeCandidateMaxSize (segments : Segments) (mixed_conversion : Bool) (max_size : Nat) :
    Nat :=
  let few := decide (segments.segments_size > 0 ∧ CharsLen (segments.segment 0).key ≥ 8)
  let max_size1 := if few then min max_size 8 else max_size
  let default_size := if few then 3 else 6
  let size :=
    match segments.request_type with
    | RequestType.PREDICTION =>
      if mixed_conversion then size_sub max_size1 default_size else default_size
    | RequestType.SUGGESTION => if mixed_conversion then default_size else 1
    | RequestType.PARTIAL_PREDICTION => max_size1
    | RequestType.PARTIAL_SUGGESTION => default_size
    | RequestType.CONVERSION => 0
  min max_size1 size

/-- The node that `AggregateRealtimeConversion` builds from a candidate of the
immutable converter. -/
def NodeOfCandidate (candidate : Candidate) : Node :=
  { key := candidate.key, value := candidate.value, lid := candidate.lid, rid := candidate.rid,
    wcost := candidate.wcost, spelling_correction := candidate.spelling_correction }

/-- The method `AggregateRealtimeConversion`: the segments and the results as
it leaves them. -/
def AggregateRealtimeConversion (env : Env) (type : PredictionType) (segments : Segments)
    (results : List Result) : Segments × List Result :=
  if !type.realtime then (segments, results)
  else
    let prev_candidates_size := (segments.conversion_segment 0).candidates.length
    let prev_max_prediction_candidates_size := segments.max_prediction_candidates_size
    let realtime_candidates_size :=
      GetRealtimeCandidateMaxSize segments env.mixed_conversion
        (size_sub prev_max_prediction_candidates_size prev_candidates_size)
    let converted := env.Convert
      (segments.set_max_prediction_candidates_size
        (size_add prev_candidates_size realtime_candidates_size))
    let candidates := (converted.2.conversion_segment 0).candidates
    if converted.1 && decide (prev_candidates_size < candidates.length) then
      (((converted.2.set_candidates (candidates.take prev_candidates_size))
          ).set_max_prediction_candidates_size prev_max_prediction_candidates_size,
        results ++ (candidates.drop prev_candidates_size).map
          (fun candidate => { node := NodeOfCandidate candidate, type := REALTIME, cost := 0 }))
    else (converted.2, results)

/-- The method `GetUnigramCandidateCutoffThreshold`. -/
def GetUnigramCandidateCutoffThreshold (segments : Segments) (mixed_conversion : Bool) : Nat :=
  if mixed_conversion then kSuggestionMaxNodesSize
  else if segments.request_type = RequestType.PREDICTION then kPredictionMaxNodesSize
  else kSuggestionMaxNodesSize

/-- The method `GetPredictiveNodes`, `max_nodes_size` being that of the
allocator passed on to the dictionary. -/
def GetPredictiveNodes (env : Env) (dictionary : DictionaryInterface) (history_key : Str)
    (request : ConversionRequest) (segments : Segments) (max_nodes_size : Nat) : List Node :=
  match request.composer with
  | none =>
    dictionary.LookupPredictive (history_key ++ (segments.conversion_segment 0).key) max_nodes_size
  | some (base, expanded) =>
    if !env.enable_expansion_for_dictionary_predictor then
      dictionary.LookupPredictive (history_key ++ (segments.conversion_segment 0).key)
        max_nodes_size
    else
      dictionary.LookupPredictiveWithLimit (history_key ++ base)
        (if expanded.length > 0 then some expanded else none) max_nodes_size

/-- The method `AggregateUnigramPrediction`: the `max_nodes_size` of the
allocator and the results as it leaves them. -/
def AggregateUnigramPrediction (env : Env) (type : PredictionType) (request : ConversionRequest)
    (segments : Segments) (max_nodes_size : Nat) (results : List Result) : Nat × List Result :=
  if !type.unigram then (max_nodes_size, results)
  else
    let cutoff_threshold := GetUnigramCandidateCutoffThreshold segments env.mixed_conversion
    let prev_results_size := results.length
    let unigram_nodes := GetPredictiveNodes env env.dictionary [] request segments cutoff_threshold
    let appended := results ++ unigram_nodes.map
      (fun node => { node := node, type := UNIGRAM, cost := 0 })
    if unigram_nodes.length ≥ cutoff_threshold then
      (cutoff_threshold, appended.take prev_results_size)
    else (cutoff_threshold, appended)

/-- The body of the filter loop of `AggregateBigramPrediction` for one result
of the appended block; `none` when a `substr` raises. -/
def BigramFilterOne (env : Env) (history_key history_value : Str) (history_node : Node)
    (last_history_ctype : ScriptType) (is_zero_query : Bool) (max_nodes_size : Nat)
    (r : Result) : Option Result :=
  match substr r.node.key history_key.length (r.node.key.length - history_key.length) with
  | none => none
  | some key =>
    match substr r.node.value history_value.length
        (r.node.value.length - history_value.length) with
    | none => none
    | some value =>
      if key.isEmpty || value.isEmpty then some { r with type := NO_PREDICTION }
      else if history_node.wcost > r.node.wcost then some { r with type := NO_PREDICTION }
      else if decide (env.GetScriptType (SubString value 0 1) = last_history_ctype) &&
          (decide (env.GetScriptType (SubString value 0 1) = ScriptType.HIRAGANA) ||
            (decide (env.GetScriptType (SubString value 0 1) = ScriptType.KATAKANA) &&
              decide (CharsLen r.node.key ≤ 5))) then
        some { r with type := NO_PREDICTION }
      else if decide (env.GetScriptType (SubString value 0 1) = ScriptType.KANJI) &&
          is_zero_query then
        some r
      else if (LookupKeyValueFromDictionary env key value max_nodes_size).isNone then
        some { r with type := NO_PREDICTION }
      else some r

/-- The filter loop of `AggregateBigramPrediction` over the appended block. -/
def BigramFilterLoop (env : Env) (history_key history_value : Str) (history_node : Node)
    (last_history_ctype : ScriptType) (is_zero_query : Bool) (max_nodes_size : Nat) :
    List Result → Option (List Result)
  | [] => some []
  | r :: rest =>
    match BigramFilterOne env history_key history_value history_node last_history_ctype
        is_zero_query max_nodes_size r with
    | none => none
    | some r1 =>
      match BigramFilterLoop env history_key history_value history_node last_history_ctype
          is_zero_query max_nodes_size rest with
      | none => none
      | some rest1 => some (r1 :: rest1)

/-- The method `AggregateBigramPrediction`: the `max_nodes_size` of the
allocator and the results as it leaves them. -/
def AggregateBigramPrediction (env : Env) (type : PredictionType) (request : ConversionRequest)
    (segments : Segments) (max_nodes_size : Nat) (results : List Result) :
    Option (Nat × List Result) :=
  if !type.bigram then some (max_nodes_size, results)
  else
    let is_zero_query := (segments.conversion_segment 0).key.isEmpty
    let history_key := (GetHistoryKeyAndValue segments).2.1
    let history_value := (GetHistoryKeyAndValue segments).2.2
    match LookupKeyValueFromDictionary env history_key history_value max_nodes_size with
    | none => some (max_nodes_size, results)
    | some history_node =>
      let max_nodes_size1 :=
        if segments.request_type = RequestType.PREDICTION then kPredictionMaxNodesSize
        else kSuggestionMaxNodesSize
      let prev_results_size := results.length
      let block :=
        ((GetPredictiveNodes env env.dictionary history_key request segments max_nodes_size1).filter
          (fun node => StartsWith node.value history_value)).map
          (fun node => ({ node := node, type := BIGRAM, cost := 0 } : Result))
      if block.length ≥ max_nodes_size1 then
        some (max_nodes_size1, (results ++ block).take prev_results_size)
      else if CharsLen history_value = 0 then some (max_nodes_size1, results ++ block)
      else
        match BigramFilterLoop env history_key history_value history_node
            (env.GetScriptType (SubString history_value (CharsLen history_value - 1) 1))
            is_zero_query max_nodes_size1 block with
        | none => none
        | some block1 => some (max_nodes_size1, results ++ block1)

/-- The nodes that `AggregateSuffixPrediction` fabricates for the counter
suffixes, `cost` being the running word cost. -/
def NumberSuffixResults (counter_suffix_word_id : Nat) : List Str → Int → List Result
  | [], _ => []
  | s :: rest, cost =>
    { node := { key := s, value := s, lid := counter_suffix_word_id,
                rid := counter_suffix_word_id, wcost := cost, spelling_correction := false },
      type := SUFFIX, cost := 0 }
      :: NumberSuffixResults counter_suffix_word_id rest (wrap32 (cost + 10))

/-- The method `AggregateSuffixPrediction`. -/
def AggregateSuffixPrediction (env : Env) (type : PredictionType) (request : ConversionRequest)
    (segments : Segments) (max_nodes_size : Nat) (results : List Result) : List Result :=
  if !type.suffix then results
  else
    let history_size := segments.history_segments_size
    let has_number_history :=
      if history_size ≠ 0 then IsNumber (segments.history_segment (history_size - 1)).key
      else false
    if has_number_history && decide ((segments.conversion_segment 0).key.length = 0) then
      results ++ NumberSuffixResults env.counter_suffix_word_id
        (GetNumberSuffixArray env.ZeroQueryNum (segments.history_segment (history_size - 1)).key) 0
    else
      results ++ (GetPredictiveNodes env env.suffix_dictionary [] request segments
        max_nodes_size).map (fun node => { node := node, type := SUFFIX, cost := 0 })

/-- Modelled from the spec: the `mblen` that `Util::UTF8ToUCS2` of base/util.h
reports, the byte length of the first character. -/
def UTF8ToUCS2_mblen (s : Str) : Nat := (UTF8ToUCS4 s).2

/-- The loop of `IsZipCodeRequest` over the bytes from `begin` on; the first
argument bounds the rounds by the number of bytes. -/
def IsZipCodeLoop : Nat → Str → Bool
  | 0, _ => true
  | _, [] => true
  | fuel + 1, b :: rest =>
    if UTF8ToUCS2_mblen (b :: rest) = 1 ∧ ((48 ≤ b ∧ b ≤ 57) ∨ b = 45) then
      IsZipCodeLoop fuel ((b :: rest).drop (UTF8ToUCS2_mblen (b :: rest)))
    else false

/-- The method `IsZipCodeRequest`. -/
def IsZipCodeRequest (key : Str) : Bool :=
  if key.isEmpty then false else IsZipCodeLoop key.length key

/-- The method `GetPredictionType`. -/
def GetPredictionType (env : Env) (segments : Segments) : PredictionType :=
  if segments.request_type = RequestType.CONVERSION then NO_PREDICTION
  else if segments.conversion_segments_size < 1 then NO_PREDICTION
  else
    let key := (segments.conversion_segment 0).key
    let result0 : PredictionType :=
      if segments.request_type = RequestType.PARTIAL_SUGGESTION then
        { NO_PREDICTION with realtime := true }
      else if (env.use_realtime_conversion || env.mixed_conversion) &&
          decide (key.length > 0) && decide (key.length < 300) then
        { NO_PREDICTION with realtime := true }
      else NO_PREDICTION
    if !env.use_dictionary_suggest && decide (segments.request_type = RequestType.SUGGESTION) then
      result0
    else
      let key_len := CharsLen key
      if decide (key_len = 0) && !env.zero_query_suggestion then result0
      else if decide (segments.request_type = RequestType.SUGGESTION) && IsZipCodeRequest key &&
          decide (key_len < 6) then
        result0
      else
        let kMinUnigramKeyLen := if env.zero_query_suggestion then 1 else 3
        let result1 : PredictionType :=
          if (decide (segments.request_type = RequestType.PREDICTION) && decide (key_len ≥ 1)) ||
              decide (key_len ≥ kMinUnigramKeyLen) then
            { result0 with unigram := true }
          else result0
        let history_segments_size := segments.history_segments_size
        let result2 : PredictionType :=
          if history_segments_size > 0 then
            let history_segment := segments.history_segment (history_segments_size - 1)
            let kMinHistoryKeyLen := if env.zero_query_suggestion then 2 else 3
            if decide (history_segment.candidates.length > 0) &&
                decide (CharsLen (history_segment.candidates.getD 0 default).key
                  ≥ kMinHistoryKeyLen) then
              { result1 with bigram := true }
            else result1
          else result1
        if decide (history_segments_size > 0) && env.zero_query_suggestion then
          { result2 with suffix := true }
        else result2

/-- The method `AggregatePrediction`: its return value, the segments and the
results as it leaves them; `max_nodes_size` is that of the fresh allocator. -/
def AggregatePrediction (env : Env) (request : ConversionRequest) (segments : Segments)
    (max_nodes_size : Nat) (results : List Result) : Option (Bool × Segments × List Result) :=
  let prediction_type := GetPredictionType env segments
  if prediction_type = NO_PREDICTION then some (false, segments, results)
  else if segments.request_type = RequestType.PARTIAL_SUGGESTION ∨
      segments.request_type = RequestType.PARTIAL_PREDICTION then
    let realtime := AggregateRealtimeConversion env prediction_type segments results
    some (!realtime.2.isEmpty, realtime.1, realtime.2)
  else
    let realtime := AggregateRealtimeConversion env prediction_type segments results
    let unigram := AggregateUnigramPrediction env prediction_type request realtime.1
      max_nodes_size realtime.2
    match AggregateBigramPrediction env prediction_type request realtime.1 unigram.1 unigram.2 with
    | none => none
    | some bigram =>
      let results1 := AggregateSuffixPrediction env prediction_type request realtime.1
        bigram.1 bigram.2
      some (!results1.isEmpty, realtime.1, results1)

/-- The local state of the loop of `AddPredictionToCandidates`: the results
vector (permuted in place by `pop_heap`), the counter `added`, the set `seen`,
and the candidates pushed onto the segment so far, oldest first, each next to
the result that was popped for it. -/
structure EmitState where
  results : List Result
  added : Nat
  seen : List Str
  emitted : List (Result × Candidate)
  deriving DecidableEq, Repr, Inhabited

/-- The candidate that `AddPredictionToCandidates` fills in after
`push_back_candidate()` and `Init()`. -/
def MakeCandidate (node : Node) (key value : Str) (cost : Int) : Candidate :=
  { key := key, value := value, content_key := key, content_value := value,
    lid := node.lid, rid := node.rid, wcost := node.wcost, cost := cost,
    spelling_correction := node.spelling_correction }

/-- The key and value that the loop of `AddPredictionToCandidates` gives the
candidate built from `result`: the node's, without the first bytes that the
history key and value take for a BIGRAM result; `none` when a `substr` raises. -/
def StrippedKeyValue (segments : Segments) (result : Result) : Option (Str × Str) :=
  let history_key := (GetHistoryKeyAndValue segments).2.1
  let history_value := (GetHistoryKeyAndValue segments).2.2
  if result.type.bigram then
    match substr result.node.key history_key.length
        (result.node.key.length - history_key.length) with
    | none => none
    | some key =>
      match substr result.node.value history_value.length
          (result.node.value.length - history_value.length) with
      | none => none
      | some value => some (key, value)
  else some (result.node.key, result.node.value)

/-- The body of the loop of `AddPredictionToCandidates` at index `i`, after the
test for `break`; `none` when a `substr` raises. -/
def AddPredictionBody (env : Env) (segments : Segments) (i : Nat) (st : EmitState) :
    Option EmitState :=
  let input_key := (segments.conversion_segment 0).key
  let input_key_len := CharsLen input_key
  let history_key := (GetHistoryKeyAndValue segments).2.1
  let exact_bigram_key := history_key ++ input_key
  let results := pop_heap ResultCompare st.results (st.results.length - i)
  let result := results.getD (results.length - i - 1) default
  let node := result.node
  let st1 := { st with results := results }
  if result.type = NO_PREDICTION then some st1
  else if env.IsBadSuggestion node.value && !(env.mixed_conversion && result.type.realtime) then
    some st1
  else if !env.mixed_conversion && !result.type.realtime &&
      ((result.type.bigram && decide (exact_bigram_key = node.value)) ||
        (!result.type.bigram && decide (input_key = node.value))) then
    some st1
  else
    match StrippedKeyValue segments result with
    | none => none
    | some (key, value) =>
      if value ∈ st.seen then some st1
      else if node.spelling_correction && decide (key ≠ input_key) &&
          decide (input_key_len ≤ GetMissSpelledPosition env key value + 1) then
        some { st1 with seen := value :: st.seen }
      else
        some { results := results, added := st.added + 1, seen := value :: st.seen,
               emitted := st.emitted ++
                 [(result, MakeCandidate node key value (results.getD i default).cost)] }

/-- The loop of `AddPredictionToCandidates` from index `i` on; the first
argument is the number of indices left, `results->size() - i`. -/
def AddPredictionLoop (env : Env) (segments : Segments) (size : Nat) :
    Nat → Nat → EmitState → Option EmitState
  | 0, _, st => some st
  | n + 1, i, st =>
    if st.added ≥ size ∨ (st.results.getD i default).cost = INT_MAX then some st
    else
      match AddPredictionBody env segments i st with
      | none => none
      | some st1 => AddPredictionLoop env segments size n (i + 1) st1

/-- The run of `AddPredictionToCandidates` from `make_heap` to the end of the
loop. -/
def AddPredictionRun (env : Env) (segments : Segments) (results : List Result) :
    Option EmitState :=
  AddPredictionLoop env segments (min segments.max_prediction_candidates_size results.length)
    results.length 0
    { results := make_heap ResultCompare results, added := 0, seen := [], emitted := [] }

/-- The method `AddPredictionToCandidates`: its return value and the segments
as it leaves them, the emitted candidates pushed at the back of
`conversion_segment(0)`. -/
def AddPredictionToCandidates (env : Env) (segments : Segments) (results : List Result) :
    Option (Bool × Segments) :=
  match AddPredictionRun env segments results with
  | none => none
  | some st =>
    some (decide (st.added > 0),
      segments.set_candidates
        ((segments.conversion_segment 0).candidates ++ st.emitted.map Prod.snd))

/-- The method `PredictForRequest`; the argument `none` is the NULL pointer.
Returns the value and the segments as the call leaves them. -/
def PredictForRequest (env : Env) (request : ConversionRequest) (segments : Option Segments) :
    Option (Bool × Option Segments) :=
  match segments with
  | none => some (false, none)
  | some segs =>
    match AggregatePrediction env request segs env.default_max_nodes_size [] with
    | none => none
    | some (false, segs1, _) => some (false, some segs1)
    | some (true, segs1, results) =>
      match AddPredictionToCandidates env segs1
          (RemovePrediction env segs1 (SetCost env segs1 results)) with
      | none => none
      | some (b, segs2) => some (b, some segs2)

/-- The method `Predict`, with the default request (no composer). -/
def Predict (env : Env) (segments : Option Segments) : Option (Bool × Option Segments) :=
  PredictForRequest env { composer := none } segments

/-! ## Assumptions on the immutable converter -/

/-- The converter only appends candidates to conversion segment 0: the
segments it leaves are those it got, with candidates added at the end of that
segment. -/
def ConvertOnlyAppends (env : Env) : Prop :=
  ∀ s : Segments, ∃ app : List Candidate,
    (env.Convert s).2 = s.set_candidates ((s.conversion_segment 0).candidates ++ app)

/-- The converter leaves the candidates of conversion segment 0 as they are
when it returns false. -/
def ConvertAppendsNoneOnFailure (env : Env) : Prop :=
  ∀ s : Segments, (env.Convert s).1 = false →
    ((env.Convert s).2.conversion_segment 0).candidates = (s.conversion_segment 0).candidates

/-- What the filter loop of bigram aggregation guarantees of a result that is
still BIGRAM: the node key is at least as long as the history key and longer
by at least one byte, the node value starts with the history value and goes
on after it. -/
def BigramStripped (segments : Segments) (r : Result) : Prop :=
  r.type.bigram = true →
    (GetHistoryKeyAndValue segments).2.1.length ≤ r.node.key.length ∧
    r.node.key.drop (GetHistoryKeyAndValue segments).2.1.length ≠ [] ∧
    StartsWith r.node.value (GetHistoryKeyAndValue segments).2.2 = true ∧
    r.node.value.drop (GetHistoryKeyAndValue segments).2.2.length ≠ []

/-- The tests of `GetPredictionType` that return before the unigram, bigram
and suffix decisions: CONVERSION, no conversion segment, SUGGESTION without
dictionary suggest, empty key without zero-query suggestion, short zip code. -/
def ReturnsEarly (env : Env) (segments : Segments) : Bool :=
  decide (segments.request_type = RequestType.CONVERSION) ||
  decide (segments.conversion_segments_size < 1) ||
  (!env.use_dictionary_suggest && decide (segments.request_type = RequestType.SUGGESTION)) ||
  (decide (CharsLen (segments.conversion_segment 0).key = 0) && !env.zero_query_suggestion) ||
  (decide (segments.request_type = RequestType.SUGGESTION) &&
    IsZipCodeRequest (segments.conversion_segment 0).key &&
    decide (CharsLen (segments.conversion_segment 0).key < 6))

/-- The size of the realtime block in the words of the specification, for a
budget `budget`: `max_size = budget` and `default_size = 6`, or
`max_size = min(budget, 8)` and `default_size = 3` when the first segment's key
is long (8 characters or more); `size` by request type and `mixed`; the result
is `min(max_size, size)`. The difference `max_size - default_size` is the
`size_t` difference. -/
def RealtimeCandidateMaxSizeSpec (long_first_key : Bool) (request_type : RequestType)
    (mixed : Bool) (budget : Nat) : Nat :=
  let max_size := if long_first_key then min budget 8 else budget
  let default_size := if long_first_key then 3 else 6
  min max_size
    (match request_type, mixed with
      | RequestType.PREDICTION, true => size_sub max_size default_size
      | RequestType.PREDICTION, false => default_size
      | RequestType.SUGGESTION, true => default_size
      | RequestType.SUGGESTION, false => 1
      | RequestType.PARTIAL_PREDICTION, _ => max_size
      | RequestType.PARTIAL_SUGGESTION, _ => default_size
      | RequestType.CONVERSION, _ => 0)

/-- The results in the words of the specification of the key-expansion penalty:
a result whose node key starts with the conversion key is kept, every other
result has 1151 added to its cost (an `int` addition). -/
def KeyExpansionPenaltySpec (conversion_key : Str) (r : Result) : Result :=
  if StartsWith r.node.key conversion_key = true then r
  else { r with cost := wrap32 (r.cost + 1151) }

/-- The cost of a result in mixed mode in the words of the specification, as an
integer: the lm cost, plus 1956 for a UNIGRAM result whose node key has more
characters than the input key, plus `1347 - prev_cost` for a BIGRAM result. -/
def LMCostSpec (env : Env) (segments : Segments) (r : Result) : Int :=
  GetLMCost env r.type r.node (HistoryRid segments)
    + (if r.type.unigram = true ∧
          CharsLen r.node.key > CharsLen (segments.conversion_segment 0).key then 1956 else 0)
    + (if r.type.bigram = true then 1347 - HistoryPrevCost segments else 0)

/-- The suffixes of the number table under a trigger in the words of the
specification: the entries after the trigger of the row that starts with it
(of the last such row, should the table repeat a trigger), none without such
a row. -/
def RowSuffixes (table : List (List Str)) (trigger : Str) : List Str :=
  ((table.filter (fun row => decide (row.getD 0 [] = trigger))).getLast?.getD []).drop 1

/-- The SUFFIX result that the specification describes for the counter suffix
`s` at position `i`: `key = value = s`, `lid = rid = counter_suffix_word_id`,
`wcost = 10 * i`. -/
def CounterSuffixResultSpec (counter_suffix_word_id : Nat) (i : Nat) (s : Str) : Result :=
  { node := { key := s, value := s, lid := counter_suffix_word_id,
              rid := counter_suffix_word_id, wcost := 10 * (i : Int),
              spelling_correction := false },
    type := SUFFIX, cost := 0 }

/-! ## COM objects (base/win32/com_implements.h) -/

/-- An interface id (`IID`, a GUID), read as a 128-bit number. -/
abbrev IID := Nat

/-- The function `IsEqualIID` of guiddef.h. -/
def IsEqualIID (a b : IID) : Bool := decide (a = b)

/-- The value of `__uuidof(IUnknown)`, {00000000-0000-0000-C000-000000000046}
(unknwn.h). -/
def IID_IUnknown : IID := 0xC000000000000046

/-- The `HRESULT` values that `QueryInterface` returns. -/
inductive HRESULT
  | S_OK
  | E_POINTER
  | E_NOINTERFACE
  deriving DecidableEq, Repr, Inhabited

/-- A COM interface type `T` as `ComImplements` sees it: its `__uuidof(T)` and
the explicit specialization of `IsIIDOf<T>` when the program defines one. -/
structure Interface where
  uuid : IID
  specialization : Option (IID → Bool)

/-- The primary function template `IsIIDOf<Interfaces...>(riid)` on the ids of
the interfaces of the pack: `(... || IsEqualIID(riid, __uuidof(Interfaces)))`. -/
def IsIIDOfPack (uuids : List IID) (riid : IID) : Bool :=
  uuids.foldl (fun acc uuid => acc || IsEqualIID riid uuid) false

/-- The call `IsIIDOf<T>(riid)`: the specialization for `T` when there is one,
the primary template otherwise. -/
def IsIIDOf (T : Interface) (riid : IID) : Bool :=
  match T.specialization with
  | some f => f riid
  | none => IsIIDOfPack [T.uuid] riid

/-- A non-null interface pointer handed out by `QueryInterface`: `this` seen as
the base subobject of the interface at position `index` of `Interfaces`, which
is also the address of the `IUnknown` of that base. -/
structure InterfacePointer where
  index : Nat
  deriving DecidableEq, Repr, Inhabited

/-- The state of a `ComImplements<Interfaces...>` object: the pack of
interfaces and the `ULONG` counter `ref_count_`. -/
structure ComImplements where
  Interfaces : List Interface
  ref_count_ : Nat

namespace ComImplements

/-- The method `AddRef`: `++ref_count_` on a 32-bit unsigned counter; returns
the new value and the object. -/
def AddRef (self : ComImplements) : Nat × ComImplements :=
  ((self.ref_count_ + 1) % 4294967296,
   { self with ref_count_ := (self.ref_count_ + 1) % 4294967296 })

/-- The method template `QueryInterfaceImpl<T, Rest...>(riid)`; `index` is the
position of `T` in `Interfaces`, and `none` is `nullptr`. The pack is never
empty in a program that compiles. -/
def QueryInterfaceImpl : List Interface → Nat → IID → Option InterfacePointer
  | [], _, _ => none
  | [T], index, riid =>
    if IsIIDOf T riid then some { index := index }
    else if IsIIDOfPack [IID_IUnknown] riid then some { index := index }
    else none
  | T :: U :: Rest, index, riid =>
    if IsIIDOf T riid then some { index := index }
    else QueryInterfaceImpl (U :: Rest) (index + 1) riid

/-- The method `QueryInterface(riid, out)`. The argument `out` is `none` for a
null pointer and otherwise holds what `*out` was (`none` for `nullptr`);
returns the `HRESULT`, the object and `*out` as the call leaves them. -/
def QueryInterface (self : ComImplements) (riid : IID)
    (out : Option (Option InterfacePointer)) :
    HRESULT × ComImplements × Option (Option InterfacePointer) :=
  match out with
  | none => (HRESULT.E_POINTER, self, none)
  | some _ =>
    match QueryInterfaceImpl self.Interfaces 0 riid with
    | none => (HRESULT.E_NOINTERFACE, self, some none)
    | some p => (HRESULT.S_OK, (AddRef self).2, some (some p))

end ComImplements

/-- The `query_len` of a result in the words of the specification:
`CharsLen(history_key + input_key)` for a BIGRAM result and
`CharsLen(input_key)` otherwise. -/
def QueryLenSpec (segments : Segments) (r : Result) : Nat :=
  if r.type.bigram = true then
    CharsLen ((GetHistoryKeyAndValue segments).2.1 ++ (segments.conversion_segment 0).key)
  else CharsLen (segments.conversion_segment 0).key

/-- The test of the specification for `same_key`: result `j` is another result
than `i`, its node does not carry SPELLING_CORRECTION, and its node key equals
that of result `i`. -/
def SameKeySpec (results : List Result) (i j : Nat) : Bool :=
  decide (j ≠ i) && !(results.getD j default).node.spelling_correction &&
    decide ((results.getD j default).node.key = (results.getD i default).node.key)

/-- The test of the specification for `same_value`, as `SameKeySpec` with the
node values. -/
def SameValueSpec (results : List Result) (i j : Nat) : Bool :=
  decide (j ≠ i) && !(results.getD j default).node.spelling_correction &&
    decide ((results.getD j default).node.value = (results.getD i default).node.value)

/-- The rule of the specification for an examined spelling correction `i`:
whether result `j` gets the type `NO_PREDICTION`. With both sets non-empty, `i`
and the `same_key` entries; with only `same_value` non-empty, `i`; with only
`same_key` non-empty, the `same_key` entries, and `i` when
`request_key_len <= GetMissSpelledPosition(key, value)`; nothing otherwise. -/
def MissSpelledDropSpec (env : Env) (request_key_len : Nat) (results : List Result)
    (i j : Nat) : Bool :=
  let has_key := (List.range results.length).any (SameKeySpec results i)
  let has_value := (List.range results.length).any (SameValueSpec results i)
  if j = i then
    (has_key && has_value) || (!has_key && has_value) ||
      (has_key && !has_value &&
        decide (request_key_len ≤ GetMissSpelledPosition env (results.getD i default).node.key
          (results.getD i default).node.value))
  else has_key && SameKeySpec results i j

/-- The results after the rule of the specification for the examined spelling
correction `i`. -/
def MissSpelledRuleSpec (env : Env) (request_key_len : Nat) (i : Nat) (results : List Result) :
    List Result :=
  (List.range results.length).map (fun j =>
    if MissSpelledDropSpec env request_key_len results i j then
      { results.getD j default with type := NO_PREDICTION }
    else results.getD j default)

/-- The cutoff of unigram aggregation in the words of the specification:
`mixed ? 256 : (request_type = PREDICTION ? 100000 : 256)`. -/
def UnigramCutoffSpec (env : Env) (segments : Segments) : Nat :=
  if env.mixed_conversion = true then 256
  else if segments.request_type = RequestType.PREDICTION then 100000 else 256

/-- The cutoff that `AggregateBigramPrediction` computes for itself:
`request_type = PREDICTION ? 100000 : 256`. -/
def BigramCutoff (segments : Segments) : Nat :=
  if segments.request_type = RequestType.PREDICTION then kPredictionMaxNodesSize
  else kSuggestionMaxNodesSize

/-- The block that `AggregateBigramPrediction` appends before its cutoff test:
one BIGRAM result for each node of the predictive lookup under
`history_key + input_key` whose value starts with the history value. -/
def BigramBlock (env : Env) (request : ConversionRequest) (segments : Segments) : List Result :=
  ((GetPredictiveNodes env env.dictionary (GetHistoryKeyAndValue segments).2.1 request segments
      (BigramCutoff segments)).filter
    (fun node => StartsWith node.value (GetHistoryKeyAndValue segments).2.2)).map
    (fun node => ({ node := node, type := BIGRAM, cost := 0 } : Result))

/-- The condition of the specification under which an appended bigram result
keeps the type BIGRAM, `key` and `value` being the remainders of the node's key
and value after the history prefix, `ctype` the script type of the first
character of `value`: both remainders are non-empty; not `history_node.wcost >
node.wcost`; not (`ctype` is the script type of the last history character and
is HIRAGANA, or KATAKANA with `CharsLen(node.key) <= 5`); and `ctype` is KANJI
with an empty conversion key, or `(key, value)` is found in the dictionary. -/
def BigramKeepSpec (env : Env) (segments : Segments) (history_node : Node) (node : Node) :
    Bool :=
  let history_value := (GetHistoryKeyAndValue segments).2.2
  let key := node.key.drop (GetHistoryKeyAndValue segments).2.1.length
  let value := node.value.drop history_value.length
  let ctype := env.GetScriptType (SubString value 0 1)
  let last_history_ctype :=
    env.GetScriptType (SubString history_value (CharsLen history_value - 1) 1)
  !key.isEmpty && !value.isEmpty &&
  !decide (history_node.wcost > node.wcost) &&
  !(decide (ctype = last_history_ctype) &&
    (decide (ctype = ScriptType.HIRAGANA) ||
      (decide (ctype = ScriptType.KATAKANA) && decide (CharsLen node.key ≤ 5)))) &&
  ((decide (ctype = ScriptType.KANJI) && (segments.conversion_segment 0).key.isEmpty) ||
    (LookupKeyValueFromDictionary env key value (BigramCutoff segments)).isSome)

/-! ## Predicates on heaps -/

/-- The heap property of the first `len` elements of `v` for the pairs whose
parent has index `k` or more: the key of a parent is at most the key of its
child. With `k = 0` the first `len` elements are a heap whose top has the least
key. -/
def HeapFrom {α : Type} [Inhabited α] (f : α → Int) (v : List α) (len k : Nat) : Prop :=
  ∀ p, 1 ≤ p → p < len → k ≤ (p - 1) / 2 → f (v.getD ((p - 1) / 2) default) ≤ f (v.getD p default)

/-- The nodes of the subtree with root `k` in the implicit binary tree on
indices. -/
inductive Descendant (k : Nat) : Nat → Prop
  | root : Descendant k k
  | left (h : Nat) : Descendant k h → Descendant k (2 * h + 1)
  | right (h : Nat) : Descendant k h → Descendant k (2 * h + 2)

/-- The state of `std::__adjust_heap` while the hole is at index `h`, for the
call with hole `k` on the vector `v0`: the pairs that do not touch the hole are
ordered, the children of the hole are ordered with the parent of the hole, the
elements from `len` on are those of `v0`, and filling the hole gives a
permutation of `v0` with index `k` filled. -/
structure HoleInvariant {α : Type} [Inhabited α] (f : α → Int) (v0 : List α) (len k : Nat)
    (v : List α) (h : Nat) : Prop where
  length_eq : v.length = v0.length
  len_le : len ≤ v0.length
  hole_lt : h < len
  descendant : Descendant k h
  ordered : ∀ p, 1 ≤ p → p < len → k ≤ (p - 1) / 2 → p ≠ h → (p - 1) / 2 ≠ h →
    f (v.getD ((p - 1) / 2) default) ≤ f (v.getD p default)
  children : h ≠ k → ∀ p, 1 ≤ p → p < len → (p - 1) / 2 = h →
    f (v.getD ((h - 1) / 2) default) ≤ f (v.getD p default)
  frame : ∀ p, len ≤ p → v.getD p default = v0.getD p default
  perm : ∀ x, List.Perm (v.set h x) (v0.set k x)

/-- The tests of the loop of `AddPredictionToCandidates` that come before the
set `seen`: the result is not `NO_PREDICTION`, its value is not a bad suggestion
(unless it is a REALTIME result in mixed mode), and in desktop mode a result
that is not REALTIME does not have the input key (the history key followed by
the input key for a BIGRAM result) as its value. -/
def ReachesSeenSpec (env : Env) (segments : Segments) (r : Result) : Bool :=
  decide (r.type ≠ NO_PREDICTION) &&
  !(env.IsBadSuggestion r.node.value && !(env.mixed_conversion && r.type.realtime)) &&
  !(!env.mixed_conversion && !r.type.realtime &&
    ((r.type.bigram &&
        decide ((GetHistoryKeyAndValue segments).2.1 ++ (segments.conversion_segment 0).key
          = r.node.value)) ||
      (!r.type.bigram && decide ((segments.conversion_segment 0).key = r.node.value))))

/-- A spelling correction that the loop of `AddPredictionToCandidates` drops
for its miss-spelled position after it has put its value `value` into `seen`. -/
def DroppedCorrectionSpec (env : Env) (segments : Segments) (r : Result) (value : Str) : Prop :=
  ReachesSeenSpec env segments r = true ∧ r.node.spelling_correction = true ∧
  ∃ key, StrippedKeyValue segments r = some (key, value) ∧
    key ≠ (segments.conversion_segment 0).key ∧
    CharsLen (segments.conversion_segment 0).key ≤ GetMissSpelledPosition env key value + 1

/-- The state of the loop of `AddPredictionToCandidates` before round `i`: the
vector is a permutation of the results whose first `size - i` elements are a
heap; the results popped so far, which stand behind the heap, have their value
in `seen` when they reach that test; every emitted candidate comes from a
result of least cost among those with its value that reach the test; and every
value of `seen` was put there by an emitted candidate or by a dropped spelling
correction. -/
structure EmitInvariant (env : Env) (segments : Segments) (results : List Result) (i : Nat)
    (st : EmitState) : Prop where
  perm : List.Perm st.results results
  index_le : i ≤ results.length
  heap : HeapFrom Result.cost st.results (results.length - i) 0
  popped_seen : ∀ p, results.length - i ≤ p → p < results.length →
    ReachesSeenSpec env segments (st.results.getD p default) = true →
    ∀ key value, StrippedKeyValue segments (st.results.getD p default) = some (key, value) →
      value ∈ st.seen
  lowest : ∀ rc ∈ st.emitted, ∀ r ∈ results, ReachesSeenSpec env segments r = true →
    ∀ key, StrippedKeyValue segments r = some (key, rc.2.value) → rc.1.cost ≤ r.cost
  emitted_from : ∀ rc ∈ st.emitted, rc.1 ∈ results ∧ ReachesSeenSpec env segments rc.1 = true ∧
    StrippedKeyValue segments rc.1 = some (rc.2.key, rc.2.value)
  seen_from : ∀ value ∈ st.seen, (∃ rc ∈ st.emitted, rc.2.value = value) ∨
    (∃ r ∈ results, DroppedCorrectionSpec env segments r value)

/-! ## Assertions of the aggregators and notions of the specification -/

/-- The assertion `DCHECK(!segment->key().empty())` of
`AggregateRealtimeConversion`, which is evaluated when `type` holds REALTIME:
`true` when it holds or is not reached. -/
def RealtimeKeyAssertion (type : PredictionType) (segments : Segments) : Bool :=
  !type.realtime || !(segments.conversion_segment 0).key.isEmpty

/-- The call of `AggregateRealtimeConversion` that `AggregatePrediction` makes:
its arguments `type` and `segments`, `none` when `AggregatePrediction` returns
before. Both branches on the request type start with this call. -/
def RealtimeCall (env : Env) (segments : Segments) : Option (PredictionType × Segments) :=
  if GetPredictionType env segments = NO_PREDICTION then none
  else some (GetPredictionType env segments, segments)

/-- The assertion `DCHECK(!segments->conversion_segment(0).key().empty())` of
`AggregateUnigramPrediction`, which is evaluated when `type` holds UNIGRAM:
`true` when it holds or is not reached. -/
def UnigramKeyAssertion (type : PredictionType) (segments : Segments) : Bool :=
  !type.unigram || !(segments.conversion_segment 0).key.isEmpty

/-- The assertion of `GetUnigramCandidateCutoffThreshold`: the request type is
PREDICTION or SUGGESTION. -/
def CutoffThresholdAssertion (segments : Segments) : Bool :=
  decide (segments.request_type = RequestType.PREDICTION ∨
    segments.request_type = RequestType.SUGGESTION)

/-- The call of `AggregateUnigramPrediction` that `AggregatePrediction` makes:
its arguments `type` and `segments`, the latter as the realtime conversion
leaves them; `none` when `AggregatePrediction` returns before or takes the
branch of the request types PARTIAL_SUGGESTION and PARTIAL_PREDICTION. -/
def UnigramCall (env : Env) (segments : Segments) (results : List Result) :
    Option (PredictionType × Segments) :=
  if GetPredictionType env segments = NO_PREDICTION then none
  else if segments.request_type = RequestType.PARTIAL_SUGGESTION ∨
      segments.request_type = RequestType.PARTIAL_PREDICTION then none
  else some (GetPredictionType env segments,
    (AggregateRealtimeConversion env (GetPredictionType env segments) segments results).1)

/-- The value of the `double` expression
`cost - kCostFactor * log(1.0 + remain_len)` of `SetPredictionCost` with its
fraction cut off, before the conversion to `int`: `SubtractLengthBonus` is this
value reduced to 32 bits. -/
def LengthBonusDifference (env : Env) (cost : Int) (remain_len : Int) : Int :=
  let l := env.log (1 + remain_len.toNat)
  let b := RoundToDouble (500 * l.1)
  let n := cost * 2 ^ l.2 - (b : Int)
  let t := RoundToDouble n.natAbs / 2 ^ l.2
  if n < 0 then -(t : Int) else (t : Int)

/-- The zip-code pattern in the words of the specification: the key is not
empty and each of its characters is one byte, an ASCII digit or '-'. -/
def ZipCodeSpec (key : Str) : Prop :=
  key ≠ [] ∧ ∀ b ∈ key, (48 ≤ b ∧ b ≤ 57) ∨ b = 45

/-! ## Concrete environments and inputs -/

namespace Examples

/-- A dictionary without entries. -/
def emptyDictionary : DictionaryInterface :=
  { LookupPredictive := fun _ _ => [],
    LookupPredictiveWithLimit := fun _ _ _ => [],
    LookupPrefix := fun _ _ => [] }

/-- The `double` values of `log` at 1.0, 2.0, ..., 32.0 as a C library with a
correctly rounded `log` returns them, each as `(m, e)` for `m * 2^-e`. -/
def logTable : List (Nat × Nat) :=
  [(0, 0), (6243314768165359, 53), (4947709893870347, 52), (6243314768165359, 52),
   (7248263982714163, 52), (4034683638976513, 51), (8763600222181975, 52),
   (4682486076124019, 51), (4947709893870347, 51), (2592480341699211, 50),
   (1349895032131027, 49), (5595512331017853, 51), (5775752485243985, 51),
   (5942628803132327, 51), (6097986938292255, 51), (6243314768165359, 51),
   (3189914640138173, 50), (3254269292955843, 50), (1657571786173643, 49),
   (6745789375439761, 51), (6855655058026161, 51), (870051102570681, 48),
   (441281580702527, 47), (7156341023059193, 51), (7248263982714163, 51),
   (7336581177285325, 51), (463847802550345, 47), (7503457495173667, 51),
   (7582476122586655, 51), (7658815630333595, 51), (3866325873628589, 50),
   (7804143460206699, 51)]

/-- A desktop environment (no mixed conversion) whose collaborators do
nothing: empty dictionaries, a converter that fails without touching the
segments, zero connection costs and penalties, no bad suggestion. Its `log`
is read off `logTable`; the inputs below stay below 32 remaining characters. -/
def plainEnv : Env :=
  { mixed_conversion := false,
    zero_query_suggestion := false,
    use_realtime_conversion := true,
    use_dictionary_suggest := true,
    enable_expansion_for_dictionary_predictor := false,
    Convert := fun s => (false, s),
    dictionary := emptyDictionary,
    suffix_dictionary := emptyDictionary,
    GetTransitionCost := fun _ _ => 0,
    GetSuffixPenalty := fun _ => 0,
    IsBadSuggestion := fun _ => false,
    counter_suffix_word_id := 0,
    ZeroQueryNum := [[kDefault]],
    KatakanaToHiragana := fun s => s,
    GetScriptType := fun _ => ScriptType.UNKNOWN_SCRIPT,
    log := fun x => logTable.getD (x - 1) (7804143460206699, 51),
    default_max_nodes_size := 8192 }

/-- A node of the dictionary with reading `key`, surface `value` and word cost
`wcost`. -/
def word (key value : Str) (wcost : Int) : Node :=
  { key := key, value := value, lid := 0, rid := 0, wcost := wcost, spelling_correction := false }

/-- A prediction request for the reading "ab" with room for ten candidates and
no history. -/
def segmentsAb : Segments :=
  { request_type := RequestType.PREDICTION,
    history_segments := [],
    conversion_segments := [{ key := [97, 98], candidates := [] }],
    max_prediction_candidates_size := 10 }

/-- Two UNIGRAM results for the reading "ab" with costs 100 and 200. -/
def twoResults : List Result :=
  [{ node := word [97, 98] [120] 100, type := UNIGRAM, cost := 100 },
   { node := word [97, 98] [121] 200, type := UNIGRAM, cost := 200 }]

/-- A suggestion request for the reading "abc" with room for ten candidates
and no history. -/
def segmentsAbc : Segments :=
  { request_type := RequestType.SUGGESTION,
    history_segments := [],
    conversion_segments := [{ key := [97, 98, 99], candidates := [] }],
    max_prediction_candidates_size := 10 }

/-- The long entry "abcdefgh" (8 characters) with word cost 5000. -/
def longWord : Node := word [97, 98, 99, 100, 101, 102, 103, 104] [71] 5000

/-- Ten UNIGRAM results as aggregation leaves them (cost 0) for the reading
"abc": eight entries "abc" with word costs 100 to 800, the long entry
"abcdefgh", and a ninth entry "abc" with word cost 900. -/
def tenResults : List Result :=
  [{ node := word [97, 98, 99] [49] 100, type := UNIGRAM, cost := 0 },
   { node := word [97, 98, 99] [50] 200, type := UNIGRAM, cost := 0 },
   { node := word [97, 98, 99] [51] 300, type := UNIGRAM, cost := 0 },
   { node := word [97, 98, 99] [52] 400, type := UNIGRAM, cost := 0 },
   { node := word [97, 98, 99] [53] 500, type := UNIGRAM, cost := 0 },
   { node := word [97, 98, 99] [54] 600, type := UNIGRAM, cost := 0 },
   { node := word [97, 98, 99] [55] 700, type := UNIGRAM, cost := 0 },
   { node := word [97, 98, 99] [56] 800, type := UNIGRAM, cost := 0 },
   { node := longWord, type := UNIGRAM, cost := 0 },
   { node := word [97, 98, 99] [57] 900, type := UNIGRAM, cost := 0 }]

/-- Three UNIGRAM results for the reading "ab", two of them with the same
value. -/
def duplicateResults : List Result :=
  [{ node := word [97, 98] [120] 100, type := UNIGRAM, cost := 100 },
   { node := word [97, 98] [120] 150, type := UNIGRAM, cost := 150 },
   { node := word [97, 98] [121] 200, type := UNIGRAM, cost := 200 }]

/-- A conversion request for the reading "ab" that already holds a candidate. -/
def segmentsConversion : Segments :=
  { request_type := RequestType.CONVERSION,
    history_segments := [],
    conversion_segments :=
      [{ key := [97, 98],
         candidates := [MakeCandidate (word [97, 98] [120] 100) [97, 98] [120] 100] }],
    max_prediction_candidates_size := 10 }

/-- The candidate "ab" / "AB" that the converters below produce. -/
def realtimeCandidate : Candidate :=
  { key := [97, 98], value := [65, 66], content_key := [97, 98], content_value := [65, 66],
    lid := 0, rid := 0, wcost := 300, cost := 300, spelling_correction := false }

/-- The environment `plainEnv` with a converter that succeeds and appends the
candidate "AB" to conversion segment 0. -/
def convertingEnv : Env :=
  { plainEnv with
    Convert := fun s =>
      (true, s.set_candidates ((s.conversion_segment 0).candidates ++ [realtimeCandidate])) }

/-- The environment `plainEnv` with a converter that appends the candidate "AB"
to conversion segment 0 and then returns false. -/
def leakyEnv : Env :=
  { plainEnv with
    Convert := fun s =>
      (false, s.set_candidates ((s.conversion_segment 0).candidates ++ [realtimeCandidate])) }

/-- The candidate "ab" / "x" that the segments below hold on entry. -/
def heldCandidate : Candidate := MakeCandidate (word [97, 98] [120] 100) [97, 98] [120] 100

/-- A prediction request for the reading "ab" that already holds the candidate
"x", with room for ten candidates. -/
def segmentsAbHeld : Segments :=
  { request_type := RequestType.PREDICTION,
    history_segments := [],
    conversion_segments := [{ key := [97, 98], candidates := [heldCandidate] }],
    max_prediction_candidates_size := 10 }

/-- A dictionary that knows "aaa" as "X" and with the empty value, "aaab" as
"XY", and predicts "aaaaaab" / "XXY" from "aaaaaab" and "aaa" / "Z" from
"aaa". -/
def historyDictionary : DictionaryInterface :=
  { LookupPredictive := fun key _ =>
      if key = [97, 97, 97, 97, 97, 97, 98] then [word [97, 97, 97, 97, 97, 97, 98] [88, 88, 89] 20]
      else if key = [97, 97, 97] then [word [97, 97, 97] [90] 20]
      else [],
    LookupPredictiveWithLimit := fun _ _ _ => [],
    LookupPrefix := fun key _ =>
      if key = [97, 97, 97] then [word [97, 97, 97] [88] 10, word [97, 97, 97] [] 10]
      else if key = [97, 97, 97, 98] then [word [97, 97, 97, 98] [88, 89] 20]
      else [] }

/-- The environment `plainEnv` without realtime conversion, with zero-query
suggestion and with `historyDictionary`. -/
def historyEnv : Env :=
  { plainEnv with
    use_realtime_conversion := false,
    zero_query_suggestion := true,
    dictionary := historyDictionary }

/-- A prediction request for the reading "aaab" after the history "aaa" / "X". -/
def segmentsAfterX : Segments :=
  { request_type := RequestType.PREDICTION,
    history_segments :=
      [{ key := [97, 97, 97],
         candidates := [MakeCandidate (word [97, 97, 97] [88] 10) [97, 97, 97] [88] 10] }],
    conversion_segments := [{ key := [97, 97, 97, 98], candidates := [] }],
    max_prediction_candidates_size := 10 }

/-- A prediction request for the empty reading after the history "aaa" with an
empty value. -/
def segmentsAfterEmpty : Segments :=
  { request_type := RequestType.PREDICTION,
    history_segments :=
      [{ key := [97, 97, 97],
         candidates := [MakeCandidate (word [97, 97, 97] [] 10) [97, 97, 97] [] 10] }],
    conversion_segments := [{ key := [], candidates := [] }],
    max_prediction_candidates_size := 10 }

/-- The BIGRAM result that aggregation yields for `segmentsAfterX`. -/
def bigramAfterX : List Result :=
  [{ node := word [97, 97, 97, 97, 97, 97, 98] [88, 88, 89] 20, type := BIGRAM, cost := 0 }]

/-- The state in which the emission loop ends for `segmentsAfterX`: one
candidate "aaab" / "XY" emitted from the BIGRAM result. -/
def stateAfterX : EmitState :=
  { results := [{ node := word [97, 97, 97, 97, 97, 97, 98] [88, 88, 89] 20,
                  type := BIGRAM, cost := 1171 }],
    added := 1,
    seen := [[88, 89]],
    emitted := [({ node := word [97, 97, 97, 97, 97, 97, 98] [88, 88, 89] 20,
                   type := BIGRAM, cost := 1171 },
                 MakeCandidate (word [97, 97, 97, 97, 97, 97, 98] [88, 88, 89] 20)
                   [97, 97, 97, 98] [88, 89] 1171)] }

/-- The environment `plainEnv` without dictionary suggest. -/
def noDictionaryEnv : Env := { plainEnv with use_dictionary_suggest := false }

/-- A prediction request for the empty reading, no history. -/
def segmentsEmptyKey : Segments :=
  { request_type := RequestType.PREDICTION,
    history_segments := [],
    conversion_segments := [{ key := [], candidates := [] }],
    max_prediction_candidates_size := 10 }

/-- A suggestion request for the reading "123-4", no history. -/
def segmentsZip : Segments :=
  { request_type := RequestType.SUGGESTION,
    history_segments := [],
    conversion_segments := [{ key := [49, 50, 51, 45, 52], candidates := [] }],
    max_prediction_candidates_size := 10 }

/-- A prediction request for the reading "abc" after two history segments:
the first with top candidate "aaa" / "X", the last with top candidate
"a" / "Y". -/
def segmentsTwoHistories : Segments :=
  { request_type := RequestType.PREDICTION,
    history_segments :=
      [{ key := [97, 97, 97],
         candidates := [MakeCandidate (word [97, 97, 97] [88] 10) [97, 97, 97] [88] 10] },
       { key := [97],
         candidates := [MakeCandidate (word [97] [89] 10) [97] [89] 10] }],
    conversion_segments := [{ key := [97, 98, 99], candidates := [] }],
    max_prediction_candidates_size := 10 }

/-- The environment `plainEnv` in mixed mode. -/
def mixedEnv : Env := { plainEnv with mixed_conversion := true }

/-- A prediction request for the reading ねこ, no history. -/
def segmentsNeko : Segments :=
  { request_type := RequestType.PREDICTION,
    history_segments := [],
    conversion_segments := [{ key := utf8 "ねこ", candidates := [] }],
    max_prediction_candidates_size := 10 }

/-- A prediction request for the reading あ, no history. -/
def segmentsA : Segments :=
  { request_type := RequestType.PREDICTION,
    history_segments := [],
    conversion_segments := [{ key := utf8 "あ", candidates := [] }],
    max_prediction_candidates_size := 10 }

/-- Two results of cost 3000 with the readings あい and かい. -/
def expandedResults : List Result :=
  [{ node := word (utf8 "あい") (utf8 "愛") 3000, type := UNIGRAM, cost := 3000 },
   { node := word (utf8 "かい") (utf8 "貝") 3000, type := UNIGRAM, cost := 3000 }]

/-- Two UNIGRAM results of word cost 3000 with the readings ねこ and ねこまんま. -/
def nekoResults : List Result :=
  [{ node := word (utf8 "ねこ") (utf8 "猫") 3000, type := UNIGRAM, cost := 0 },
   { node := word (utf8 "ねこまんま") (utf8 "猫まんま") 3000, type := UNIGRAM, cost := 0 }]

/-- A number table with the row 123 → 円, 本 and the default row 個. -/
def counterTable : List (List Str) :=
  [[utf8 "123", utf8 "円", utf8 "本"], [kDefault, utf8 "個"]]

/-- The environment `plainEnv` with the table `counterTable` and the counter
suffix word id 7. -/
def counterEnv : Env :=
  { plainEnv with ZeroQueryNum := counterTable, counter_suffix_word_id := 7 }

/-- A prediction request with an empty key after the committed number 123. -/
def segmentsAfterNumber : Segments :=
  { request_type := RequestType.PREDICTION,
    history_segments := [{ key := utf8 "123", candidates := [] }],
    conversion_segments := [{ key := [], candidates := [] }],
    max_prediction_candidates_size := 10 }

/-- Modelled from the spec: the environment `plainEnv` with a
`Util::KatakanaToHiragana` that moves the katakana U+30A1..U+30F6 down by 0x60
and a `Util::GetScriptType` that answers HIRAGANA for the non-empty strings of
U+3041..U+309F and UNKNOWN_SCRIPT otherwise; both functions belong to
base/util.h, which is not part of the sources at hand. -/
def kanaEnv : Env :=
  { plainEnv with
    KatakanaToHiragana := fun s =>
      (Chars32 s).flatMap (fun c => encodeChar (if 0x30A1 ≤ c ∧ c ≤ 0x30F6 then c - 0x60 else c)),
    GetScriptType := fun s =>
      if s ≠ [] ∧ (Chars32 s).all (fun c => decide (0x3041 ≤ c ∧ c ≤ 0x309F)) = true then
        ScriptType.HIRAGANA
      else ScriptType.UNKNOWN_SCRIPT }

/-- An object `ComImplements<IFoo, IBar>` with two references, the interfaces
having the ids 1 and 2 and no specialization of `IsIIDOf`. -/
def fooBar : ComImplements :=
  { Interfaces := [{ uuid := 1, specialization := none }, { uuid := 2, specialization := none }],
    ref_count_ := 2 }

/-- A UNIGRAM result for the reading "abcd" with word cost 3000. -/
def longerResult : Result :=
  { node := word [97, 98, 99, 100] [120] 3000, type := UNIGRAM, cost := 0 }

/-- Three UNIGRAM results with the values "x", "y", "z" and the costs 1,
`INT_MAX` (a gated result) and 2. -/
def gatedInTheMiddle : List Result :=
  [{ node := word [97, 98, 99] [120] 1, type := UNIGRAM, cost := 1 },
   { node := word [97, 98, 100] [121] 2, type := UNIGRAM, cost := INT_MAX },
   { node := word [97, 98, 101] [122] 2, type := UNIGRAM, cost := 2 }]

/-- A spelling correction with the reading "ab" of the request and the value
"x". -/
def correctionOfKey : Result :=
  { node := { key := [97, 98], value := [120], lid := 0, rid := 0, wcost := 100,
              spelling_correction := true },
    type := UNIGRAM, cost := 100 }

/-- A prediction request for the reading れみおめろ, no history. -/
def segmentsRemio : Segments :=
  { request_type := RequestType.PREDICTION,
    history_segments := [],
    conversion_segments := [{ key := utf8 "れみおめろ", candidates := [] }],
    max_prediction_candidates_size := 10 }

/-- The spelling correction れみおめろん → レミオロメン. -/
def remioromen : Result :=
  { node := { key := utf8 "れみおめろん", value := utf8 "レミオロメン", lid := 0, rid := 0,
              wcost := 100, spelling_correction := true },
    type := UNIGRAM, cost := 100 }

/-- The state in which the loop of `AddPredictionToCandidates` ends for the
request `segmentsRemio` and the one result `remioromen`. -/
def stateRemio : EmitState :=
  { results := [remioromen], added := 1, seen := [utf8 "レミオロメン"],
    emitted := [(remioromen,
      MakeCandidate remioromen.node (utf8 "れみおめろん") (utf8 "レミオロメン") 100)] }

/-- A spelling correction "ab" → "x" followed by a plain entry with the same
key "ab" and a plain entry with the same value "x". -/
def correctionWithBoth : List Result :=
  [{ node := { key := [97, 98], value := [120], lid := 0, rid := 0, wcost := 100,
               spelling_correction := true }, type := UNIGRAM, cost := 0 },
   { node := word [97, 98] [121] 200, type := UNIGRAM, cost := 0 },
   { node := word [99, 100] [120] 300, type := UNIGRAM, cost := 0 }]

/-- The spelling correction with reading `key` and the value "x". -/
def correctionTo (key : Str) : Result :=
  { node := { key := key, value := [120], lid := 0, rid := 0, wcost := 100,
              spelling_correction := true }, type := UNIGRAM, cost := 0 }

/-- Five spelling corrections with the value "x" and the readings "aba" to
"abe", followed by a plain entry "abz" with the same value "x". -/
def fiveCorrections : List Result :=
  [correctionTo [97, 98, 97], correctionTo [97, 98, 98], correctionTo [97, 98, 99],
   correctionTo [97, 98, 100], correctionTo [97, 98, 101],
   { node := word [97, 98, 122] [120] 300, type := UNIGRAM, cost := 0 }]

/-- A prediction request for the reading "aaa", no history. -/
def segmentsAaa : Segments :=
  { request_type := RequestType.PREDICTION,
    history_segments := [],
    conversion_segments := [{ key := [97, 97, 97], candidates := [] }],
    max_prediction_candidates_size := 10 }

/-- The dictionary `historyDictionary` with 256 entries "aaaaaab" / "XXY" under
the reading "aaaaaab". -/
def crowdedDictionary : DictionaryInterface :=
  { historyDictionary with
    LookupPredictive := fun key _ =>
      if key = [97, 97, 97, 97, 97, 97, 98] then
        List.replicate 256 (word [97, 97, 97, 97, 97, 97, 98] [88, 88, 89] 20)
      else [] }

/-- The environment `historyEnv` in mixed mode with `crowdedDictionary`. -/
def crowdedEnv : Env :=
  { historyEnv with mixed_conversion := true, dictionary := crowdedDictionary }

/-- The request `segmentsAfterX` as a suggestion request. -/
def segmentsSuggestAfterX : Segments :=
  { segmentsAfterX with request_type := RequestType.SUGGESTION }

/-- A spelling correction "abc" → "x" of cost 100 and a plain entry "abd" → "x"
of cost 200. -/
def correctionTakesValue : List Result :=
  [{ node := { key := [97, 98, 99], value := [120], lid := 0, rid := 0, wcost := 100,
               spelling_correction := true }, type := UNIGRAM, cost := 100 },
   { node := word [97, 98, 100] [120] 200, type := UNIGRAM, cost := 200 }]

/-- Three UNIGRAM results: "abc" → "x" of cost 200, "abd" → "x" of cost 100 and
"abe" → "y" of cost 150. -/
def cheaperDuplicate : List Result :=
  [{ node := word [97, 98, 99] [120] 200, type := UNIGRAM, cost := 200 },
   { node := word [97, 98, 100] [120] 100, type := UNIGRAM, cost := 100 },
   { node := word [97, 98, 101] [121] 150, type := UNIGRAM, cost := 150 }]

/-- The state in which the loop of `AddPredictionToCandidates` ends for the
request `segmentsAb` and the results `cheaperDuplicate`. -/
def stateCheaperDuplicate : EmitState :=
  { results :=
      [{ node := word [97, 98, 99] [120] 200, type := UNIGRAM, cost := 200 },
       { node := word [97, 98, 101] [121] 150, type := UNIGRAM, cost := 150 },
       { node := word [97, 98, 100] [120] 100, type := UNIGRAM, cost := 100 }],
    added := 2,
    seen := [[121], [120]],
    emitted :=
      [({ node := word [97, 98, 100] [120] 100, type := UNIGRAM, cost := 100 },
        MakeCandidate (word [97, 98, 100] [120] 100) [97, 98, 100] [120] 150),
       ({ node := word [97, 98, 101] [121] 150, type := UNIGRAM, cost := 150 },
        MakeCandidate (word [97, 98, 101] [121] 150) [97, 98, 101] [121] 150)] }

/-- Modelled from the spec: a lexicon over a list of entries. The prefix lookup
yields the entries whose key is a prefix of the search key (the common-prefix
search of dictionary/dictionary_interface.h, which is not part of the sources
at hand), the predictive lookups those whose key starts with the search key;
each yields at most `max_nodes_size` nodes. -/
def lexicon (entries : List Node) : DictionaryInterface :=
  { LookupPredictive := fun key max_nodes_size =>
      (entries.filter (fun e => StartsWith e.key key)).take max_nodes_size,
    LookupPredictiveWithLimit := fun key _ max_nodes_size =>
      (entries.filter (fun e => StartsWith e.key key)).take max_nodes_size,
    LookupPrefix := fun key max_nodes_size =>
      (entries.filter (fun e => StartsWith key e.key)).take max_nodes_size }

/-- The entries "abc" / "X", "abcde" / "XY" and "e" / "Y". -/
def abcEntries : List Node :=
  [word [97, 98, 99] [88] 10, word [97, 98, 99, 100, 101] [88, 89] 20, word [101] [89] 5]

/-- The environment `plainEnv` without realtime conversion, with the lexicon
of `abcEntries`. -/
def abcEnv : Env :=
  { plainEnv with use_realtime_conversion := false, dictionary := lexicon abcEntries }

/-- A prediction request for the reading "e" after the history "abcd" / "X",
a pair that is not an entry of `abcEntries`. -/
def segmentsAfterAbcd : Segments :=
  { request_type := RequestType.PREDICTION,
    history_segments :=
      [{ key := [97, 98, 99, 100],
         candidates := [MakeCandidate (word [97, 98, 99, 100] [88] 10) [97, 98, 99, 100] [88] 10] }],
    conversion_segments := [{ key := [101], candidates := [] }],
    max_prediction_candidates_size := 10 }

/-- The environment `convertingEnv` with `historyDictionary`, which predicts
"aaa" / "Z" from "aaa". -/
def convertingHistoryEnv : Env := { convertingEnv with dictionary := historyDictionary }

/-- The request `segmentsAaa` as a PARTIAL_PREDICTION request. -/
def segmentsPartialAaa : Segments :=
  { segmentsAaa with request_type := RequestType.PARTIAL_PREDICTION }

/-- A PARTIAL_SUGGESTION request for the empty reading, no history. -/
def segmentsPartialEmpty : Segments :=
  { request_type := RequestType.PARTIAL_SUGGESTION,
    history_segments := [],
    conversion_segments := [{ key := [], candidates := [] }],
    max_prediction_candidates_size := 10 }

/-- A suggestion request for the reading "b" after the history "aaa" / "X". -/
def segmentsSuggestB : Segments :=
  { request_type := RequestType.SUGGESTION,
    history_segments :=
      [{ key := [97, 97, 97],
         candidates := [MakeCandidate (word [97, 97, 97] [88] 10) [97, 97, 97] [88] 10] }],
    conversion_segments := [{ key := [98], candidates := [] }],
    max_prediction_candidates_size := 10 }

/-- Ten results as aggregation leaves them (cost 0) for `segmentsSuggestB`:
nine UNIGRAM entries "b" with word costs 100 to 900 and the BIGRAM entry
"aaabcdefgh" / "XG" (10 characters) with word cost 5000. -/
def gatedBigramResults : List Result :=
  [{ node := word [98] [49] 100, type := UNIGRAM, cost := 0 },
   { node := word [98] [50] 200, type := UNIGRAM, cost := 0 },
   { node := word [98] [51] 300, type := UNIGRAM, cost := 0 },
   { node := word [98] [52] 400, type := UNIGRAM, cost := 0 },
   { node := word [98] [53] 500, type := UNIGRAM, cost := 0 },
   { node := word [98] [54] 600, type := UNIGRAM, cost := 0 },
   { node := word [98] [55] 700, type := UNIGRAM, cost := 0 },
   { node := word [98] [56] 800, type := UNIGRAM, cost := 0 },
   { node := word [98] [57] 900, type := UNIGRAM, cost := 0 },
   { node := word [97, 97, 97, 98, 99, 100, 101, 102, 103, 104] [88, 71] 5000,
     type := BIGRAM, cost := 0 }]

/-- A prediction request for the reading "abcdefgh" (8 characters), no
history. -/
def segmentsLongKey : Segments :=
  { request_type := RequestType.PREDICTION,
    history_segments := [],
    conversion_segments := [{ key := [97, 98, 99, 100, 101, 102, 103, 104], candidates := [] }],
    max_prediction_candidates_size := 10 }

/-- The BIGRAM result of `bigramAfterX` with the cost 20. -/
def pricedBigramAfterX : List Result :=
  [{ node := word [97, 97, 97, 97, 97, 97, 98] [88, 88, 89] 20, type := BIGRAM, cost := 20 }]

/-- Two UNIGRAM results with the reading "abcd" and the word costs 3000 and
3100. -/
def sameReading : List Result :=
  [{ node := word [97, 98, 99, 100] [120] 3000, type := UNIGRAM, cost := 0 },
   { node := word [97, 98, 99, 100] [121] 3100, type := UNIGRAM, cost := 0 }]

end Examples

/-! ## The emission loop -/

theorem AddPredictionBody_cases (env : Env) (segments : Segments) (i : Nat) (st st1 : EmitState)
    (h : AddPredictionBody env segments i st = some st1) :
    st1.results = pop_heap ResultCompare st.results (st.results.length - i) ∧
    ((st1.added = st.added ∧ st1.emitted = st.emitted ∧ ∀ v ∈ st.seen, v ∈ st1.seen) ∨
     (∃ key value,
        StrippedKeyValue segments (st1.results.getD (st1.results.length - i - 1) default)
          = some (key, value) ∧
        (st1.results.getD (st1.results.length - i - 1) default).type ≠ NO_PREDICTION ∧
        value ∉ st.seen ∧ st1.seen = value :: st.seen ∧ st1.added = st.added + 1 ∧
        st1.emitted = st.emitted ++
          [(st1.results.getD (st1.results.length - i - 1) default,
            MakeCandidate (st1.results.getD (st1.results.length - i - 1) default).node key value
              (st1.results.getD i default).cost)])) := by
  unfold AddPredictionBody at h
  simp only [] at h
  split_ifs at h with h1 h2 h3
  · cases h; exact ⟨rfl, Or.inl ⟨rfl, rfl, fun v hv => hv⟩⟩
  · cases h; exact ⟨rfl, Or.inl ⟨rfl, rfl, fun v hv => hv⟩⟩
  · cases h; exact ⟨rfl, Or.inl ⟨rfl, rfl, fun v hv => hv⟩⟩
  · cases hs : StrippedKeyValue segments
        ((pop_heap ResultCompare st.results (st.results.length - i)).getD
          ((pop_heap ResultCompare st.results (st.results.length - i)).length - i - 1) default) with
    | none => rw [hs] at h; cases h
    | some kv =>
      obtain ⟨key, value⟩ := kv
      rw [hs] at h
      simp only [] at h
      split_ifs at h with h4 h5
      · cases h; exact ⟨rfl, Or.inl ⟨rfl, rfl, fun v hv => hv⟩⟩
      · cases h; exact ⟨rfl, Or.inl ⟨rfl, rfl, fun v hv => List.mem_cons_of_mem _ hv⟩⟩
      · cases h
        exact ⟨rfl, Or.inr ⟨key, value, hs, h1, h4, rfl, rfl, rfl⟩⟩

theorem AddPredictionLoop_invariant (env : Env) (segments : Segments) (size : Nat)
    (Inv : EmitState → Prop)
    (hbody : ∀ i st st1, Inv st → st.added < size →
      AddPredictionBody env segments i st = some st1 → Inv st1) :
    ∀ (n i : Nat) (st st1 : EmitState), Inv st →
      AddPredictionLoop env segments size n i st = some st1 → Inv st1 := by
  intro n
  induction n with
  | zero =>
    intro i st st1 hinv h
    simp only [AddPredictionLoop] at h
    cases h; exact hinv
  | succ n ih =>
    intro i st st1 hinv h
    simp only [AddPredictionLoop] at h
    split_ifs at h with hb
    · cases h; exact hinv
    · cases hbd : AddPredictionBody env segments i st with
      | none => rw [hbd] at h; cases h
      | some st2 =>
        rw [hbd] at h
        have hlt : st.added < size := by
          by_contra hc
          exact hb (Or.inl (Nat.le_of_not_lt hc))
        exact ih (i + 1) st2 st1 (hbody i st st2 hinv hlt hbd) h

theorem AddPredictionRun_invariant (env : Env) (segments : Segments) (results : List Result)
    (Inv : EmitState → Prop)
    (hinit : Inv { results := make_heap ResultCompare results, added := 0, seen := [],
                   emitted := [] })
    (hbody : ∀ i st st1, Inv st →
      st.added < min segments.max_prediction_candidates_size results.length →
      AddPredictionBody env segments i st = some st1 → Inv st1)
    (st : EmitState) (h : AddPredictionRun env segments results = some st) : Inv st :=
  AddPredictionLoop_invariant env segments _ Inv hbody _ _ _ _ hinit h

theorem AddPredictionToCandidates_eq_some (env : Env) (segments : Segments)
    (results : List Result) (b : Bool) (segs1 : Segments)
    (h : AddPredictionToCandidates env segments results = some (b, segs1)) :
    ∃ st, AddPredictionRun env segments results = some st ∧ b = decide (st.added > 0) ∧
      segs1 = segments.set_candidates
        ((segments.conversion_segment 0).candidates ++ st.emitted.map Prod.snd) := by
  unfold AddPredictionToCandidates at h
  cases hr : AddPredictionRun env segments results with
  | none => rw [hr] at h; cases h
  | some st =>
    rw [hr] at h
    simp only [Option.some.injEq, Prod.mk.injEq] at h
    exact ⟨st, rfl, h.1.symm, h.2.symm⟩

/-- The counter `added` is the number of emitted candidates and stays within
the bound of the loop. -/
theorem AddPredictionRun_added (env : Env) (segments : Segments) (results : List Result)
    (st : EmitState) (h : AddPredictionRun env segments results = some st) :
    st.emitted.length = st.added ∧
      st.added ≤ min segments.max_prediction_candidates_size results.length := by
  refine AddPredictionRun_invariant env segments results
    (fun st => st.emitted.length = st.added ∧
      st.added ≤ min segments.max_prediction_candidates_size results.length) ?_ ?_ st h
  · exact ⟨rfl, Nat.zero_le _⟩
  · intro i st st1 hinv hlt hb
    obtain ⟨_, hc⟩ := AddPredictionBody_cases env segments i st st1 hb
    rcases hc with ⟨ha, he, _⟩ | ⟨key, value, _, _, _, _, ha, he⟩
    · rw [ha, he]; exact hinv
    · rw [ha, he]
      refine ⟨by simp [hinv.1], hlt⟩

/-- The values of the emitted candidates are in `seen` and pairwise distinct. -/
theorem AddPredictionRun_nodup (env : Env) (segments : Segments) (results : List Result)
    (st : EmitState) (h : AddPredictionRun env segments results = some st) :
    (∀ rc ∈ st.emitted, rc.2.value ∈ st.seen) ∧
      (st.emitted.map (fun rc => rc.2.value)).Nodup := by
  refine AddPredictionRun_invariant env segments results
    (fun st => (∀ rc ∈ st.emitted, rc.2.value ∈ st.seen) ∧
      (st.emitted.map (fun rc => rc.2.value)).Nodup) ?_ ?_ st h
  · exact ⟨by simp, by simp⟩
  · intro i st st1 hinv hlt hb
    obtain ⟨_, hc⟩ := AddPredictionBody_cases env segments i st st1 hb
    rcases hc with ⟨_, he, hs⟩ | ⟨key, value, _, _, hv, hs, _, he⟩
    · rw [he]
      exact ⟨fun rc hrc => hs _ (hinv.1 rc hrc), hinv.2⟩
    · rw [he, hs]
      constructor
      · intro rc hrc
        rcases List.mem_append.1 hrc with hrc | hrc
        · exact List.mem_cons_of_mem _ (hinv.1 rc hrc)
        · simp only [List.mem_singleton] at hrc
          subst hrc
          simp [MakeCandidate]
      · rw [List.map_append, List.nodup_append]
        refine ⟨hinv.2, by simp, ?_⟩
        intro a ha hb2
        simp only [List.map_cons, List.map_nil, List.mem_singleton, MakeCandidate] at hb2
        subst hb2
        obtain ⟨rc, hrc, hrv⟩ := List.mem_map.1 ha
        exact hv (hrv ▸ hinv.1 rc hrc)

/-! ## Frame lemmas -/

theorem Segments.candidates_set_candidates (s : Segments) (cs : List Candidate) :
    ((s.set_candidates cs).conversion_segment 0).candidates
      = if s.conversion_segments = [] then [] else cs := by
  unfold Segments.set_candidates Segments.conversion_segment
  cases h : s.conversion_segments with
  | nil => simp [h]; rfl
  | cons seg rest => simp

theorem Segments.conversion_segments_set_candidates (s : Segments) (cs : List Candidate) :
    (s.set_candidates cs).conversion_segments = [] ↔ s.conversion_segments = [] := by
  unfold Segments.set_candidates
  cases h : s.conversion_segments with
  | nil => simp [h]
  | cons seg rest => simp

theorem Segments.candidates_of_no_segment (s : Segments) (h : s.conversion_segments = []) :
    (s.conversion_segment 0).candidates = [] := by
  unfold Segments.conversion_segment
  rw [h]; rfl

theorem Segments.set_candidates_self (s : Segments) :
    s.set_candidates (s.conversion_segment 0).candidates = s := by
  unfold Segments.set_candidates Segments.conversion_segment
  cases h : s.conversion_segments with
  | nil => rfl
  | cons seg rest =>
    cases s
    simp at h
    simp [h]

theorem Segments.conversion_segment_set_max (s : Segments) (n i : Nat) :
    (s.set_max_prediction_candidates_size n).conversion_segment i = s.conversion_segment i := rfl

theorem Segments.conversion_segments_set_max (s : Segments) (n : Nat) :
    (s.set_max_prediction_candidates_size n).conversion_segments = s.conversion_segments := rfl

theorem AggregateRealtimeConversion_frame (env : Env) (hconv : ConvertOnlyAppends env)
    (type : PredictionType) (segments : Segments) (results : List Result) :
    ((AggregateRealtimeConversion env type segments results).1.conversion_segments = [] ↔
        segments.conversion_segments = []) ∧
    (∃ app, ((AggregateRealtimeConversion env type segments results).1.conversion_segment 0
        ).candidates = (segments.conversion_segment 0).candidates ++ app) ∧
    (ConvertAppendsNoneOnFailure env →
      ((AggregateRealtimeConversion env type segments results).1.conversion_segment 0
        ).candidates = (segments.conversion_segment 0).candidates) := by
  unfold AggregateRealtimeConversion
  by_cases hrt : type.realtime = true
  · simp only [hrt, Bool.not_true, Bool.false_eq_true, ↓reduceIte]
    generalize size_add (segments.conversion_segment 0).candidates.length
      (GetRealtimeCandidateMaxSize segments env.mixed_conversion
        (size_sub segments.max_prediction_candidates_size
          (segments.conversion_segment 0).candidates.length)) = N
    obtain ⟨app, happ⟩ := hconv (segments.set_max_prediction_candidates_size N)
    have hcs : (segments.set_max_prediction_candidates_size N).conversion_segments
        = segments.conversion_segments := rfl
    have hc0 : (segments.set_max_prediction_candidates_size N).conversion_segment 0
        = segments.conversion_segment 0 := rfl
    rw [hc0] at happ
    have hcands : ((env.Convert (segments.set_max_prediction_candidates_size N)).2.conversion_segment
        0).candidates = if segments.conversion_segments = [] then []
          else (segments.conversion_segment 0).candidates ++ app := by
      rw [happ, Segments.candidates_set_candidates, hcs]
    have hempty : (env.Convert (segments.set_max_prediction_candidates_size N)).2.conversion_segments
        = [] ↔ segments.conversion_segments = [] := by
      rw [happ, Segments.conversion_segments_set_candidates, hcs]
    by_cases hnil : segments.conversion_segments = []
    · have hold := Segments.candidates_of_no_segment segments hnil
      rw [if_pos hnil] at hcands
      rw [hcands, hold]
      simp only [List.length_nil, lt_self_iff_false, decide_False, Bool.and_false,
        Bool.false_eq_true, ↓reduceIte]
      exact ⟨hempty, ⟨[], by rw [hcands]; rfl⟩, fun _ => hcands⟩
    · rw [if_neg hnil] at hcands
      rw [hcands]
      by_cases hcond : ((env.Convert (segments.set_max_prediction_candidates_size N)).1 &&
          decide ((segments.conversion_segment 0).candidates.length
            < ((segments.conversion_segment 0).candidates ++ app).length)) = true
      · rw [if_pos hcond]
        have hne : ¬ (env.Convert (segments.set_max_prediction_candidates_size N)).2.conversion_segments
            = [] := fun h => hnil (hempty.1 h)
        simp only [Segments.conversion_segment_set_max, Segments.conversion_segments_set_max,
          Segments.candidates_set_candidates, Segments.conversion_segments_set_candidates,
          if_neg hne, List.take_left]
        exact ⟨hempty, ⟨[], (List.append_nil _).symm⟩, fun _ => trivial⟩
      · rw [if_neg hcond]
        refine ⟨hempty, ⟨app, hcands⟩, fun hF => ?_⟩
        cases hok : (env.Convert (segments.set_max_prediction_candidates_size N)).1 with
        | false => rw [hF _ hok]; rfl
        | true =>
          rw [hok] at hcond
          simp only [Bool.true_and, decide_eq_true_eq, List.length_append, not_lt] at hcond
          have happ0 : app = [] := by
            apply List.eq_nil_of_length_eq_zero
            omega
          rw [hcands, happ0, List.append_nil]
  · simp only [Bool.not_eq_true] at hrt
    simp [hrt]

theorem GetPredictionType_conversion_segments (env : Env) (segments : Segments)
    (h : GetPredictionType env segments ≠ NO_PREDICTION) : segments.conversion_segments ≠ [] := by
  intro hnil
  apply h
  unfold GetPredictionType
  by_cases hc : segments.request_type = RequestType.CONVERSION
  · simp [hc]
  · simp [hc, Segments.conversion_segments_size, hnil]

theorem AggregatePrediction_segments (env : Env) (request : ConversionRequest)
    (segments : Segments) (max_nodes_size : Nat) (results : List Result) (b : Bool)
    (segs1 : Segments) (results1 : List Result)
    (h : AggregatePrediction env request segments max_nodes_size results
      = some (b, segs1, results1)) :
    (GetPredictionType env segments = NO_PREDICTION ∧ b = false ∧ segs1 = segments) ∨
    (GetPredictionType env segments ≠ NO_PREDICTION ∧
      segs1 = (AggregateRealtimeConversion env (GetPredictionType env segments) segments
        results).1) := by
  unfold AggregatePrediction at h
  simp only [] at h
  split_ifs at h with h1 h2
  · simp only [Option.some.injEq, Prod.mk.injEq] at h
    exact Or.inl ⟨h1, h.1.symm, h.2.1.symm⟩
  · simp only [Option.some.injEq, Prod.mk.injEq] at h
    exact Or.inr ⟨h1, h.2.1.symm⟩
  · split at h
    · cases h
    · simp only [Option.some.injEq, Prod.mk.injEq] at h
      exact Or.inr ⟨h1, h.2.1.symm⟩

theorem PredictForRequest_cases (env : Env) (request : ConversionRequest) (segments : Segments)
    (b : Bool) (segs2 : Segments)
    (h : PredictForRequest env request (some segments) = some (b, some segs2)) :
    (∃ results, AggregatePrediction env request segments env.default_max_nodes_size []
        = some (false, segs2, results) ∧ b = false) ∨
    (∃ segs1 results, AggregatePrediction env request segments env.default_max_nodes_size []
        = some (true, segs1, results) ∧
      AddPredictionToCandidates env segs1 (RemovePrediction env segs1 (SetCost env segs1 results))
        = some (b, segs2)) := by
  unfold PredictForRequest at h
  simp only [] at h
  cases ha : AggregatePrediction env request segments env.default_max_nodes_size [] with
  | none => rw [ha] at h; cases h
  | some out =>
    obtain ⟨ok, segs1, results⟩ := out
    rw [ha] at h
    cases ok with
    | false =>
      simp only [Option.some.injEq, Prod.mk.injEq] at h
      left
      exact ⟨results, by rw [← h.2], h.1.symm⟩
    | true =>
      simp only [] at h
      right
      refine ⟨segs1, results, rfl, ?_⟩
      cases hp : AddPredictionToCandidates env segs1
          (RemovePrediction env segs1 (SetCost env segs1 results)) with
      | none => rw [hp] at h; cases h
      | some out2 =>
        obtain ⟨b2, s2⟩ := out2
        rw [hp] at h
        simp only [Option.some.injEq, Prod.mk.injEq] at h
        rw [h.1, h.2]


/-! ## Properties kept by every element -/

theorem forall_mem_set {α : Type} {Q : α → Prop} {l : List α} (h : ∀ x ∈ l, Q x) {y : α}
    (hy : Q y) (i : Nat) : ∀ x ∈ l.set i y, Q x := by
  intro x hx
  rcases List.mem_or_eq_of_mem_set hx with h1 | h1
  · exact h x h1
  · rw [h1]; exact hy

theorem getD_of_forall {α : Type} {Q : α → Prop} {l : List α} (h : ∀ x ∈ l, Q x) {d : α}
    (hd : Q d) (i : Nat) : Q (l.getD i d) := by
  by_cases hi : i < l.length
  · rw [List.getD_eq_getElem l d hi]
    exact h _ (List.getElem_mem hi)
  · rw [List.getD_eq_default l d (Nat.le_of_not_lt hi)]
    exact hd

section HeapLemmas

variable {α : Type} [Inhabited α]

theorem push_heap_loop_forall (comp : α → α → Bool) (Q : α → Prop) (hd : Q default) :
    ∀ (fuel : Nat) (v : List α) (holeIndex topIndex : Nat) (value : α),
      (∀ x ∈ v, Q x) → Q value →
      ∀ x ∈ push_heap_loop comp fuel v holeIndex topIndex value, Q x := by
  intro fuel
  induction fuel with
  | zero =>
    intro v holeIndex topIndex value hv hval
    simp only [push_heap_loop]
    exact forall_mem_set hv hval _
  | succ fuel ih =>
    intro v holeIndex topIndex value hv hval
    simp only [push_heap_loop]
    split_ifs
    · exact ih _ _ _ _ (forall_mem_set hv (getD_of_forall hv hd _) _) hval
    · exact forall_mem_set hv hval _

theorem adjust_heap_loop_forall (comp : α → α → Bool) (Q : α → Prop) (hd : Q default) :
    ∀ (fuel : Nat) (v : List α) (holeIndex len : Nat),
      (∀ x ∈ v, Q x) → ∀ x ∈ (adjust_heap_loop comp fuel v holeIndex len).1, Q x := by
  intro fuel
  induction fuel with
  | zero =>
    intro v holeIndex len hv
    simpa only [adjust_heap_loop] using hv
  | succ fuel ih =>
    intro v holeIndex len hv
    simp only [adjust_heap_loop]
    split_ifs
    · exact ih _ _ _ (forall_mem_set hv (getD_of_forall hv hd _) _)
    · exact ih _ _ _ (forall_mem_set hv (getD_of_forall hv hd _) _)
    · exact hv

theorem adjust_heap_forall (comp : α → α → Bool) (Q : α → Prop) (hd : Q default)
    (v : List α) (holeIndex len : Nat) (value : α) (hv : ∀ x ∈ v, Q x) (hval : Q value) :
    ∀ x ∈ adjust_heap comp v holeIndex len value, Q x := by
  unfold adjust_heap
  simp only []
  have h1 := adjust_heap_loop_forall comp Q hd len v holeIndex len hv
  split_ifs
  · exact push_heap_loop_forall comp Q hd _ _ _ _ _
      (forall_mem_set h1 (getD_of_forall h1 hd _) _) hval
  · exact push_heap_loop_forall comp Q hd _ _ _ _ _ h1 hval

theorem pop_heap_forall (comp : α → α → Bool) (Q : α → Prop) (hd : Q default)
    (v : List α) (len : Nat) (hv : ∀ x ∈ v, Q x) : ∀ x ∈ pop_heap comp v len, Q x := by
  unfold pop_heap
  split_ifs
  · exact adjust_heap_forall comp Q hd _ _ _ _
      (forall_mem_set hv (getD_of_forall hv hd _) _) (getD_of_forall hv hd _)
  · exact hv

theorem make_heap_loop_forall (comp : α → α → Bool) (Q : α → Prop) (hd : Q default) :
    ∀ (fuel : Nat) (v : List α) (parent len : Nat),
      (∀ x ∈ v, Q x) → ∀ x ∈ make_heap_loop comp fuel v parent len, Q x := by
  intro fuel
  induction fuel with
  | zero =>
    intro v parent len hv
    simpa only [make_heap_loop] using hv
  | succ fuel ih =>
    intro v parent len hv
    simp only [make_heap_loop]
    split_ifs
    · exact adjust_heap_forall comp Q hd _ _ _ _ hv (getD_of_forall hv hd _)
    · exact ih _ _ _ (adjust_heap_forall comp Q hd _ _ _ _ hv (getD_of_forall hv hd _))

theorem make_heap_forall (comp : α → α → Bool) (Q : α → Prop) (hd : Q default)
    (v : List α) (hv : ∀ x ∈ v, Q x) : ∀ x ∈ make_heap comp v, Q x := by
  unfold make_heap
  split_ifs
  · exact hv
  · exact make_heap_loop_forall comp Q hd _ _ _ _ hv

end HeapLemmas

theorem MarkNoPrediction_forall (Q : Result → Prop) (hd : Q default)
    (hQ : ∀ r : Result, Q r → Q { r with type := NO_PREDICTION }) :
    ∀ (indices : List Nat) (results : List Result),
      (∀ r ∈ results, Q r) → ∀ r ∈ MarkNoPrediction results indices, Q r := by
  intro indices
  induction indices with
  | nil => intro results h; simpa [MarkNoPrediction] using h
  | cons j rest ih =>
    intro results h
    simp only [MarkNoPrediction, List.foldl_cons]
    exact ih _ (forall_mem_set h (hQ _ (getD_of_forall h hd _)) _)

theorem RemoveMissSpelledLoop_forall (env : Env) (request_key_len : Nat) (Q : Result → Prop)
    (hd : Q default) (hQ : ∀ r : Result, Q r → Q { r with type := NO_PREDICTION }) :
    ∀ (n i : Nat) (scs : Int) (results : List Result),
      (∀ r ∈ results, Q r) →
      ∀ r ∈ RemoveMissSpelledLoop env request_key_len n i scs results, Q r := by
  intro n
  induction n with
  | zero => intro i scs results h; simpa [RemoveMissSpelledLoop] using h
  | succ n ih =>
    intro i scs results h
    simp only [RemoveMissSpelledLoop]
    split_ifs
    all_goals first
      | exact h
      | exact ih _ _ _ h
      | exact ih _ _ _ (MarkNoPrediction_forall Q hd hQ _ _ h)
      | exact ih _ _ _ (MarkNoPrediction_forall Q hd hQ _ _
          (MarkNoPrediction_forall Q hd hQ _ _ h))

theorem RemovePrediction_forall (env : Env) (segments : Segments) (Q : Result → Prop)
    (hd : Q default) (hQ : ∀ r : Result, Q r → Q { r with type := NO_PREDICTION })
    (results : List Result) (h : ∀ r ∈ results, Q r) :
    ∀ r ∈ RemovePrediction env segments results, Q r := by
  unfold RemovePrediction RemoveMissSpelledCandidates
  split_ifs
  · exact h
  · exact RemoveMissSpelledLoop_forall env _ Q hd hQ _ _ _ _ h
  · exact h

theorem SetPredictionCostOne_eq (env : Env) (segments : Segments) (total : Nat) (r : Result) :
    ∃ c : Int, SetPredictionCostOne env segments total r = { r with cost := c } := by
  unfold SetPredictionCostOne
  simp only []
  split_ifs
  · exact ⟨_, rfl⟩
  · exact ⟨_, rfl⟩
  · exact ⟨_, rfl⟩
  · exact ⟨_, rfl⟩

theorem ApplyPenaltyForKeyExpansion_forall (segments : Segments) (Q : Result → Prop)
    (hQ : ∀ (r : Result) (c : Int), Q r → Q { r with cost := c })
    (results : List Result) (h : ∀ r ∈ results, Q r) :
    ∀ r ∈ ApplyPenaltyForKeyExpansion segments results, Q r := by
  unfold ApplyPenaltyForKeyExpansion
  split_ifs
  · exact h
  · intro r hr
    obtain ⟨r0, hr0, rfl⟩ := List.mem_map.1 hr
    split_ifs
    · exact hQ _ _ (h r0 hr0)
    · exact h r0 hr0

theorem SetCost_forall (env : Env) (segments : Segments) (Q : Result → Prop)
    (hQ : ∀ (r : Result) (c : Int), Q r → Q { r with cost := c })
    (results : List Result) (h : ∀ r ∈ results, Q r) :
    ∀ r ∈ SetCost env segments results, Q r := by
  unfold SetCost
  apply ApplyPenaltyForKeyExpansion_forall segments Q hQ
  by_cases hm : env.mixed_conversion = true
  · rw [if_pos hm]
    intro r hr
    obtain ⟨r0, hr0, rfl⟩ := List.mem_map.1 hr
    exact hQ _ _ (h r0 hr0)
  · rw [if_neg hm]
    intro r hr
    obtain ⟨r0, hr0, rfl⟩ := List.mem_map.1 hr
    obtain ⟨c, hc⟩ := SetPredictionCostOne_eq env segments results.length r0
    rw [hc]
    exact hQ _ _ (h r0 hr0)
theorem substr_eq_some (s : Str) (pos : Nat) (t : Str)
    (h : substr s pos (s.length - pos) = some t) : pos ≤ s.length ∧ t = s.drop pos := by
  unfold substr at h
  split_ifs at h with hp
  simp only [Option.some.injEq] at h
  refine ⟨Nat.le_of_not_lt hp, ?_⟩
  rw [← h]
  apply List.take_of_length_le
  simp

theorem CharsLen_ne_zero (s : Str) (h : s ≠ []) : CharsLen s ≠ 0 := by
  cases s with
  | nil => exact absurd rfl h
  | cons b rest =>
    simp only [CharsLen, List.length_cons, CharsLenLoop]
    omega

theorem BigramStripped_of_not_bigram (segments : Segments) (r : Result)
    (h : r.type.bigram = false) : BigramStripped segments r := by
  intro hb
  rw [h] at hb
  cases hb

theorem BigramFilterOne_stripped (env : Env) (segments : Segments) (history_node : Node)
    (ctype : ScriptType) (is_zero_query : Bool) (max_nodes_size : Nat) (r r1 : Result)
    (hsw : StartsWith r.node.value (GetHistoryKeyAndValue segments).2.2 = true)
    (h : BigramFilterOne env (GetHistoryKeyAndValue segments).2.1
      (GetHistoryKeyAndValue segments).2.2 history_node ctype is_zero_query max_nodes_size r
        = some r1) :
    BigramStripped segments r1 := by
  unfold BigramFilterOne at h
  cases hk : substr r.node.key (GetHistoryKeyAndValue segments).2.1.length
      (r.node.key.length - (GetHistoryKeyAndValue segments).2.1.length) with
  | none => rw [hk] at h; cases h
  | some key =>
    rw [hk] at h
    simp only [] at h
    cases hv : substr r.node.value (GetHistoryKeyAndValue segments).2.2.length
        (r.node.value.length - (GetHistoryKeyAndValue segments).2.2.length) with
    | none => rw [hv] at h; cases h
    | some value =>
      rw [hv] at h
      simp only [] at h
      obtain ⟨hkl, hkd⟩ := substr_eq_some _ _ _ hk
      obtain ⟨_, hvd⟩ := substr_eq_some _ _ _ hv
      have hno : ∀ r0 : Result, BigramStripped segments { r0 with type := NO_PREDICTION } :=
        fun r0 => BigramStripped_of_not_bigram _ _ rfl
      split_ifs at h with h1 h2 h3 h4 h5
      · cases h; exact hno r
      · cases h; exact hno r
      · cases h; exact hno r
      · cases h
        intro _
        simp only [Bool.or_eq_true, List.isEmpty_iff, not_or] at h1
        exact ⟨hkl, hkd ▸ h1.1, hsw, hvd ▸ h1.2⟩
      · cases h; exact hno r
      · cases h
        intro _
        simp only [Bool.or_eq_true, List.isEmpty_iff, not_or] at h1
        exact ⟨hkl, hkd ▸ h1.1, hsw, hvd ▸ h1.2⟩

theorem BigramFilterLoop_stripped (env : Env) (segments : Segments) (history_node : Node)
    (ctype : ScriptType) (is_zero_query : Bool) (max_nodes_size : Nat) :
    ∀ (block block1 : List Result),
      (∀ r ∈ block, StartsWith r.node.value (GetHistoryKeyAndValue segments).2.2 = true) →
      BigramFilterLoop env (GetHistoryKeyAndValue segments).2.1
        (GetHistoryKeyAndValue segments).2.2 history_node ctype is_zero_query max_nodes_size
        block = some block1 →
      ∀ r ∈ block1, BigramStripped segments r := by
  intro block
  induction block with
  | nil =>
    intro block1 _ h
    simp only [BigramFilterLoop, Option.some.injEq] at h
    subst h
    intro r hr
    cases hr
  | cons r rest ih =>
    intro block1 hsw h
    simp only [BigramFilterLoop] at h
    cases h1 : BigramFilterOne env (GetHistoryKeyAndValue segments).2.1
        (GetHistoryKeyAndValue segments).2.2 history_node ctype is_zero_query max_nodes_size r with
    | none => rw [h1] at h; cases h
    | some r1 =>
      rw [h1] at h
      simp only [] at h
      cases h2 : BigramFilterLoop env (GetHistoryKeyAndValue segments).2.1
          (GetHistoryKeyAndValue segments).2.2 history_node ctype is_zero_query max_nodes_size
          rest with
      | none => rw [h2] at h; cases h
      | some rest1 =>
        rw [h2] at h
        simp only [Option.some.injEq] at h
        subst h
        intro x hx
        rcases List.mem_cons.1 hx with hx | hx
        · rw [hx]
          exact BigramFilterOne_stripped env segments history_node ctype is_zero_query
            max_nodes_size r r1 (hsw r (List.mem_cons_self _ _)) h1
        · exact ih rest1 (fun y hy => hsw y (List.mem_cons_of_mem _ hy)) h2 x hx

theorem forall_mem_append_of {α : Type} {Q : α → Prop} {l1 l2 : List α} (h1 : ∀ x ∈ l1, Q x)
    (h2 : ∀ x ∈ l2, Q x) : ∀ x ∈ l1 ++ l2, Q x := by
  intro x hx
  rcases List.mem_append.1 hx with h | h
  · exact h1 x h
  · exact h2 x h

theorem AggregateBigramPrediction_stripped (env : Env) (type : PredictionType)
    (request : ConversionRequest) (segments : Segments) (max_nodes_size : Nat)
    (results : List Result) (out : Nat × List Result)
    (hhist : (GetHistoryKeyAndValue segments).2.2 ≠ [])
    (hres : ∀ r ∈ results, BigramStripped segments r)
    (h : AggregateBigramPrediction env type request segments max_nodes_size results = some out) :
    ∀ r ∈ out.2, BigramStripped segments r := by
  unfold AggregateBigramPrediction at h
  by_cases hb : (!type.bigram) = true
  · rw [if_pos hb] at h
    cases h; exact hres
  · rw [if_neg hb] at h
    simp only [] at h
    generalize (if segments.request_type = RequestType.PREDICTION then kPredictionMaxNodesSize
      else kSuggestionMaxNodesSize) = M at h
    cases hl : LookupKeyValueFromDictionary env (GetHistoryKeyAndValue segments).2.1
        (GetHistoryKeyAndValue segments).2.2 max_nodes_size with
    | none =>
      rw [hl] at h
      cases h; exact hres
    | some history_node =>
      rw [hl] at h
      simp only [] at h
      split_ifs at h with h1 h2
      · cases h
        simpa only [List.take_left] using hres
      · exact absurd h2 (CharsLen_ne_zero _ hhist)
      · split at h
        · cases h
        · rename_i block1 hloop
          cases h
          refine forall_mem_append_of hres ?_
          refine BigramFilterLoop_stripped env segments _ _ _ _ _ block1 ?_ hloop
          intro r hr
          obtain ⟨node, hnode, rfl⟩ := List.mem_map.1 hr
          exact (List.mem_filter.1 hnode).2

theorem NumberSuffixResults_type (id : Nat) :
    ∀ (suffixes : List Str) (cost : Int), ∀ r ∈ NumberSuffixResults id suffixes cost,
      r.type = SUFFIX := by
  intro suffixes
  induction suffixes with
  | nil => intro cost r hr; cases hr
  | cons s rest ih =>
    intro cost r hr
    simp only [NumberSuffixResults, List.mem_cons] at hr
    rcases hr with hr | hr
    · rw [hr]
    · exact ih _ r hr

theorem AggregateRealtimeConversion_mem (env : Env) (type : PredictionType) (segments : Segments)
    (results : List Result) :
    ∀ r ∈ (AggregateRealtimeConversion env type segments results).2,
      r ∈ results ∨ r.type = REALTIME := by
  intro r hr
  unfold AggregateRealtimeConversion at hr
  simp only [] at hr
  split_ifs at hr
  · exact Or.inl hr
  · rcases List.mem_append.1 hr with h | h
    · exact Or.inl h
    · obtain ⟨c, _, rfl⟩ := List.mem_map.1 h
      exact Or.inr rfl
  · exact Or.inl hr

theorem AggregateUnigramPrediction_mem (env : Env) (type : PredictionType)
    (request : ConversionRequest) (segments : Segments) (max_nodes_size : Nat)
    (results : List Result) :
    ∀ r ∈ (AggregateUnigramPrediction env type request segments max_nodes_size results).2,
      r ∈ results ∨ r.type = UNIGRAM := by
  intro r hr
  unfold AggregateUnigramPrediction at hr
  simp only [] at hr
  by_cases hu : (!type.unigram) = true
  · rw [if_pos hu] at hr
    exact Or.inl hr
  · rw [if_neg hu] at hr
    generalize GetUnigramCandidateCutoffThreshold segments env.mixed_conversion = cutoff at hr
    split_ifs at hr
    · rw [List.take_left] at hr
      exact Or.inl hr
    · rcases List.mem_append.1 hr with h | h
      · exact Or.inl h
      · obtain ⟨c, _, rfl⟩ := List.mem_map.1 h
        exact Or.inr rfl

theorem AggregateSuffixPrediction_mem (env : Env) (type : PredictionType)
    (request : ConversionRequest) (segments : Segments) (max_nodes_size : Nat)
    (results : List Result) :
    ∀ r ∈ AggregateSuffixPrediction env type request segments max_nodes_size results,
      r ∈ results ∨ r.type = SUFFIX := by
  intro r hr
  unfold AggregateSuffixPrediction at hr
  simp only [] at hr
  by_cases hs : (!type.suffix) = true
  · rw [if_pos hs] at hr
    exact Or.inl hr
  · rw [if_neg hs] at hr
    generalize (if segments.history_segments_size ≠ 0 then
      IsNumber (segments.history_segment (segments.history_segments_size - 1)).key
      else false) = has_number_history at hr
    split_ifs at hr
    · rcases List.mem_append.1 hr with h | h
      · exact Or.inl h
      · exact Or.inr (NumberSuffixResults_type _ _ _ r h)
    · rcases List.mem_append.1 hr with h | h
      · exact Or.inl h
      · obtain ⟨c, _, rfl⟩ := List.mem_map.1 h
        exact Or.inr rfl

theorem AggregatePrediction_stripped (env : Env) (request : ConversionRequest)
    (segments : Segments) (max_nodes_size : Nat) (b : Bool) (segs1 : Segments)
    (results : List Result)
    (hhist : (GetHistoryKeyAndValue segs1).2.2 ≠ [])
    (h : AggregatePrediction env request segments max_nodes_size [] = some (b, segs1, results)) :
    ∀ r ∈ results, BigramStripped segs1 r := by
  have hrt : ∀ type, ∀ r ∈ (AggregateRealtimeConversion env type segments []).2,
      BigramStripped segs1 r := by
    intro type r hr
    rcases AggregateRealtimeConversion_mem env type segments [] r hr with h | h
    · cases h
    · exact BigramStripped_of_not_bigram _ _ (by rw [h]; rfl)
  unfold AggregatePrediction at h
  simp only [] at h
  split_ifs at h with h1 h2
  · cases h
    intro r hr; cases hr
  · cases h
    exact hrt _
  · split at h
    · cases h
    · rename_i bigram hbigram
      cases h
      have hun : ∀ r ∈ (AggregateUnigramPrediction env (GetPredictionType env segments) request
          (AggregateRealtimeConversion env (GetPredictionType env segments) segments []).1
          max_nodes_size
          (AggregateRealtimeConversion env (GetPredictionType env segments) segments []).2).2,
          BigramStripped
            (AggregateRealtimeConversion env (GetPredictionType env segments) segments []).1 r := by
        intro r hr
        rcases AggregateUnigramPrediction_mem _ _ _ _ _ _ r hr with h | h
        · exact hrt _ r h
        · exact BigramStripped_of_not_bigram _ _ (by rw [h]; rfl)
      have hbi := AggregateBigramPrediction_stripped env _ request _ _ _ bigram hhist hun hbigram
      intro r hr
      rcases AggregateSuffixPrediction_mem _ _ _ _ _ _ r hr with h | h
      · exact hbi r h
      · exact BigramStripped_of_not_bigram _ _ (by rw [h]; rfl)


theorem AddPredictionRun_stripped (env : Env) (segments : Segments) (results : List Result)
    (st : EmitState) (hres : ∀ r ∈ results, BigramStripped segments r)
    (h : AddPredictionRun env segments results = some st) :
    ∀ rc ∈ st.emitted, BigramStripped segments rc.1 ∧
      StrippedKeyValue segments rc.1 = some (rc.2.key, rc.2.value) := by
  have hd : BigramStripped segments default := BigramStripped_of_not_bigram _ _ rfl
  have hinv := AddPredictionRun_invariant env segments results
    (fun st => (∀ r ∈ st.results, BigramStripped segments r) ∧
      ∀ rc ∈ st.emitted, BigramStripped segments rc.1 ∧
        StrippedKeyValue segments rc.1 = some (rc.2.key, rc.2.value)) ?_ ?_ st h
  · exact hinv.2
  · exact ⟨make_heap_forall ResultCompare _ hd results hres, fun rc hrc => by cases hrc⟩
  · intro i st st1 hinv _ hb
    obtain ⟨hr, hc⟩ := AddPredictionBody_cases env segments i st st1 hb
    have hres1 : ∀ r ∈ st1.results, BigramStripped segments r := by
      rw [hr]
      exact pop_heap_forall ResultCompare _ hd _ _ hinv.1
    refine ⟨hres1, ?_⟩
    rcases hc with ⟨_, he, _⟩ | ⟨key, value, hs, _, _, _, _, he⟩
    · rw [he]; exact hinv.2
    · rw [he]
      refine forall_mem_append_of hinv.2 ?_
      intro rc hrc
      simp only [List.mem_singleton] at hrc
      subst hrc
      exact ⟨getD_of_forall hres1 hd _, hs⟩

theorem Segments.history_segments_set_candidates (s : Segments) (cs : List Candidate) :
    (s.set_candidates cs).history_segments = s.history_segments := by
  unfold Segments.set_candidates
  cases s.conversion_segments <;> rfl

theorem GetHistoryKeyAndValue_congr (s1 s2 : Segments)
    (h : s1.history_segments = s2.history_segments) :
    GetHistoryKeyAndValue s1 = GetHistoryKeyAndValue s2 := by
  unfold GetHistoryKeyAndValue Segments.history_segments_size Segments.history_segment
  rw [h]

theorem AggregateRealtimeConversion_history (env : Env) (hconv : ConvertOnlyAppends env)
    (type : PredictionType) (segments : Segments) (results : List Result) :
    (AggregateRealtimeConversion env type segments results).1.history_segments
      = segments.history_segments := by
  unfold AggregateRealtimeConversion
  simp only []
  generalize size_add (segments.conversion_segment 0).candidates.length
    (GetRealtimeCandidateMaxSize segments env.mixed_conversion
      (size_sub segments.max_prediction_candidates_size
        (segments.conversion_segment 0).candidates.length)) = N
  obtain ⟨app, happ⟩ := hconv (segments.set_max_prediction_candidates_size N)
  have hh : (env.Convert (segments.set_max_prediction_candidates_size N)).2.history_segments
      = segments.history_segments := by
    rw [happ, Segments.history_segments_set_candidates]
    rfl
  split_ifs
  · rfl
  · show ((env.Convert (segments.set_max_prediction_candidates_size N)).2.set_candidates
      _).history_segments = _
    rw [Segments.history_segments_set_candidates, hh]
  · exact hh

/-! ## The bits of `GetPredictionType` -/

theorem GetPredictionType_realtime (env : Env) (segments : Segments) :
    (GetPredictionType env segments).realtime =
      (if segments.request_type = RequestType.CONVERSION then false
       else if segments.conversion_segments_size < 1 then false
       else if segments.request_type = RequestType.PARTIAL_SUGGESTION then true
       else (env.use_realtime_conversion || env.mixed_conversion) &&
          decide ((segments.conversion_segment 0).key.length > 0) &&
          decide ((segments.conversion_segment 0).key.length < 300)) := by
  unfold GetPredictionType
  simp only [apply_ite PredictionType.realtime, NO_PREDICTION, ite_self]
  by_cases h1 : segments.request_type = RequestType.CONVERSION
  · simp only [if_pos h1]
  · simp only [if_neg h1]
    by_cases h2 : segments.conversion_segments_size < 1
    · simp only [if_pos h2]
    · simp only [if_neg h2]
      by_cases h3 : segments.request_type = RequestType.PARTIAL_SUGGESTION
      · simp only [if_pos h3]
      · simp only [if_neg h3]
        cases ((env.use_realtime_conversion || env.mixed_conversion) &&
          decide ((segments.conversion_segment 0).key.length > 0) &&
          decide ((segments.conversion_segment 0).key.length < 300)) <;> simp

theorem GetPredictionType_unigram (env : Env) (segments : Segments) :
    (GetPredictionType env segments).unigram =
      (!ReturnsEarly env segments &&
        ((decide (segments.request_type = RequestType.PREDICTION) &&
            decide (CharsLen (segments.conversion_segment 0).key ≥ 1)) ||
          decide (CharsLen (segments.conversion_segment 0).key
            ≥ if env.zero_query_suggestion then 1 else 3))) := by
  unfold GetPredictionType ReturnsEarly
  simp only [apply_ite PredictionType.unigram, NO_PREDICTION, ite_self]
  by_cases h1 : segments.request_type = RequestType.CONVERSION
  · simp [h1]
  · by_cases h2 : segments.conversion_segments_size < 1
    · simp [h1, h2]
    · by_cases h3 : (!env.use_dictionary_suggest &&
          decide (segments.request_type = RequestType.SUGGESTION)) = true
      · simp only [if_neg h1, if_neg h2, if_pos h3, h3]
        simp
      · by_cases h4 : (decide (CharsLen (segments.conversion_segment 0).key = 0) &&
            !env.zero_query_suggestion) = true
        · simp only [if_neg h1, if_neg h2, if_neg h3, if_pos h4, h4]
          simp
        · by_cases h5 : (decide (segments.request_type = RequestType.SUGGESTION) &&
              IsZipCodeRequest (segments.conversion_segment 0).key &&
              decide (CharsLen (segments.conversion_segment 0).key < 6)) = true
          · simp only [if_neg h1, if_neg h2, if_neg h3, if_neg h4, if_pos h5, h5]
            simp
          · simp only [if_neg h1, if_neg h2, if_neg h3, if_neg h4, if_neg h5]
            simp only [Bool.not_eq_true] at h3 h4 h5
            simp only [h1, h2, h3, h4, h5, decide_False, Bool.or_false, Bool.not_false,
              Bool.true_and]
            split_ifs <;> simp_all

theorem GetPredictionType_bigram (env : Env) (segments : Segments) :
    (GetPredictionType env segments).bigram =
      (!ReturnsEarly env segments && (decide (segments.history_segments_size > 0) &&
          (decide ((segments.history_segment (segments.history_segments_size - 1)).candidates.length
            > 0) &&
          decide (CharsLen ((segments.history_segment
              (segments.history_segments_size - 1)).candidates.getD 0 default).key
            ≥ if env.zero_query_suggestion then 2 else 3)))) := by
  unfold GetPredictionType ReturnsEarly
  simp only [apply_ite PredictionType.bigram, NO_PREDICTION, ite_self]
  by_cases h1 : segments.request_type = RequestType.CONVERSION
  · simp [h1]
  · by_cases h2 : segments.conversion_segments_size < 1
    · simp [h1, h2]
    · by_cases h3 : (!env.use_dictionary_suggest &&
          decide (segments.request_type = RequestType.SUGGESTION)) = true
      · simp only [if_neg h1, if_neg h2, if_pos h3, h3]
        simp
      · by_cases h4 : (decide (CharsLen (segments.conversion_segment 0).key = 0) &&
            !env.zero_query_suggestion) = true
        · simp only [if_neg h1, if_neg h2, if_neg h3, if_pos h4, h4]
          simp
        · by_cases h5 : (decide (segments.request_type = RequestType.SUGGESTION) &&
              IsZipCodeRequest (segments.conversion_segment 0).key &&
              decide (CharsLen (segments.conversion_segment 0).key < 6)) = true
          · simp only [if_neg h1, if_neg h2, if_neg h3, if_neg h4, if_pos h5, h5]
            simp
          · simp only [if_neg h1, if_neg h2, if_neg h3, if_neg h4, if_neg h5]
            simp only [Bool.not_eq_true] at h3 h4 h5
            simp only [h1, h2, h3, h4, h5, decide_False, Bool.or_false, Bool.not_false,
              Bool.true_and]
            generalize (decide ((segments.history_segment
                (segments.history_segments_size - 1)).candidates.length > 0) &&
              decide (CharsLen ((segments.history_segment
                (segments.history_segments_size - 1)).candidates.getD 0 default).key
                ≥ if env.zero_query_suggestion then 2 else 3)) = X
            by_cases hh : segments.history_segments_size > 0 <;>
              cases X <;> cases env.zero_query_suggestion <;> simp [hh]

theorem GetPredictionType_suffix (env : Env) (segments : Segments) :
    (GetPredictionType env segments).suffix =
      (!ReturnsEarly env segments && (decide (segments.history_segments_size > 0) && env.zero_query_suggestion)) := by
  unfold GetPredictionType ReturnsEarly
  simp only [apply_ite PredictionType.suffix, NO_PREDICTION, ite_self]
  by_cases h1 : segments.request_type = RequestType.CONVERSION
  · simp [h1]
  · by_cases h2 : segments.conversion_segments_size < 1
    · simp [h1, h2]
    · by_cases h3 : (!env.use_dictionary_suggest &&
          decide (segments.request_type = RequestType.SUGGESTION)) = true
      · simp only [if_neg h1, if_neg h2, if_pos h3, h3]
        simp
      · by_cases h4 : (decide (CharsLen (segments.conversion_segment 0).key = 0) &&
            !env.zero_query_suggestion) = true
        · simp only [if_neg h1, if_neg h2, if_neg h3, if_pos h4, h4]
          simp
        · by_cases h5 : (decide (segments.request_type = RequestType.SUGGESTION) &&
              IsZipCodeRequest (segments.conversion_segment 0).key &&
              decide (CharsLen (segments.conversion_segment 0).key < 6)) = true
          · simp only [if_neg h1, if_neg h2, if_neg h3, if_neg h4, if_pos h5, h5]
            simp
          · simp only [if_neg h1, if_neg h2, if_neg h3, if_neg h4, if_neg h5]
            simp only [Bool.not_eq_true] at h3 h4 h5
            simp only [h1, h2, h3, h4, h5, decide_False, Bool.or_false, Bool.not_false,
              Bool.true_and]
            split_ifs <;> simp_all

/-! ## Machine arithmetic -/

theorem wrap32_wrap32_add (a b : Int) : wrap32 (wrap32 a + b) = wrap32 (a + b) := by
  unfold wrap32; omega

theorem wrap32_add_wrap32 (a b : Int) : wrap32 (a + wrap32 b) = wrap32 (a + b) := by
  unfold wrap32; omega

theorem wrap32_of_range (a : Int) (h1 : -2147483648 ≤ a) (h2 : a ≤ 2147483647) :
    wrap32 a = a := by
  unfold wrap32; omega

theorem size_sub_of_le (a b : Nat) (h1 : b ≤ a) (h2 : a < 18446744073709551616) :
    size_sub a b = a - b := by
  unfold size_sub; omega

theorem size_sub_of_lt (a b : Nat) (h1 : a < b) (h2 : b < 18446744073709551616) :
    size_sub a b = a + 18446744073709551616 - b := by
  unfold size_sub; omega

theorem StartsWith_nil (s : Str) : StartsWith s [] = true := by
  unfold StartsWith
  cases s <;> rfl

theorem SetLMCostOne_eq (env : Env) (segments : Segments) (r : Result) :
    SetLMCostOne env segments r = { r with cost := wrap32 (LMCostSpec env segments r) } := by
  have hw : ∀ a : Int, wrap32 (wrap32 a) = wrap32 a := by
    intro a; unfold wrap32; omega
  have hg : wrap32 (GetLMCost env r.type r.node (HistoryRid segments))
      = GetLMCost env r.type r.node (HistoryRid segments) := by
    unfold GetLMCost
    simp only []
    split_ifs <;> exact hw _
  unfold SetLMCostOne LMCostSpec
  simp only []
  generalize GetLMCost env r.type r.node (HistoryRid segments) = c at hg ⊢
  generalize HistoryPrevCost segments = p
  have e : ∀ x y : Int, ({ r with cost := x } : Result) = { r with cost := y } ↔ x = y := by
    intro x y
    constructor
    · intro h; exact congrArg Result.cost h
    · intro h; rw [h]
  rw [e]
  by_cases hu : r.type.unigram = true <;> by_cases hb : r.type.bigram = true <;>
    by_cases hl : CharsLen r.node.key > CharsLen (segments.conversion_segment 0).key <;>
    simp only [hu, hb, hl, if_true, if_false, and_self, and_true, and_false, true_and,
      false_and, add_zero, Bool.false_eq_true] <;>
    (unfold wrap32 at hg ⊢; omega)

/-! ## The number table -/

theorem FindNumberRows_spec (history_input : Str) (hne : history_input ≠ kDefault)
    (rows : List (List Str)) :
    ∀ (pre : List (List Str)) (acc : Option Nat × Option Nat),
      acc.1.map (fun n => (pre ++ rows).getD n [])
        = (pre.filter (fun row => decide (row.getD 0 [] = kDefault))).getLast? →
      acc.2.map (fun n => (pre ++ rows).getD n [])
        = (pre.filter (fun row => decide (row.getD 0 [] = history_input))).getLast? →
      (FindNumberRows history_input rows pre.length acc).1.map (fun n => (pre ++ rows).getD n [])
        = ((pre ++ rows).filter (fun row => decide (row.getD 0 [] = kDefault))).getLast? ∧
      (FindNumberRows history_input rows pre.length acc).2.map (fun n => (pre ++ rows).getD n [])
        = ((pre ++ rows).filter (fun row => decide (row.getD 0 [] = history_input))).getLast? := by
  induction rows with
  | nil =>
    intro pre acc h1 h2
    simp only [List.append_nil] at h1 h2 ⊢
    exact ⟨h1, h2⟩
  | cons row rows ih =>
    intro pre acc h1 h2
    have happ : pre ++ row :: rows = (pre ++ [row]) ++ rows := by simp
    have hlen : (pre ++ [row]).length = pre.length + 1 := by simp
    have hrow : (pre ++ row :: rows).getD pre.length [] = row := by
      rw [List.getD_eq_getElem?_getD, List.getElem?_append_right (Nat.le_refl _), Nat.sub_self,
        List.getElem?_cons_zero]
      rfl
    unfold FindNumberRows
    by_cases hd : kDefault = row.getD 0 []
    · rw [if_pos hd, ← hlen, happ]
      apply ih
      · rw [← happ]
        simp only [Option.map_some', hrow, List.filter_append]
        have : List.filter (fun row => decide (row.getD 0 [] = kDefault)) [row] = [row] := by
          rw [List.filter_cons_of_pos (by exact decide_eq_true hd.symm), List.filter_nil]
        rw [this, List.getLast?_concat]
      · rw [← happ, h2]
        have : List.filter (fun row => decide (row.getD 0 [] = history_input)) [row] = [] := by
          have hx : ¬ row.getD 0 [] = history_input := by
            rw [← hd]; exact fun h => hne h.symm
          rw [List.filter_cons_of_neg (by rw [decide_eq_true_eq]; exact hx), List.filter_nil]
        rw [List.filter_append, this, List.append_nil]
    · rw [if_neg hd]
      have hdf : List.filter (fun row => decide (row.getD 0 [] = kDefault)) [row] = [] := by
        have hx : ¬ row.getD 0 [] = kDefault := fun h => hd h.symm
        rw [List.filter_cons_of_neg (by rw [decide_eq_true_eq]; exact hx), List.filter_nil]
      by_cases hh : history_input = row.getD 0 []
      · rw [if_pos hh, ← hlen, happ]
        apply ih
        · rw [← happ, h1, List.filter_append, hdf, List.append_nil]
        · rw [← happ]
          simp only [Option.map_some', hrow, List.filter_append]
          have : List.filter (fun row => decide (row.getD 0 [] = history_input)) [row]
              = [row] := by
            rw [List.filter_cons_of_pos (by exact decide_eq_true hh.symm), List.filter_nil]
          rw [this, List.getLast?_concat]
      · rw [if_neg hh, ← hlen, happ]
        have hhf : List.filter (fun row => decide (row.getD 0 [] = history_input)) [row]
            = [] := by
          have hx : ¬ row.getD 0 [] = history_input := fun h => hh h.symm
          rw [List.filter_cons_of_neg (by rw [decide_eq_true_eq]; exact hx), List.filter_nil]
        apply ih
        · rw [← happ, h1, List.filter_append, hdf, List.append_nil]
        · rw [← happ, h2, List.filter_append, hhf, List.append_nil]

theorem GetNumberSuffixArray_eq (table : List (List Str)) (history_input : Str)
    (hne : history_input ≠ kDefault) :
    GetNumberSuffixArray table history_input
      = RowSuffixes table history_input ++ RowSuffixes table kDefault := by
  have h := FindNumberRows_spec history_input hne table [] (none, none) rfl rfl
  simp only [List.nil_append, List.length_nil] at h
  unfold GetNumberSuffixArray RowSuffixes
  simp only []
  rw [← h.1, ← h.2]
  cases (FindNumberRows history_input table 0 (none, none)).1 <;>
    cases (FindNumberRows history_input table 0 (none, none)).2 <;> rfl

theorem IsNumber_ne_kDefault (s : Str) (h : IsNumber s = true) : s ≠ kDefault := by
  intro e
  rw [e] at h
  revert h
  decide

theorem NumberSuffixResults_eq (id : Nat) (l : List Str) :
    ∀ k : Nat, NumberSuffixResults id l (wrap32 (10 * (k : Int)))
      = (l.enumFrom k).map (fun p =>
          { node := { key := p.2, value := p.2, lid := id, rid := id,
                      wcost := wrap32 (10 * (p.1 : Int)), spelling_correction := false },
            type := SUFFIX, cost := 0 }) := by
  induction l with
  | nil => intro k; rfl
  | cons s rest ih =>
    intro k
    unfold NumberSuffixResults
    rw [List.enumFrom_cons, List.map_cons]
    have hw : wrap32 (wrap32 (10 * (k : Int)) + 10) = wrap32 (10 * ((k + 1 : Nat) : Int)) := by
      rw [wrap32_wrap32_add]
      congr 1
    rw [hw, ih (k + 1)]

theorem NumberSuffixResults_small (id : Nat) (l : List Str)
    (hsmall : 10 * l.length ≤ 2147483647) :
    NumberSuffixResults id l 0 = l.enum.map (fun p => CounterSuffixResultSpec id p.1 p.2) := by
  have h := NumberSuffixResults_eq id l 0
  have h0 : wrap32 (10 * ((0 : Nat) : Int)) = 0 := by decide
  rw [h0] at h
  rw [h]
  unfold List.enum
  apply List.map_congr_left
  intro p hp
  have hlt := List.fst_lt_add_of_mem_enumFrom hp
  unfold CounterSuffixResultSpec
  rw [wrap32_of_range _ (by omega) (by omega)]

theorem CounterSuffix_ascending (id : Nat) (l : List Str) :
    ∀ k : Nat, List.Pairwise (fun a b : Result => a.node.wcost < b.node.wcost)
      ((l.enumFrom k).map (fun p => CounterSuffixResultSpec id p.1 p.2)) := by
  induction l with
  | nil => intro k; exact List.Pairwise.nil
  | cons s rest ih =>
    intro k
    rw [List.enumFrom_cons, List.map_cons, List.pairwise_cons]
    refine ⟨?_, ih (k + 1)⟩
    intro b hb
    rw [List.mem_map] at hb
    obtain ⟨p, hp, rfl⟩ := hb
    have hle := List.le_fst_of_mem_enumFrom hp
    unfold CounterSuffixResultSpec
    simp only []
    omega

/-! ## Well-formed UTF-8 -/

theorem encodeChar_ne_nil (c : Nat) : encodeChar c ≠ [] := by
  unfold encodeChar
  split_ifs <;> exact List.cons_ne_nil _ _

theorem UTF8ToUCS4_encodeChar (c : Nat) (hc : c < 0x110000) (rest : Str) :
    UTF8ToUCS4 (encodeChar c ++ rest) = (c, (encodeChar c).length) := by
  unfold encodeChar
  by_cases h1 : c < 0x80
  · rw [if_pos h1]
    simp only [List.singleton_append, UTF8ToUCS4, if_pos h1, List.length_singleton]
  · rw [if_neg h1]
    by_cases h2 : c < 0x800
    · rw [if_pos h2]
      simp only [List.cons_append, List.nil_append, UTF8ToUCS4, List.getD_cons_zero,
        List.length_cons, List.length_nil]
      rw [if_neg (by omega), if_pos (by omega)]
      simp only [Prod.mk.injEq, and_true]
      omega
    · rw [if_neg h2]
      by_cases h3 : c < 0x10000
      · rw [if_pos h3]
        simp only [List.cons_append, List.nil_append, UTF8ToUCS4, List.getD_cons_zero,
          List.getD_cons_succ, List.length_cons, List.length_nil]
        rw [if_neg (by omega), if_neg (by omega), if_pos (by omega)]
        simp only [Prod.mk.injEq, and_true]
        omega
      · rw [if_neg h3]
        simp only [List.cons_append, List.nil_append, UTF8ToUCS4, List.getD_cons_zero,
          List.getD_cons_succ, List.length_cons, List.length_nil]
        rw [if_neg (by omega), if_neg (by omega), if_neg (by omega), if_pos (by omega)]
        simp only [Prod.mk.injEq, and_true]
        omega

theorem OneCharLen_encodeChar (c : Nat) (hc : c < 0x110000) :
    ∃ b bs, encodeChar c = b :: bs ∧ OneCharLen b - 1 = bs.length := by
  unfold encodeChar
  by_cases h1 : c < 0x80
  · rw [if_pos h1]
    refine ⟨_, _, rfl, ?_⟩
    unfold OneCharLen
    rw [if_pos (by omega)]
    rfl
  · rw [if_neg h1]
    by_cases h2 : c < 0x800
    · rw [if_pos h2]
      refine ⟨_, _, rfl, ?_⟩
      unfold OneCharLen
      rw [if_neg (by omega), if_pos (by omega)]
      rfl
    · rw [if_neg h2]
      by_cases h3 : c < 0x10000
      · rw [if_pos h3]
        refine ⟨_, _, rfl, ?_⟩
        unfold OneCharLen
        rw [if_neg (by omega), if_neg (by omega), if_pos (by omega)]
        rfl
      · rw [if_neg h3]
        refine ⟨_, _, rfl, ?_⟩
        unfold OneCharLen
        rw [if_neg (by omega), if_neg (by omega), if_neg (by omega), if_pos (by omega)]
        rfl

theorem length_le_flatMap_encodeChar (cps : List Nat) :
    cps.length ≤ (cps.flatMap encodeChar).length := by
  induction cps with
  | nil => exact Nat.le_refl _
  | cons c rest ih =>
    rw [List.flatMap_cons, List.length_append, List.length_cons]
    have := List.length_pos.mpr (encodeChar_ne_nil c)
    omega

theorem Chars32Loop_flatMap (cps : List Nat) (hvalid : ∀ c ∈ cps, c < 0x110000) :
    ∀ fuel, cps.length ≤ fuel → Chars32Loop fuel (cps.flatMap encodeChar) = cps := by
  induction cps with
  | nil =>
    intro fuel _
    cases fuel <;> rfl
  | cons c rest ih =>
    intro fuel hf
    cases fuel with
    | zero => simp at hf
    | succ f =>
      have hc : c < 0x110000 := hvalid c (List.mem_cons_self _ _)
      have hd := UTF8ToUCS4_encodeChar c hc (rest.flatMap encodeChar)
      rw [List.flatMap_cons]
      cases he : encodeChar c with
      | nil => exact absurd he (encodeChar_ne_nil c)
      | cons b bs =>
        rw [he] at hd
        rw [List.cons_append]
        unfold Chars32Loop
        rw [← List.cons_append, hd]
        simp only [List.drop_left]
        rw [ih (fun x hx => hvalid x (List.mem_cons_of_mem _ hx)) f
          (by simp only [List.length_cons] at hf; omega)]

theorem Chars32_flatMap (cps : List Nat) (hvalid : ∀ c ∈ cps, c < 0x110000) :
    Chars32 (cps.flatMap encodeChar) = cps :=
  Chars32Loop_flatMap cps hvalid _ (length_le_flatMap_encodeChar cps)

theorem CharsLenLoop_flatMap (cps : List Nat) (hvalid : ∀ c ∈ cps, c < 0x110000) :
    ∀ fuel, cps.length ≤ fuel → CharsLenLoop fuel (cps.flatMap encodeChar) = cps.length := by
  induction cps with
  | nil =>
    intro fuel _
    cases fuel <;> rfl
  | cons c rest ih =>
    intro fuel hf
    cases fuel with
    | zero => simp at hf
    | succ f =>
      have hc : c < 0x110000 := hvalid c (List.mem_cons_self _ _)
      obtain ⟨b, bs, he, hl⟩ := OneCharLen_encodeChar c hc
      rw [List.flatMap_cons, he, List.cons_append]
      unfold CharsLenLoop
      rw [hl, List.drop_left,
        ih (fun x hx => hvalid x (List.mem_cons_of_mem _ hx)) f
          (by simp only [List.length_cons] at hf; omega),
        List.length_cons, Nat.add_comm]

theorem CharsLen_flatMap (cps : List Nat) (hvalid : ∀ c ∈ cps, c < 0x110000) :
    CharsLen (cps.flatMap encodeChar) = cps.length :=
  CharsLenLoop_flatMap cps hvalid _ (length_le_flatMap_encodeChar cps)

/-! ## The loops of GetMissSpelledPosition -/

theorem MissSpelledLoop_mismatch :
    ∀ (hs ks : List Nat) (position p : Nat), p < hs.length → p < ks.length →
      hs.getD p 0 ≠ ks.getD p 0 → (∀ j, j < p → hs.getD j 0 = ks.getD j 0) →
      MissSpelledLoop hs ks position = position + p := by
  intro hs
  induction hs with
  | nil => intro ks position p h1; simp at h1
  | cons h hs ih =>
    intro ks position p h1 h2 hne hbefore
    cases ks with
    | nil => simp at h2
    | cons k ks =>
      unfold MissSpelledLoop
      cases p with
      | zero =>
        rw [List.getD_cons_zero, List.getD_cons_zero] at hne
        rw [if_pos hne, Nat.add_zero]
      | succ p =>
        have h0 := hbefore 0 (Nat.succ_pos _)
        rw [List.getD_cons_zero, List.getD_cons_zero] at h0
        rw [if_neg (not_not.mpr h0)]
        rw [List.getD_cons_succ, List.getD_cons_succ] at hne
        rw [ih ks (position + 1) p (by simp only [List.length_cons] at h1; omega)
          (by simp only [List.length_cons] at h2; omega) hne
          (fun j hj => by
            have := hbefore (j + 1) (by omega)
            rw [List.getD_cons_succ, List.getD_cons_succ] at this
            exact this)]
        omega

theorem MissSpelledLoop_agree :
    ∀ (hs ks : List Nat) (position : Nat),
      (∀ j, j < hs.length → j < ks.length → hs.getD j 0 = ks.getD j 0) →
      MissSpelledLoop hs ks position = position + ks.length := by
  intro hs
  induction hs with
  | nil =>
    intro ks position _
    unfold MissSpelledLoop
    rfl
  | cons h hs ih =>
    intro ks position hall
    cases ks with
    | nil => rfl
    | cons k ks =>
      unfold MissSpelledLoop
      have h0 := hall 0 (by simp) (by simp)
      rw [List.getD_cons_zero, List.getD_cons_zero] at h0
      rw [if_neg (not_not.mpr h0)]
      rw [ih ks (position + 1) (fun j hj1 hj2 => by
        have := hall (j + 1) (by simp only [List.length_cons]; omega)
          (by simp only [List.length_cons]; omega)
        rw [List.getD_cons_succ, List.getD_cons_succ] at this
        exact this)]
      simp only [List.length_cons]
      omega

/-! ## The product 0.4 * key_len -/

theorem RoundShiftLoop_spec (n : Nat) :
    ∀ (fuel s S : Nat), s ≤ S → S ≤ s + fuel → n / 2 ^ S < 2 ^ 53 →
      RoundShiftLoop fuel n s ≤ S ∧ n / 2 ^ RoundShiftLoop fuel n s < 2 ^ 53 := by
  intro fuel
  induction fuel with
  | zero =>
    intro s S h1 h2 h3
    have : S = s := by omega
    subst this
    exact ⟨Nat.le_refl _, h3⟩
  | succ fuel ih =>
    intro s S h1 h2 h3
    unfold RoundShiftLoop
    by_cases h : n / 2 ^ s < 2 ^ 53
    · rw [if_pos h]
      exact ⟨h1, h⟩
    · rw [if_neg h]
      have hne : s ≠ S := by
        intro e; rw [e] at h; exact h h3
      exact ih (s + 1) S (by omega) (by omega) h3

theorem RoundToDouble_small (k : Nat) (hk : k < 9007199254740992) : RoundToDouble k = k := by
  have hs : RoundShiftLoop 128 k 0 = 0 := by
    have := (RoundShiftLoop_spec k 128 0 0 (Nat.le_refl _) (by omega)
      (by rw [Nat.pow_zero, Nat.div_one]; norm_num; exact hk)).1
    omega
  unfold RoundToDouble
  simp only [hs, Nat.pow_zero, Nat.div_one, Nat.mod_one, Nat.mul_zero, Nat.mul_one]
  rw [if_neg (by omega)]

theorem PointFourTimes_eq (k : Nat) (hk : k < 3377699720527872) :
    PointFourTimes k = 2 * k / 5 := by
  unfold PointFourTimes
  rw [RoundToDouble_small k (by omega)]
  unfold kPointFour
  have hspec := RoundShiftLoop_spec (k * 3602879701896397) 128 0 51 (by omega) (by omega)
    (by
      rw [Nat.div_lt_iff_lt_mul (by positivity)]
      norm_num
      omega)
  obtain ⟨hs, _⟩ := hspec
  unfold RoundToDouble
  simp only []
  generalize RoundShiftLoop 128 (k * 3602879701896397) 0 = s at hs ⊢
  have hPpos : 0 < 2 ^ s := by positivity
  have hPle : 2 ^ s ≤ 2251799813685248 := by
    calc 2 ^ s ≤ 2 ^ 51 := Nat.pow_le_pow_right (by norm_num) hs
      _ = 2251799813685248 := by norm_num
  have hsplit : 2 ^ s * 2 ^ (53 - s) = 9007199254740992 := by
    rw [← pow_add, show s + (53 - s) = 53 by omega]
    norm_num
  have hdm := Nat.div_add_mod' (k * 3602879701896397) (2 ^ s)
  have hmod := Nat.mod_lt (k * 3602879701896397) hPpos
  have hlow : 2 * k / 5 * 2 ^ (53 - s) ≤ k * 3602879701896397 / 2 ^ s := by
    rw [Nat.le_div_iff_mul_le hPpos, Nat.mul_assoc, Nat.mul_comm (2 ^ (53 - s)), hsplit]
    omega
  have hlow2 : 2 * k / 5 * 9007199254740992 ≤ k * 3602879701896397 / 2 ^ s * 2 ^ s := by
    calc 2 * k / 5 * 9007199254740992
        = 2 * k / 5 * 2 ^ (53 - s) * 2 ^ s := by
          rw [Nat.mul_assoc, Nat.mul_comm (2 ^ (53 - s)), hsplit]
      _ ≤ k * 3602879701896397 / 2 ^ s * 2 ^ s := Nat.mul_le_mul_right _ hlow
  have hup : (k * 3602879701896397 / 2 ^ s + 1) * 2 ^ s
      = k * 3602879701896397 / 2 ^ s * 2 ^ s + 2 ^ s := by
    rw [Nat.add_mul, Nat.one_mul]
  have h53 : (2 : Nat) ^ 53 = 9007199254740992 := by norm_num
  rw [h53]
  generalize k * 3602879701896397 / 2 ^ s * 2 ^ s = A at hdm hlow2 hup ⊢
  generalize k * 3602879701896397 % 2 ^ s = r at hdm hmod ⊢
  generalize hq : k * 3602879701896397 / 2 ^ s = q at hup ⊢
  generalize 2 ^ s = P at hPpos hPle hdm hmod hup ⊢
  by_cases hc : 2 * r > P ∨ (2 * r = P ∧ q % 2 = 1)
  · rw [if_pos hc, hup]
    apply Nat.div_eq_of_lt_le
    · omega
    · have : P ≤ 2 * r := by omega
      omega
  · rw [if_neg hc]
    apply Nat.div_eq_of_lt_le
    · omega
    · omega

/-! ## QueryInterface -/

theorem QueryInterfaceImpl_some (riid : IID) :
    ∀ (Interfaces : List Interface) (index : Nat), Interfaces ≠ [] →
      ((∃ T ∈ Interfaces, IsIIDOf T riid = true) ∨ riid = IID_IUnknown) →
      ∃ p, ComImplements.QueryInterfaceImpl Interfaces index riid = some p := by
  intro Interfaces
  induction Interfaces with
  | nil => intro index hne; exact absurd rfl hne
  | cons T rest ih =>
    intro index _ hacc
    cases rest with
    | nil =>
      unfold ComImplements.QueryInterfaceImpl
      by_cases hT : IsIIDOf T riid = true
      · rw [if_pos hT]; exact ⟨_, rfl⟩
      · rw [if_neg hT]
        have hu : riid = IID_IUnknown := by
          rcases hacc with ⟨U, hU, hUa⟩ | hu
          · rw [List.mem_singleton] at hU
            rw [hU] at hUa
            exact absurd hUa hT
          · exact hu
        have : IsIIDOfPack [IID_IUnknown] riid = true := by
          rw [hu]
          simp [IsIIDOfPack, IsEqualIID]
        rw [if_pos this]; exact ⟨_, rfl⟩
    | cons U rest =>
      unfold ComImplements.QueryInterfaceImpl
      by_cases hT : IsIIDOf T riid = true
      · rw [if_pos hT]; exact ⟨_, rfl⟩
      · rw [if_neg hT]
        apply ih (index + 1) (List.cons_ne_nil _ _)
        rcases hacc with ⟨V, hV, hVa⟩ | hu
        · rcases List.mem_cons.1 hV with hV | hV
          · rw [hV] at hVa; exact absurd hVa hT
          · exact Or.inl ⟨V, hV, hVa⟩
        · exact Or.inr hu

theorem QueryInterfaceImpl_none (riid : IID) :
    ∀ (Interfaces : List Interface) (index : Nat),
      ¬ ((∃ T ∈ Interfaces, IsIIDOf T riid = true) ∨ riid = IID_IUnknown) →
      ComImplements.QueryInterfaceImpl Interfaces index riid = none := by
  intro Interfaces
  induction Interfaces with
  | nil => intro index _; rfl
  | cons T rest ih =>
    intro index hacc
    have hT : ¬ IsIIDOf T riid = true :=
      fun h => hacc (Or.inl ⟨T, List.mem_cons_self _ _, h⟩)
    cases rest with
    | nil =>
      unfold ComImplements.QueryInterfaceImpl
      rw [if_neg hT]
      have : ¬ IsIIDOfPack [IID_IUnknown] riid = true := by
        intro h
        apply hacc
        right
        simpa [IsIIDOfPack, IsEqualIID] using h
      rw [if_neg this]
    | cons U rest =>
      unfold ComImplements.QueryInterfaceImpl
      rw [if_neg hT]
      apply ih (index + 1)
      intro h
      apply hacc
      rcases h with ⟨V, hV, hVa⟩ | hu
      · exact Or.inl ⟨V, List.mem_cons_of_mem _ hV, hVa⟩
      · exact Or.inr hu

/-! ## The length bonus -/

theorem RoundShiftLoop_le (n : Nat) :
    ∀ (fuel s : Nat), RoundShiftLoop fuel n s ≤ s + fuel := by
  intro fuel
  induction fuel with
  | zero => intro s; exact Nat.le_refl _
  | succ fuel ih =>
    intro s
    unfold RoundShiftLoop
    by_cases h : n / 2 ^ s < 2 ^ 53
    · rw [if_pos h]; omega
    · rw [if_neg h]
      have := ih (s + 1)
      omega

theorem RoundToDouble_exact (a e : Nat) (ha : a < 9007199254740992) :
    RoundToDouble (a * 2 ^ e) = a * 2 ^ e := by
  have hs : RoundShiftLoop 128 (a * 2 ^ e) 0 ≤ e := by
    by_cases he : e ≤ 128
    · refine (RoundShiftLoop_spec (a * 2 ^ e) 128 0 e (Nat.zero_le _) (by omega) ?_).1
      rw [Nat.mul_div_cancel _ (by positivity)]
      norm_num
      exact ha
    · have := RoundShiftLoop_le (a * 2 ^ e) 128 0
      omega
  unfold RoundToDouble
  simp only []
  generalize RoundShiftLoop 128 (a * 2 ^ e) 0 = s at hs ⊢
  have hdvd : 2 ^ s ∣ a * 2 ^ e := Dvd.dvd.mul_left (pow_dvd_pow 2 hs) a
  have hmod : a * 2 ^ e % 2 ^ s = 0 := Nat.mod_eq_zero_of_dvd hdvd
  have hpos : 0 < 2 ^ s := by positivity
  rw [hmod, if_neg (by omega), Nat.div_mul_cancel hdvd]

theorem SubtractLengthBonus_zero (env : Env) (cost : Int)
    (hlog : (env.log 1).1 = 0) (h1 : -2147483648 ≤ cost) (h2 : cost ≤ 2147483647) :
    SubtractLengthBonus env cost 0 = cost := by
  unfold SubtractLengthBonus
  simp only [Int.toNat_zero, Nat.add_zero, hlog, Nat.mul_zero]
  rw [RoundToDouble_small 0 (by norm_num)]
  simp only [Nat.cast_zero, sub_zero]
  generalize (env.log 1).2 = e
  have hpos : (0 : Int) < 2 ^ e := by positivity
  have habs : (cost * 2 ^ e).natAbs = cost.natAbs * 2 ^ e := by
    rw [Int.natAbs_mul, Int.natAbs_pow]
    rfl
  have hsmall : cost.natAbs < 9007199254740992 := by omega
  rw [habs, RoundToDouble_exact _ _ hsmall, Nat.mul_div_cancel _ (by positivity)]
  by_cases hc : cost < 0
  · have hn : cost * 2 ^ e < 0 := Int.mul_neg_of_neg_of_pos hc hpos
    rw [if_pos hn]
    have : -(cost.natAbs : Int) = cost := by omega
    rw [this]
    exact wrap32_of_range _ h1 h2
  · have hn : ¬ cost * 2 ^ e < 0 := by
      have : 0 ≤ cost * 2 ^ e := Int.mul_nonneg (by omega) (by omega)
      omega
    rw [if_neg hn]
    have : (cost.natAbs : Int) = cost := by omega
    rw [this]
    exact wrap32_of_range _ h1 h2

theorem wrap32_range (x : Int) : -2147483648 ≤ wrap32 x ∧ wrap32 x ≤ 2147483647 := by
  unfold wrap32
  omega

theorem GetLMCost_range (env : Env) (type : PredictionType) (node : Node) (rid : Nat) :
    -2147483648 ≤ GetLMCost env type node rid ∧ GetLMCost env type node rid ≤ 2147483647 := by
  unfold GetLMCost
  simp only []
  split_ifs <;> exact wrap32_range _

theorem AddPredictionRun_spelling (env : Env) (segments : Segments) (results : List Result)
    (st : EmitState) (h : AddPredictionRun env segments results = some st) :
    ∀ rc ∈ st.emitted, rc.2.spelling_correction = rc.1.node.spelling_correction ∧
      StrippedKeyValue segments rc.1 = some (rc.2.key, rc.2.value) ∧
      ¬ (rc.2.spelling_correction = true ∧ rc.2.key ≠ (segments.conversion_segment 0).key ∧
        CharsLen (segments.conversion_segment 0).key
          ≤ GetMissSpelledPosition env rc.2.key rc.2.value + 1) := by
  refine AddPredictionRun_invariant env segments results
    (fun st => ∀ rc ∈ st.emitted, rc.2.spelling_correction = rc.1.node.spelling_correction ∧
      StrippedKeyValue segments rc.1 = some (rc.2.key, rc.2.value) ∧
      ¬ (rc.2.spelling_correction = true ∧ rc.2.key ≠ (segments.conversion_segment 0).key ∧
        CharsLen (segments.conversion_segment 0).key
          ≤ GetMissSpelledPosition env rc.2.key rc.2.value + 1)) ?_ ?_ st h
  · intro rc hrc
    cases hrc
  · intro i st st1 hinv _ hb
    unfold AddPredictionBody at hb
    simp only [] at hb
    split_ifs at hb with h1 h2 h3
    · cases hb; exact hinv
    · cases hb; exact hinv
    · cases hb; exact hinv
    · cases hs : StrippedKeyValue segments
          ((pop_heap ResultCompare st.results (st.results.length - i)).getD
            ((pop_heap ResultCompare st.results (st.results.length - i)).length - i - 1)
            default) with
      | none => rw [hs] at hb; cases hb
      | some kv =>
        obtain ⟨key, value⟩ := kv
        rw [hs] at hb
        simp only [] at hb
        split_ifs at hb with h4 h5
        · cases hb; exact hinv
        · cases hb; exact hinv
        · cases hb
          intro rc hrc
          rcases List.mem_append.1 hrc with hrc | hrc
          · exact hinv rc hrc
          · rw [List.mem_singleton] at hrc
            subst hrc
            refine ⟨rfl, hs, ?_⟩
            intro hc
            apply h5
            simp only [MakeCandidate] at hc
            simp only [Bool.and_eq_true, decide_eq_true_eq]
            exact ⟨⟨hc.1, hc.2.1⟩, hc.2.2⟩

/-! ## The elimination of miss-spelled candidates -/

theorem getD_set_self {α : Type} (l : List α) (j : Nat) (x d : α) (h : j < l.length) :
    (l.set j x).getD j d = x := by
  rw [List.getD_eq_getElem?_getD, List.getElem?_set_self h]
  rfl

theorem getD_set_other {α : Type} (l : List α) (j k : Nat) (x d : α) (h : k ≠ j) :
    (l.set j x).getD k d = l.getD k d := by
  rw [List.getD_eq_getElem?_getD, List.getD_eq_getElem?_getD, List.getElem?_set_ne (Ne.symm h)]

theorem range_map_getD {α : Type} (l : List α) (d : α) :
    (List.range l.length).map (fun j => l.getD j d) = l := by
  apply List.ext_getElem?
  intro k
  rw [List.getElem?_map]
  by_cases hk : k < l.length
  · rw [List.getElem?_range hk, Option.map_some', List.getD_eq_getElem?_getD,
      List.getElem?_eq_getElem hk]
    rfl
  · rw [List.getElem?_eq_none (by rw [List.length_range]; exact Nat.le_of_not_lt hk),
      List.getElem?_eq_none (Nat.le_of_not_lt hk)]
    rfl

theorem MarkNoPrediction_eq :
    ∀ (indices : List Nat) (results : List Result),
      MarkNoPrediction results indices
        = (List.range results.length).map (fun j =>
            if j ∈ indices then { results.getD j default with type := NO_PREDICTION }
            else results.getD j default) := by
  intro indices
  induction indices with
  | nil =>
    intro results
    simp only [MarkNoPrediction, List.foldl_nil, List.not_mem_nil, if_false]
    exact (range_map_getD results default).symm
  | cons j rest ih =>
    intro results
    have hstep : MarkNoPrediction results (j :: rest)
        = MarkNoPrediction
            (results.set j { results.getD j default with type := NO_PREDICTION }) rest := rfl
    rw [hstep, ih, List.length_set]
    apply List.map_congr_left
    intro k hk
    rw [List.mem_range] at hk
    by_cases hkj : k = j
    · subst hkj
      rw [getD_set_self _ _ _ _ hk]
      simp only [List.mem_cons, true_or, if_true, ite_self]
    · rw [getD_set_other _ _ _ _ _ hkj]
      simp only [List.mem_cons, hkj, false_or]

theorem MarkNoPrediction_append (results : List Result) (a b : List Nat) :
    MarkNoPrediction (MarkNoPrediction results a) b = MarkNoPrediction results (a ++ b) := by
  unfold MarkNoPrediction
  rw [List.foldl_append]

theorem mem_same_key_index (results : List Result) (i j : Nat) :
    j ∈ ((List.range results.length).filter (fun j =>
          decide (i ≠ j) && !(results.getD j default).node.spelling_correction)).filter
        (fun j => decide ((results.getD j default).node.key = (results.getD i default).node.key))
      ↔ j < results.length ∧ SameKeySpec results i j = true := by
  simp only [List.mem_filter, List.mem_range, SameKeySpec, Bool.and_eq_true, decide_eq_true_eq,
    ne_eq, Bool.not_eq_true', and_assoc]
  constructor
  · rintro ⟨h1, h2, h3, h4⟩
    exact ⟨h1, fun e => h2 e.symm, h3, h4⟩
  · rintro ⟨h1, h2, h3, h4⟩
    exact ⟨h1, fun e => h2 e.symm, h3, h4⟩

theorem mem_same_value_index (results : List Result) (i j : Nat) :
    j ∈ ((List.range results.length).filter (fun j =>
          decide (i ≠ j) && !(results.getD j default).node.spelling_correction)).filter
        (fun j =>
          decide ((results.getD j default).node.value = (results.getD i default).node.value))
      ↔ j < results.length ∧ SameValueSpec results i j = true := by
  simp only [List.mem_filter, List.mem_range, SameValueSpec, Bool.and_eq_true,
    decide_eq_true_eq, ne_eq, Bool.not_eq_true', and_assoc]
  constructor
  · rintro ⟨h1, h2, h3, h4⟩
    exact ⟨h1, fun e => h2 e.symm, h3, h4⟩
  · rintro ⟨h1, h2, h3, h4⟩
    exact ⟨h1, fun e => h2 e.symm, h3, h4⟩

theorem isEmpty_eq_not_any (l : List Nat) (n : Nat) (p : Nat → Bool)
    (h : ∀ j, j ∈ l ↔ j < n ∧ p j = true) : l.isEmpty = !(List.range n).any p := by
  cases hl : l with
  | nil =>
    have : (List.range n).any p = false := by
      rw [Bool.eq_false_iff]
      intro ha
      rw [List.any_eq_true] at ha
      obtain ⟨j, hj, hp⟩ := ha
      have := (h j).2 ⟨List.mem_range.1 hj, hp⟩
      rw [hl] at this
      cases this
    rw [this]
    rfl
  | cons a rest =>
    have ha := (h a).1 (by rw [hl]; exact List.mem_cons_self _ _)
    have : (List.range n).any p = true := by
      rw [List.any_eq_true]
      exact ⟨a, List.mem_range.2 ha.1, ha.2⟩
    rw [this]
    rfl

theorem map_if_congr (n : Nat) (P Q : Nat → Prop) [DecidablePred P] [DecidablePred Q]
    (f g : Nat → Result) (h : ∀ j, j < n → (P j ↔ Q j)) :
    (List.range n).map (fun j => if P j then f j else g j)
      = (List.range n).map (fun j => if Q j then f j else g j) := by
  apply List.map_congr_left
  intro j hj
  rw [List.mem_range] at hj
  by_cases hp : P j
  · rw [if_pos hp, if_pos ((h j hj).1 hp)]
  · rw [if_neg hp, if_neg (fun hq => hp ((h j hj).2 hq))]

theorem RemoveMissSpelledLoop_step (env : Env) (request_key_len n i : Nat) (c : Int)
    (results : List Result)
    (hspell : (results.getD i default).node.spelling_correction = true)
    (hcount : c - 1 ≠ 0) :
    RemoveMissSpelledLoop env request_key_len (n + 1) i c results
      = RemoveMissSpelledLoop env request_key_len n (i + 1) (c - 1)
          (MissSpelledRuleSpec env request_key_len i results) := by
  have hk := mem_same_key_index results i
  have hv := mem_same_value_index results i
  have hke := isEmpty_eq_not_any _ results.length (SameKeySpec results i) hk
  have hve := isEmpty_eq_not_any _ results.length (SameValueSpec results i) hv
  have hi : i < results.length := by
    by_contra hc
    rw [List.getD_eq_default _ _ (Nat.le_of_not_lt hc)] at hspell
    cases hspell
  have hik : ¬ SameKeySpec results i i = true := by simp [SameKeySpec]
  conv_lhs => unfold RemoveMissSpelledLoop
  simp only [hspell, Bool.not_true, Bool.false_eq_true, if_false, hcount]
  congr 1
  rw [hke, hve]
  unfold MissSpelledRuleSpec MissSpelledDropSpec
  simp only []
  cases hK : (List.range results.length).any (SameKeySpec results i) <;>
    cases hV : (List.range results.length).any (SameValueSpec results i)
  · simp only [Bool.not_false, Bool.and_self, Bool.false_and, Bool.and_false, Bool.or_self,
      Bool.false_eq_true, if_false, ite_self, Bool.not_true, Bool.and_true]
    exact (range_map_getD results default).symm
  · simp only [Bool.not_false, Bool.not_true, Bool.and_false, Bool.false_and, Bool.and_self,
      Bool.and_true, Bool.true_and, Bool.or_false, Bool.false_or, Bool.or_true,
      Bool.false_eq_true, if_false, if_true]
    rw [MarkNoPrediction_eq]
    apply map_if_congr
    intro j _
    by_cases hj : j = i
    · simp [hj]
    · simp [hj]
  · simp only [Bool.not_false, Bool.not_true, Bool.and_false, Bool.false_and, Bool.and_self,
      Bool.and_true, Bool.true_and, Bool.or_false, Bool.false_or, Bool.or_true,
      Bool.false_eq_true, if_false, if_true]
    by_cases hp : request_key_len
        ≤ GetMissSpelledPosition env (results.getD i default).node.key
            (results.getD i default).node.value
    · rw [if_pos hp, MarkNoPrediction_append, MarkNoPrediction_eq]
      apply map_if_congr
      intro j hjn
      by_cases hj : j = i
      · subst hj
        simp only [List.mem_append, List.mem_singleton, or_true, if_true, hp, decide_True]
      · simp only [List.mem_append, hk, List.mem_singleton, hj, or_false, if_false, hjn,
          true_and]
    · rw [if_neg hp, MarkNoPrediction_eq]
      apply map_if_congr
      intro j hjn
      by_cases hj : j = i
      · subst hj
        simp only [hk, hik, and_false, if_true, hp, decide_False, Bool.false_eq_true]
      · simp only [hk, hj, if_false, hjn, true_and]
  · simp only [Bool.not_false, Bool.not_true, Bool.and_false, Bool.false_and, Bool.and_self,
      Bool.and_true, Bool.true_and, Bool.or_false, Bool.false_or, Bool.or_true,
      Bool.false_eq_true, if_false, if_true]
    rw [MarkNoPrediction_append, MarkNoPrediction_eq]
    apply map_if_congr
    intro j hjn
    by_cases hj : j = i
    · simp [hj]
    · simp only [List.mem_append, List.mem_singleton, hj, false_or, hk, if_false, hjn,
        true_and]

theorem range_map_getD_lt (n : Nat) (f : Nat → Result) (j : Nat) (hj : j < n) :
    ((List.range n).map f).getD j default = f j := by
  rw [List.getD_eq_getElem?_getD, List.getElem?_map, List.getElem?_range hj]
  rfl

/-! ## The aggregators -/

theorem substr_drop (s : Str) (pos : Nat) (h : pos ≤ s.length) :
    substr s pos (s.length - pos) = some (s.drop pos) := by
  unfold substr
  rw [if_neg (by omega)]
  congr 1
  apply List.take_of_length_le
  rw [List.length_drop]

theorem StartsWith_length (s pre : Str) (h : StartsWith s pre = true) :
    pre.length ≤ s.length := by
  unfold StartsWith at h
  exact (List.isPrefixOf_iff_prefix.1 h).length_le

theorem BigramFilterOne_eq (env : Env) (segments : Segments) (history_node : Node) (r : Result)
    (hkey : (GetHistoryKeyAndValue segments).2.1.length ≤ r.node.key.length)
    (hvalue : (GetHistoryKeyAndValue segments).2.2.length ≤ r.node.value.length) :
    BigramFilterOne env (GetHistoryKeyAndValue segments).2.1 (GetHistoryKeyAndValue segments).2.2
        history_node
        (env.GetScriptType (SubString (GetHistoryKeyAndValue segments).2.2
          (CharsLen (GetHistoryKeyAndValue segments).2.2 - 1) 1))
        (segments.conversion_segment 0).key.isEmpty (BigramCutoff segments) r
      = some (if BigramKeepSpec env segments history_node r.node = true then r
              else { r with type := NO_PREDICTION }) := by
  unfold BigramFilterOne BigramKeepSpec
  rw [substr_drop _ _ hkey, substr_drop _ _ hvalue]
  simp only []
  by_cases hke : (r.node.key.drop (GetHistoryKeyAndValue segments).2.1.length).isEmpty = true
  · simp [hke]
  by_cases hve : (r.node.value.drop (GetHistoryKeyAndValue segments).2.2.length).isEmpty = true
  · simp [hve]
  rw [if_neg (by simp [hke, hve])]
  by_cases hw : history_node.wcost > r.node.wcost
  · simp [hw]
  rw [if_neg hw]
  by_cases hsame : (decide (env.GetScriptType (SubString (r.node.value.drop
        (GetHistoryKeyAndValue segments).2.2.length) 0 1)
      = env.GetScriptType (SubString (GetHistoryKeyAndValue segments).2.2
          (CharsLen (GetHistoryKeyAndValue segments).2.2 - 1) 1)) &&
    (decide (env.GetScriptType (SubString (r.node.value.drop
        (GetHistoryKeyAndValue segments).2.2.length) 0 1) = ScriptType.HIRAGANA) ||
      (decide (env.GetScriptType (SubString (r.node.value.drop
        (GetHistoryKeyAndValue segments).2.2.length) 0 1) = ScriptType.KATAKANA) &&
        decide (CharsLen r.node.key ≤ 5)))) = true
  · rw [if_pos hsame]
    simp only [hsame]
    simp
  rw [if_neg hsame]
  rw [Bool.not_eq_true] at hsame hke hve
  simp only [hsame, hke, hve, decide_eq_false hw]
  by_cases hkanji : (decide (env.GetScriptType (SubString (r.node.value.drop
        (GetHistoryKeyAndValue segments).2.2.length) 0 1) = ScriptType.KANJI) &&
      (segments.conversion_segment 0).key.isEmpty) = true
  · rw [if_pos hkanji]
    simp only [hkanji]
    simp
  rw [if_neg hkanji]
  rw [Bool.not_eq_true] at hkanji
  simp only [hkanji]
  cases LookupKeyValueFromDictionary env
    (r.node.key.drop (GetHistoryKeyAndValue segments).2.1.length)
    (r.node.value.drop (GetHistoryKeyAndValue segments).2.2.length) (BigramCutoff segments) <;>
    simp

theorem BigramFilterLoop_eq (env : Env) (segments : Segments) (history_node : Node) :
    ∀ (block : List Result),
      (∀ r ∈ block, (GetHistoryKeyAndValue segments).2.1.length ≤ r.node.key.length ∧
        (GetHistoryKeyAndValue segments).2.2.length ≤ r.node.value.length) →
      BigramFilterLoop env (GetHistoryKeyAndValue segments).2.1
          (GetHistoryKeyAndValue segments).2.2 history_node
          (env.GetScriptType (SubString (GetHistoryKeyAndValue segments).2.2
            (CharsLen (GetHistoryKeyAndValue segments).2.2 - 1) 1))
          (segments.conversion_segment 0).key.isEmpty (BigramCutoff segments) block
        = some (block.map (fun r =>
            if BigramKeepSpec env segments history_node r.node = true then r
            else { r with type := NO_PREDICTION })) := by
  intro block
  induction block with
  | nil => intro _; rfl
  | cons r rest ih =>
    intro h
    have hr := h r (List.mem_cons_self _ _)
    unfold BigramFilterLoop
    rw [BigramFilterOne_eq env segments history_node r hr.1 hr.2,
      ih (fun x hx => h x (List.mem_cons_of_mem _ hx))]
    rfl

theorem AggregateBigramPrediction_unfold (env : Env) (type : PredictionType)
    (request : ConversionRequest) (segments : Segments) (max_nodes_size : Nat)
    (results : List Result) (history_node : Node) (hb : type.bigram = true)
    (hh : LookupKeyValueFromDictionary env (GetHistoryKeyAndValue segments).2.1
      (GetHistoryKeyAndValue segments).2.2 max_nodes_size = some history_node) :
    AggregateBigramPrediction env type request segments max_nodes_size results
      = if (BigramBlock env request segments).length ≥ BigramCutoff segments then
          some (BigramCutoff segments,
            (results ++ BigramBlock env request segments).take results.length)
        else if CharsLen (GetHistoryKeyAndValue segments).2.2 = 0 then
          some (BigramCutoff segments, results ++ BigramBlock env request segments)
        else
          match BigramFilterLoop env (GetHistoryKeyAndValue segments).2.1
              (GetHistoryKeyAndValue segments).2.2 history_node
              (env.GetScriptType (SubString (GetHistoryKeyAndValue segments).2.2
                (CharsLen (GetHistoryKeyAndValue segments).2.2 - 1) 1))
              (segments.conversion_segment 0).key.isEmpty (BigramCutoff segments)
              (BigramBlock env request segments) with
          | none => none
          | some block1 => some (BigramCutoff segments, results ++ block1) := by
  unfold AggregateBigramPrediction
  simp only [hb, Bool.not_true, Bool.false_eq_true, if_false]
  rw [hh]
  rfl

/-! ## Permutations by `set` -/

theorem getD_set_eq_ite {α : Type} (l : List α) (j k : Nat) (x d : α) (h : j < l.length) :
    (l.set j x).getD k d = if k = j then x else l.getD k d := by
  by_cases hk : k = j
  · rw [if_pos hk, hk]
    exact getD_set_self l j x d h
  · rw [if_neg hk]
    exact getD_set_other l j k x d hk

theorem perm_getD_cons_set {α : Type} (d : α) :
    ∀ (t : List α) (m : Nat) (x : α), m < t.length →
      List.Perm (t.getD m d :: t.set m x) (x :: t) := by
  intro t
  induction t with
  | nil => intro m x h; simp at h
  | cons y t ih =>
    intro m x h
    cases m with
    | zero =>
      simp only [List.getD_cons_zero, List.set_cons_zero]
      exact List.Perm.swap _ _ _
    | succ m =>
      simp only [List.getD_cons_succ, List.set_cons_succ]
      have h1 : m < t.length := by simpa using h
      exact (List.Perm.swap _ _ _).trans (((ih m x h1).cons y).trans (List.Perm.swap _ _ _))

theorem perm_swap {α : Type} (d : α) :
    ∀ (l : List α) (i j : Nat), i < j → j < l.length →
      List.Perm ((l.set i (l.getD j d)).set j (l.getD i d)) l := by
  intro l
  induction l with
  | nil => intro i j _ h; simp at h
  | cons y t ih =>
    intro i j hij hj
    cases j with
    | zero => omega
    | succ j =>
      have hj1 : j < t.length := by simpa using hj
      cases i with
      | zero =>
        simp only [List.getD_cons_zero, List.getD_cons_succ, List.set_cons_zero,
          List.set_cons_succ]
        exact perm_getD_cons_set d t j y hj1
      | succ i =>
        simp only [List.getD_cons_succ, List.set_cons_succ]
        exact (ih i j (by omega) hj1).cons y

theorem perm_swap_ne {α : Type} (d : α) (l : List α) (i j : Nat) (hij : i ≠ j)
    (hi : i < l.length) (hj : j < l.length) :
    List.Perm ((l.set i (l.getD j d)).set j (l.getD i d)) l := by
  rcases Nat.lt_or_gt_of_ne hij with h | h
  · exact perm_swap d l i j h hj
  · rw [List.set_comm _ _ _ hij]
    exact perm_swap d l j i h hi

/-- Moving the hole from `h` to `s`: the element of `s` goes to `h`. -/
theorem perm_move_hole {α : Type} (d : α) (v : List α) (h s : Nat) (x : α) (hs : h ≠ s)
    (hh : h < v.length) (hsl : s < v.length) :
    List.Perm ((v.set h (v.getD s d)).set s x) (v.set h x) := by
  have hw := perm_swap_ne d (v.set h x) h s hs (by rw [List.length_set]; exact hh)
    (by rw [List.length_set]; exact hsl)
  rw [getD_set_other v h s x d (Ne.symm hs), getD_set_self v h x d hh, List.set_set] at hw
  exact hw

theorem Descendant.le {k h : Nat} (hd : Descendant k h) : k ≤ h := by
  induction hd with
  | root => exact Nat.le_refl _
  | left h _ ih => omega
  | right h _ ih => omega

theorem Descendant.parent {k h : Nat} (hd : Descendant k h) (hne : h ≠ k) :
    Descendant k ((h - 1) / 2) ∧ 1 ≤ h := by
  cases hd with
  | root => exact absurd rfl hne
  | left m hm =>
    have : (2 * m + 1 - 1) / 2 = m := by omega
    rw [this]
    exact ⟨hm, by omega⟩
  | right m hm =>
    have : (2 * m + 2 - 1) / 2 = m := by omega
    rw [this]
    exact ⟨hm, by omega⟩

/-! ## The order of the heap -/

section HeapOrder

variable {α : Type} [Inhabited α]

/-- One step of the hole towards the leaves: the child `s` moves up. -/
theorem hole_step_down (f : α → Int) (v0 : List α) (len k : Nat) (v : List α) (h s : Nat)
    (inv : HoleInvariant f v0 len k v h) (hs : s < len) (hs1 : 1 ≤ s) (hsp : (s - 1) / 2 = h)
    (hdesc : Descendant k s)
    (hother : ∀ p, 1 ≤ p → p < len → (p - 1) / 2 = h → p ≠ s →
      f (v.getD s default) ≤ f (v.getD p default)) :
    HoleInvariant f v0 len k (v.set h (v.getD s default)) s := by
  have hhl : h < v.length := by have := inv.hole_lt; have := inv.len_le; have := inv.length_eq; omega
  have hsl : s < v.length := by have := inv.len_le; have := inv.length_eq; omega
  have hkh : k ≤ h := inv.descendant.le
  refine ⟨by rw [List.length_set]; exact inv.length_eq, inv.len_le, hs, hdesc, ?_, ?_, ?_, ?_⟩
  · intro p hp1 hpl hkp hps hpps
    rw [getD_set_eq_ite _ _ _ _ _ hhl, getD_set_eq_ite _ _ _ _ _ hhl]
    by_cases hph : p = h
    · have hne : (p - 1) / 2 ≠ h := by omega
      rw [if_neg hne, if_pos hph]
      have hhk : h ≠ k := by omega
      rw [hph]
      exact inv.children hhk s hs1 hs hsp
    · rw [if_neg hph]
      by_cases hpp : (p - 1) / 2 = h
      · rw [if_pos hpp]
        exact hother p hp1 hpl hpp hps
      · rw [if_neg hpp]
        exact inv.ordered p hp1 hpl hkp hph hpp
  · intro _ p hp1 hpl hpp
    rw [getD_set_eq_ite _ _ _ _ _ hhl, getD_set_eq_ite _ _ _ _ _ hhl, if_pos hsp,
      if_neg (by omega)]
    have := inv.ordered p hp1 hpl (by omega) (by omega) (by omega)
    rw [hpp] at this
    exact this
  · intro p hp
    rw [getD_set_other _ _ _ _ _ (by have := inv.hole_lt; omega)]
    exact inv.frame p hp
  · intro x
    exact (perm_move_hole default v h s x (by omega) hhl hsl).trans (inv.perm x)

theorem adjust_heap_loop_spec (comp : α → α → Bool) (f : α → Int)
    (hcomp : ∀ a b, comp a b = true ↔ f b < f a) (v0 : List α) (len k : Nat) :
    ∀ (fuel : Nat) (v : List α) (h : Nat), HoleInvariant f v0 len k v h → len ≤ fuel + h →
      HoleInvariant f v0 len k (adjust_heap_loop comp fuel v h len).1
        (adjust_heap_loop comp fuel v h len).2 ∧
      ¬ (adjust_heap_loop comp fuel v h len).2 < (len - 1) / 2 := by
  intro fuel
  induction fuel with
  | zero =>
    intro v h inv hf
    have := inv.hole_lt
    omega
  | succ fuel ih =>
    intro v h inv hf
    unfold adjust_heap_loop
    by_cases hlt : h < (len - 1) / 2
    · rw [if_pos hlt]
      simp only []
      by_cases hc : comp (v.getD (2 * (h + 1)) default) (v.getD (2 * (h + 1) - 1) default) = true
      · rw [if_pos hc]
        apply ih
        · apply hole_step_down f v0 len k v h (2 * (h + 1) - 1) inv (by omega) (by omega)
            (by omega)
          · have : 2 * (h + 1) - 1 = 2 * h + 1 := by omega
            rw [this]
            exact Descendant.left h inv.descendant
          · intro p hp1 hpl hpp hps
            have hp : p = 2 * (h + 1) := by omega
            rw [hp]
            exact Int.le_of_lt ((hcomp _ _).1 hc)
        · omega
      · rw [if_neg hc]
        apply ih
        · apply hole_step_down f v0 len k v h (2 * (h + 1)) inv (by omega) (by omega)
            (by omega)
          · exact Descendant.right h inv.descendant
          · intro p hp1 hpl hpp hps
            have hp : p = 2 * (h + 1) - 1 := by omega
            rw [hp]
            have := (hcomp (v.getD (2 * (h + 1)) default) (v.getD (2 * (h + 1) - 1) default))
            have hn : ¬ f (v.getD (2 * (h + 1) - 1) default)
                < f (v.getD (2 * (h + 1)) default) := fun hl => hc (this.2 hl)
            omega
        · omega
    · rw [if_neg hlt]
      exact ⟨inv, hlt⟩

/-- One step of the hole towards the root: the parent moves down. -/
theorem hole_step_up (f : α → Int) (v0 : List α) (len k : Nat) (v : List α) (h : Nat)
    (value : α) (inv : HoleInvariant f v0 len k v h) (hne : h ≠ k)
    (hlt : f value < f (v.getD ((h - 1) / 2) default)) :
    HoleInvariant f v0 len k (v.set h (v.getD ((h - 1) / 2) default)) ((h - 1) / 2) ∧
    ∀ p, 1 ≤ p → p < len → (p - 1) / 2 = (h - 1) / 2 →
      f value ≤ f ((v.set h (v.getD ((h - 1) / 2) default)).getD p default) := by
  have hhl : h < v.length := by have := inv.hole_lt; have := inv.len_le; have := inv.length_eq; omega
  obtain ⟨hdq, hh1⟩ := inv.descendant.parent hne
  have hkq : k ≤ (h - 1) / 2 := hdq.le
  have hql : (h - 1) / 2 < h := by omega
  have hhlen := inv.hole_lt
  refine ⟨⟨by rw [List.length_set]; exact inv.length_eq, inv.len_le, by omega, hdq, ?_, ?_, ?_, ?_⟩,
    ?_⟩
  · intro p hp1 hpl hkp hpq hppq
    rw [getD_set_eq_ite _ _ _ _ _ hhl, getD_set_eq_ite _ _ _ _ _ hhl]
    have hph : p ≠ h := fun e => hppq (by rw [e])
    rw [if_neg hph]
    by_cases hpp : (p - 1) / 2 = h
    · rw [if_pos hpp]
      exact inv.children hne p hp1 hpl hpp
    · rw [if_neg hpp]
      exact inv.ordered p hp1 hpl hkp hph hpp
  · intro hqk p hp1 hpl hpp
    obtain ⟨hdqq, hq1⟩ := hdq.parent hqk
    have hkqq : k ≤ ((h - 1) / 2 - 1) / 2 := hdqq.le
    have hgp := inv.ordered ((h - 1) / 2) hq1 (by omega) hkqq (by omega) (by omega)
    rw [getD_set_eq_ite _ _ _ _ _ hhl, getD_set_eq_ite _ _ _ _ _ hhl, if_neg (by omega)]
    by_cases hph : p = h
    · rw [if_pos hph]
      exact hgp
    · rw [if_neg hph]
      have := inv.ordered p hp1 hpl (by omega) hph (by omega)
      rw [hpp] at this
      omega
  · intro p hp
    rw [getD_set_other _ _ _ _ _ (by omega)]
    exact inv.frame p hp
  · intro x
    exact (perm_move_hole default v h ((h - 1) / 2) x (by omega) hhl (by omega)).trans
      (inv.perm x)
  · intro p hp1 hpl hpp
    rw [getD_set_eq_ite _ _ _ _ _ hhl]
    by_cases hph : p = h
    · rw [if_pos hph]
      exact Int.le_of_lt hlt
    · rw [if_neg hph]
      have := inv.ordered p hp1 hpl (by omega) hph (by omega)
      rw [hpp] at this
      omega

theorem push_heap_loop_spec (comp : α → α → Bool) (f : α → Int)
    (hcomp : ∀ a b, comp a b = true ↔ f b < f a) (v0 : List α) (len k : Nat) (value : α) :
    ∀ (fuel : Nat) (v : List α) (h : Nat), HoleInvariant f v0 len k v h →
      (∀ p, 1 ≤ p → p < len → (p - 1) / 2 = h → f value ≤ f (v.getD p default)) →
      h < fuel →
      HeapFrom f (push_heap_loop comp fuel v h k value) len k ∧
      List.Perm (push_heap_loop comp fuel v h k value) (v0.set k value) ∧
      (push_heap_loop comp fuel v h k value).length = v0.length ∧
      ∀ p, len ≤ p → (push_heap_loop comp fuel v h k value).getD p default
        = v0.getD p default := by
  intro fuel
  induction fuel with
  | zero => intro v h _ _ hf; omega
  | succ fuel ih =>
    intro v h inv hC hf
    have hhl : h < v.length := by
      have := inv.hole_lt; have := inv.len_le; have := inv.length_eq; omega
    unfold push_heap_loop
    by_cases hcond : h > k ∧ comp (v.getD ((h - 1) / 2) default) value = true
    · rw [if_pos hcond]
      obtain ⟨inv1, hC1⟩ := hole_step_up f v0 len k v h value inv (by omega)
        ((hcomp _ _).1 hcond.2)
      exact ih _ _ inv1 hC1 (by omega)
    · rw [if_neg hcond]
      refine ⟨?_, inv.perm value, by rw [List.length_set]; exact inv.length_eq, ?_⟩
      · intro p hp1 hpl hkp
        rw [getD_set_eq_ite _ _ _ _ _ hhl, getD_set_eq_ite _ _ _ _ _ hhl]
        by_cases hph : p = h
        · have hne : (p - 1) / 2 ≠ h := by omega
          rw [if_neg hne, if_pos hph]
          have hgt : h > k := by omega
          have hn : ¬ comp (v.getD ((h - 1) / 2) default) value = true :=
            fun hc => hcond ⟨hgt, hc⟩
          have hn2 : ¬ f value < f (v.getD ((h - 1) / 2) default) :=
            fun hl => hn ((hcomp _ _).2 hl)
          rw [hph]
          omega
        · rw [if_neg hph]
          by_cases hpp : (p - 1) / 2 = h
          · rw [if_pos hpp]
            exact hC p hp1 hpl hpp
          · rw [if_neg hpp]
            exact inv.ordered p hp1 hpl hkp hph hpp
      · intro p hp
        rw [getD_set_other _ _ _ _ _ (by have := inv.hole_lt; omega)]
        exact inv.frame p hp

theorem adjust_heap_spec (comp : α → α → Bool) (f : α → Int)
    (hcomp : ∀ a b, comp a b = true ↔ f b < f a) (v0 : List α) (len k : Nat) (value : α)
    (hk : k < len) (hlen : len ≤ v0.length) (hheap : HeapFrom f v0 len (k + 1)) :
    HeapFrom f (adjust_heap comp v0 k len value) len k ∧
    List.Perm (adjust_heap comp v0 k len value) (v0.set k value) ∧
    (adjust_heap comp v0 k len value).length = v0.length ∧
    ∀ p, len ≤ p → (adjust_heap comp v0 k len value).getD p default = v0.getD p default := by
  have inv0 : HoleInvariant f v0 len k v0 k :=
    ⟨rfl, hlen, hk, Descendant.root, fun p hp1 hpl hkp hpk hppk => hheap p hp1 hpl (by omega),
      fun hne => absurd rfl hne, fun _ _ => rfl, fun _ => List.Perm.refl _⟩
  obtain ⟨inv1, hexit⟩ := adjust_heap_loop_spec comp f hcomp v0 len k len v0 k inv0 (by omega)
  unfold adjust_heap
  simp only []
  generalize adjust_heap_loop comp len v0 k len = p1 at inv1 hexit ⊢
  obtain ⟨v1, h1⟩ := p1
  simp only [] at inv1 hexit ⊢
  by_cases hsp : len % 2 = 0 ∧ h1 = (len - 2) / 2
  · rw [if_pos hsp]
    simp only []
    have hh1 := inv1.hole_lt
    have inv2 : HoleInvariant f v0 len k (v1.set h1 (v1.getD (2 * (h1 + 1) - 1) default))
        (2 * (h1 + 1) - 1) := by
      apply hole_step_down f v0 len k v1 h1 (2 * (h1 + 1) - 1) inv1 (by omega) (by omega)
        (by omega)
      · have : 2 * (h1 + 1) - 1 = 2 * h1 + 1 := by omega
        rw [this]
        exact Descendant.left h1 inv1.descendant
      · intro p hp1 hpl hpp hps
        omega
    exact push_heap_loop_spec comp f hcomp v0 len k value _ _ _ inv2
      (fun p hp1 hpl hpp => by omega) (by omega)
  · rw [if_neg hsp]
    exact push_heap_loop_spec comp f hcomp v0 len k value _ _ _ inv1
      (fun p hp1 hpl hpp => by omega) (by omega)

end HeapOrder

section HeapOrderTop

variable {α : Type} [Inhabited α]

/-- The top of a heap has the least key. -/
theorem HeapFrom.top_le (f : α → Int) (v : List α) (len : Nat) (hheap : HeapFrom f v len 0) :
    ∀ p, p < len → f (v.getD 0 default) ≤ f (v.getD p default) := by
  intro p
  induction p using Nat.strong_induction_on with
  | _ p ih =>
    intro hp
    by_cases h0 : p = 0
    · rw [h0]
    · have h1 := ih ((p - 1) / 2) (by omega) (by omega)
      have h2 := hheap p (by omega) hp (Nat.zero_le _)
      omega

theorem pop_heap_spec (comp : α → α → Bool) (f : α → Int)
    (hcomp : ∀ a b, comp a b = true ↔ f b < f a) (v : List α) (len : Nat)
    (hlen1 : 1 ≤ len) (hlen : len ≤ v.length) (hheap : HeapFrom f v len 0) :
    HeapFrom f (pop_heap comp v len) (len - 1) 0 ∧
    List.Perm (pop_heap comp v len) v ∧
    (pop_heap comp v len).length = v.length ∧
    (pop_heap comp v len).getD (len - 1) default = v.getD 0 default ∧
    ∀ p, len ≤ p → (pop_heap comp v len).getD p default = v.getD p default := by
  unfold pop_heap
  by_cases h1 : len > 1
  · rw [if_pos h1]
    have hl1 : len - 1 < v.length := by omega
    have hheap1 : HeapFrom f (v.set (len - 1) (v.getD 0 default)) (len - 1) (0 + 1) := by
      intro p hp1 hpl hkp
      rw [getD_set_other _ _ _ _ _ (by omega), getD_set_other _ _ _ _ _ (by omega)]
      exact hheap p hp1 (by omega) (Nat.zero_le _)
    obtain ⟨ha, hb, hc, hd⟩ := adjust_heap_spec comp f hcomp
      (v.set (len - 1) (v.getD 0 default)) (len - 1) 0 (v.getD (len - 1) default) (by omega)
      (by rw [List.length_set]; omega) hheap1
    refine ⟨ha, ?_, by rw [hc, List.length_set], ?_, ?_⟩
    · refine hb.trans ?_
      have := perm_swap_ne default v (len - 1) 0 (by omega) hl1 (by omega)
      exact this
    · rw [hd (len - 1) (Nat.le_refl _)]
      exact getD_set_self _ _ _ _ hl1
    · intro p hp
      rw [hd p (by omega)]
      exact getD_set_other _ _ _ _ _ (by omega)
  · rw [if_neg h1]
    have hl : len = 1 := by omega
    subst hl
    refine ⟨fun p hp1 hpl _ => by omega, List.Perm.refl _, rfl, rfl, fun _ _ => rfl⟩

theorem make_heap_loop_spec (comp : α → α → Bool) (f : α → Int)
    (hcomp : ∀ a b, comp a b = true ↔ f b < f a) (v0 : List α) (len : Nat) :
    ∀ (fuel : Nat) (v : List α) (parent : Nat), parent < fuel → parent < len →
      len ≤ v.length → List.Perm v v0 → HeapFrom f v len (parent + 1) →
      HeapFrom f (make_heap_loop comp fuel v parent len) len 0 ∧
      List.Perm (make_heap_loop comp fuel v parent len) v0 := by
  intro fuel
  induction fuel with
  | zero => intro v parent h; omega
  | succ fuel ih =>
    intro v parent hf hp hlen hperm hheap
    obtain ⟨ha, hb, hc, _⟩ := adjust_heap_spec comp f hcomp v len parent
      (v.getD parent default) hp hlen hheap
    have hset : v.set parent (v.getD parent default) = v := by
      apply List.ext_getElem?
      intro i
      by_cases hi : i = parent
      · rw [hi, List.getElem?_set_self (by omega), List.getD_eq_getElem?_getD,
          List.getElem?_eq_getElem (by omega : parent < v.length)]
        rfl
      · rw [List.getElem?_set_ne (Ne.symm hi)]
    rw [hset] at hb
    unfold make_heap_loop
    by_cases h0 : parent = 0
    · subst h0
      rw [if_pos rfl]
      exact ⟨ha, hb.trans hperm⟩
    · rw [if_neg h0]
      apply ih _ _ (by omega) (by omega) (by rw [hc]; exact hlen) (hb.trans hperm)
      have : parent - 1 + 1 = parent := by omega
      rw [this]
      exact ha

theorem make_heap_spec (comp : α → α → Bool) (f : α → Int)
    (hcomp : ∀ a b, comp a b = true ↔ f b < f a) (v : List α) :
    HeapFrom f (make_heap comp v) v.length 0 ∧ List.Perm (make_heap comp v) v := by
  unfold make_heap
  by_cases h2 : v.length < 2
  · rw [if_pos h2]
    exact ⟨fun p hp1 hpl _ => by omega, List.Perm.refl _⟩
  · rw [if_neg h2]
    apply make_heap_loop_spec comp f hcomp v v.length _ v _ (by omega) (by omega)
      (Nat.le_refl _) (List.Perm.refl _)
    intro p hp1 hpl hkp
    omega

end HeapOrderTop

theorem ResultCompare_iff (a b : Result) : ResultCompare a b = true ↔ b.cost < a.cost := by
  unfold ResultCompare
  rw [decide_eq_true_eq]

/-! ## The emission loop, round by round -/

theorem getD_mem {α : Type} (l : List α) (p : Nat) (d : α) (h : p < l.length) :
    l.getD p d ∈ l := by
  rw [List.getD_eq_getElem?_getD, List.getElem?_eq_getElem h]
  exact List.getElem_mem h

theorem exists_getD_of_mem {α : Type} (l : List α) (x d : α) (h : x ∈ l) :
    ∃ p, p < l.length ∧ l.getD p d = x := by
  obtain ⟨p, hp, hx⟩ := List.mem_iff_getElem.1 h
  refine ⟨p, hp, ?_⟩
  rw [List.getD_eq_getElem?_getD, List.getElem?_eq_getElem hp]
  exact hx

theorem AddPredictionBody_invariant (env : Env) (segments : Segments) (results : List Result)
    (i : Nat) (st st1 : EmitState) (inv : EmitInvariant env segments results i st)
    (hi : i < results.length) (hb : AddPredictionBody env segments i st = some st1) :
    EmitInvariant env segments results (i + 1) st1 := by
  have hlen : st.results.length = results.length := inv.perm.length_eq
  have hheap0 : HeapFrom Result.cost st.results (st.results.length - i) 0 := by
    rw [hlen]; exact inv.heap
  obtain ⟨hheap1, hperm1, hlen1, htop, hframe⟩ := pop_heap_spec ResultCompare Result.cost
    ResultCompare_iff st.results (st.results.length - i) (by omega) (by omega) hheap0
  have hmin := HeapFrom.top_le Result.cost st.results (st.results.length - i) hheap0
  unfold AddPredictionBody at hb
  simp only [] at hb
  have hX : (pop_heap ResultCompare st.results (st.results.length - i)).getD
      ((pop_heap ResultCompare st.results (st.results.length - i)).length - i - 1) default
      = st.results.getD 0 default := by
    rw [hlen1]; exact htop
  rw [hX] at hb
  generalize pop_heap ResultCompare st.results (st.results.length - i) = v1 at *
  have hXmem : st.results.getD 0 default ∈ results :=
    inv.perm.mem_iff.1 (getD_mem _ _ _ (by omega))
  generalize st.results.getD 0 default = X at *
  have hperm : List.Perm v1 results := hperm1.trans inv.perm
  have hheap : HeapFrom Result.cost v1 (results.length - (i + 1)) 0 := by
    have : results.length - (i + 1) = st.results.length - i - 1 := by omega
    rw [this]; exact hheap1
  have hpos : ∀ p, results.length - (i + 1) ≤ p → p < results.length →
      v1.getD p default = X ∨ (results.length - i ≤ p ∧ v1.getD p default = st.results.getD p default) := by
    intro p hp1 hp2
    by_cases hp : p = st.results.length - i - 1
    · left; rw [hp]; exact htop
    · right
      exact ⟨by omega, hframe p (by omega)⟩
  -- the cases in which nothing is added to `seen`
  have hskip : ReachesSeenSpec env segments X = false →
      EmitInvariant env segments results (i + 1) { st with results := v1 } := by
    intro hr
    refine ⟨hperm, by omega, hheap, ?_, inv.lowest, inv.emitted_from, inv.seen_from⟩
    intro p hp1 hp2 hreach key value hs
    rcases hpos p hp1 hp2 with hx | ⟨hp, hx⟩
    · simp only [] at hreach
      rw [hx, hr] at hreach
      cases hreach
    · simp only [] at hreach hs
      rw [hx] at hreach hs
      exact inv.popped_seen p hp hp2 hreach key value hs
  split_ifs at hb with h1 h2 h3
  · cases hb
    apply hskip
    simp [ReachesSeenSpec, h1]
  · cases hb
    apply hskip
    rw [Bool.eq_false_iff]
    intro hr
    simp only [ReachesSeenSpec, Bool.and_eq_true, Bool.not_eq_true'] at hr
    rw [hr.1.2] at h2
    cases h2
  · cases hb
    apply hskip
    rw [Bool.eq_false_iff]
    intro hr
    simp only [ReachesSeenSpec, Bool.and_eq_true, Bool.not_eq_true'] at hr
    rw [hr.2] at h3
    cases h3
  · have hreachX : ReachesSeenSpec env segments X = true := by
      simp only [ReachesSeenSpec, Bool.and_eq_true, Bool.not_eq_true', decide_eq_true_eq]
      exact ⟨⟨h1, by simpa using h2⟩, by simpa using h3⟩
    cases hs : StrippedKeyValue segments X with
    | none => rw [hs] at hb; cases hb
    | some kv =>
      obtain ⟨key, value⟩ := kv
      rw [hs] at hb
      simp only [] at hb
      split_ifs at hb with h4 h5
      · cases hb
        refine ⟨hperm, by omega, hheap, ?_, inv.lowest, inv.emitted_from, inv.seen_from⟩
        intro p hp1 hp2 hreach key1 value1 hs1
        rcases hpos p hp1 hp2 with hx | ⟨hp, hx⟩
        · simp only [] at hs1
          rw [hx, hs] at hs1
          cases hs1
          exact h4
        · simp only [] at hreach hs1
          rw [hx] at hreach hs1
          exact inv.popped_seen p hp hp2 hreach key1 value1 hs1
      · cases hb
        refine ⟨hperm, by omega, hheap, ?_, inv.lowest, inv.emitted_from, ?_⟩
        · intro p hp1 hp2 hreach key1 value1 hs1
          rcases hpos p hp1 hp2 with hx | ⟨hp, hx⟩
          · simp only [] at hs1
            rw [hx, hs] at hs1
            cases hs1
            exact List.mem_cons_self _ _
          · simp only [] at hreach hs1
            rw [hx] at hreach hs1
            exact List.mem_cons_of_mem _ (inv.popped_seen p hp hp2 hreach key1 value1 hs1)
        · intro value1 hv1
          rcases List.mem_cons.1 hv1 with hv1 | hv1
          · right
            simp only [Bool.and_eq_true, decide_eq_true_eq] at h5
            exact ⟨X, hXmem, hreachX, h5.1.1, key, by rw [hv1]; exact hs, h5.1.2,
              by rw [hv1]; exact h5.2⟩
          · exact inv.seen_from value1 hv1
      · cases hb
        refine ⟨hperm, by omega, hheap, ?_, ?_, ?_, ?_⟩
        · intro p hp1 hp2 hreach key1 value1 hs1
          rcases hpos p hp1 hp2 with hx | ⟨hp, hx⟩
          · simp only [] at hs1
            rw [hx, hs] at hs1
            cases hs1
            exact List.mem_cons_self _ _
          · simp only [] at hreach hs1
            rw [hx] at hreach hs1
            exact List.mem_cons_of_mem _ (inv.popped_seen p hp hp2 hreach key1 value1 hs1)
        · intro rc hrc r hr hreach key1 hs1
          rcases List.mem_append.1 hrc with hrc | hrc
          · exact inv.lowest rc hrc r hr hreach key1 hs1
          · rw [List.mem_singleton] at hrc
            subst hrc
            simp only [MakeCandidate] at hs1 ⊢
            obtain ⟨p, hp, hpr⟩ := exists_getD_of_mem st.results r default
              (inv.perm.mem_iff.2 hr)
            by_cases hpl : p < st.results.length - i
            · have := hmin p hpl
              rw [hpr] at this
              exact this
            · exfalso
              apply h4
              have hreach' : ReachesSeenSpec env segments (st.results.getD p default) = true := by
                rw [hpr]; exact hreach
              exact inv.popped_seen p (by omega) (by omega) hreach' key1 value
                (by rw [hpr]; exact hs1)
        · intro rc hrc
          rcases List.mem_append.1 hrc with hrc | hrc
          · exact inv.emitted_from rc hrc
          · rw [List.mem_singleton] at hrc
            subst hrc
            exact ⟨hXmem, hreachX, hs⟩
        · intro value1 hv1
          rcases List.mem_cons.1 hv1 with hv1 | hv1
          · left
            exact ⟨_, List.mem_append_right _ (List.mem_singleton_self _), by rw [hv1]; rfl⟩
          · rcases inv.seen_from value1 hv1 with ⟨rc, hrc, hv⟩ | hd
            · exact Or.inl ⟨rc, List.mem_append_left _ hrc, hv⟩
            · exact Or.inr hd

theorem AddPredictionLoop_indexed (env : Env) (segments : Segments) (results : List Result)
    (size : Nat) :
    ∀ (n i : Nat) (st st1 : EmitState), i + n = results.length →
      EmitInvariant env segments results i st →
      AddPredictionLoop env segments size n i st = some st1 →
      ∃ j, EmitInvariant env segments results j st1 ∧
        (j = results.length ∨ st1.added ≥ size ∨ (st1.results.getD j default).cost = INT_MAX) := by
  intro n
  induction n with
  | zero =>
    intro i st st1 hn inv h
    simp only [AddPredictionLoop] at h
    cases h
    exact ⟨i, inv, Or.inl (by omega)⟩
  | succ n ih =>
    intro i st st1 hn inv h
    simp only [AddPredictionLoop] at h
    split_ifs at h with hbreak
    · cases h
      exact ⟨i, inv, Or.inr hbreak⟩
    · cases hbd : AddPredictionBody env segments i st with
      | none => rw [hbd] at h; cases h
      | some st2 =>
        rw [hbd] at h
        exact ih (i + 1) st2 st1 (by omega)
          (AddPredictionBody_invariant env segments results i st st2 inv (by omega) hbd) h

theorem AddPredictionRun_indexed (env : Env) (segments : Segments) (results : List Result)
    (st : EmitState) (h : AddPredictionRun env segments results = some st) :
    ∃ j, EmitInvariant env segments results j st ∧
      (j = results.length ∨
        st.added ≥ min segments.max_prediction_candidates_size results.length ∨
        (st.results.getD j default).cost = INT_MAX) := by
  obtain ⟨hheap, hperm⟩ := make_heap_spec ResultCompare Result.cost ResultCompare_iff results
  refine AddPredictionLoop_indexed env segments results _ results.length 0 _ st (by omega) ?_ h
  refine ⟨hperm, Nat.zero_le _, hheap, ?_, ?_, ?_, ?_⟩
  · intro p hp1 hp2
    omega
  · intro rc hrc
    cases hrc
  · intro rc hrc
    cases hrc
  · intro value hv
    cases hv

/-! ## The assertions of the aggregators -/

theorem Segments.request_type_set_candidates (s : Segments) (cs : List Candidate) :
    (s.set_candidates cs).request_type = s.request_type := by
  unfold Segments.set_candidates
  cases s.conversion_segments <;> rfl

theorem Segments.key_set_candidates (s : Segments) (cs : List Candidate) :
    ((s.set_candidates cs).conversion_segment 0).key = (s.conversion_segment 0).key := by
  unfold Segments.set_candidates Segments.conversion_segment
  cases h : s.conversion_segments with
  | nil => simp [h]
  | cons seg rest => simp

theorem AggregateRealtimeConversion_key (env : Env) (hconv : ConvertOnlyAppends env)
    (type : PredictionType) (segments : Segments) (results : List Result) :
    ((AggregateRealtimeConversion env type segments results).1.conversion_segment 0).key
      = (segments.conversion_segment 0).key ∧
    (AggregateRealtimeConversion env type segments results).1.request_type
      = segments.request_type := by
  unfold AggregateRealtimeConversion
  simp only []
  generalize size_add (segments.conversion_segment 0).candidates.length
    (GetRealtimeCandidateMaxSize segments env.mixed_conversion
      (size_sub segments.max_prediction_candidates_size
        (segments.conversion_segment 0).candidates.length)) = N
  obtain ⟨app, happ⟩ := hconv (segments.set_max_prediction_candidates_size N)
  have hk : ((env.Convert (segments.set_max_prediction_candidates_size N)).2.conversion_segment
      0).key = (segments.conversion_segment 0).key := by
    rw [happ, Segments.key_set_candidates]
    rfl
  have hr : (env.Convert (segments.set_max_prediction_candidates_size N)).2.request_type
      = segments.request_type := by
    rw [happ, Segments.request_type_set_candidates]
    rfl
  split_ifs
  · exact ⟨rfl, rfl⟩
  · constructor
    · show (((env.Convert (segments.set_max_prediction_candidates_size N)).2.set_candidates
        _).conversion_segment 0).key = _
      rw [Segments.key_set_candidates, hk]
    · show ((env.Convert (segments.set_max_prediction_candidates_size N)).2.set_candidates
        _).request_type = _
      rw [Segments.request_type_set_candidates, hr]
  · exact ⟨hk, hr⟩

theorem GetPredictionType_unigram_key (env : Env) (segments : Segments)
    (h : (GetPredictionType env segments).unigram = true) :
    CharsLen (segments.conversion_segment 0).key ≥ 1 ∧
    segments.request_type ≠ RequestType.CONVERSION := by
  rw [GetPredictionType_unigram] at h
  simp only [Bool.and_eq_true, Bool.or_eq_true, decide_eq_true_eq, Bool.not_eq_true'] at h
  obtain ⟨hearly, hlen⟩ := h
  constructor
  · rcases hlen with ⟨_, h1⟩ | h1
    · exact h1
    · split_ifs at h1 <;> omega
  · intro hc
    unfold ReturnsEarly at hearly
    simp [hc] at hearly

theorem AggregatePrediction_calls (env : Env) (request : ConversionRequest)
    (segments : Segments) (max_nodes_size : Nat) (results : List Result) :
    AggregatePrediction env request segments max_nodes_size results
      = match RealtimeCall env segments with
        | none => some (false, segments, results)
        | some (type, segments0) =>
          match UnigramCall env segments results with
          | none =>
            some (!(AggregateRealtimeConversion env type segments0 results).2.isEmpty,
              (AggregateRealtimeConversion env type segments0 results).1,
              (AggregateRealtimeConversion env type segments0 results).2)
          | some (type1, segments1) =>
            match AggregateBigramPrediction env type1 request segments1
                (AggregateUnigramPrediction env type1 request segments1 max_nodes_size
                  (AggregateRealtimeConversion env type segments0 results).2).1
                (AggregateUnigramPrediction env type1 request segments1 max_nodes_size
                  (AggregateRealtimeConversion env type segments0 results).2).2 with
            | none => none
            | some bigram =>
              some (!(AggregateSuffixPrediction env type1 request segments1 bigram.1
                  bigram.2).isEmpty, segments1,
                AggregateSuffixPrediction env type1 request segments1 bigram.1 bigram.2) := by
  unfold AggregatePrediction RealtimeCall UnigramCall
  simp only []
  by_cases h1 : GetPredictionType env segments = NO_PREDICTION
  · simp only [if_pos h1]
  · simp only [if_neg h1]
    by_cases h2 : segments.request_type = RequestType.PARTIAL_SUGGESTION ∨
        segments.request_type = RequestType.PARTIAL_PREDICTION
    · simp only [if_pos h2]
    · simp only [if_neg h2]

/-! ## The zip-code pattern -/

theorem UTF8ToUCS2_mblen_ascii (b : Nat) (rest : Str) (h : b < 128) :
    UTF8ToUCS2_mblen (b :: rest) = 1 := by
  unfold UTF8ToUCS2_mblen UTF8ToUCS4
  simp only []
  rw [if_pos h]

theorem IsZipCodeLoop_iff :
    ∀ (fuel : Nat) (key : Str), key.length ≤ fuel →
      (IsZipCodeLoop fuel key = true ↔ ∀ b ∈ key, (48 ≤ b ∧ b ≤ 57) ∨ b = 45) := by
  intro fuel
  induction fuel with
  | zero =>
    intro key hlen
    have : key = [] := List.eq_nil_of_length_eq_zero (by omega)
    subst this
    constructor
    · intro _ b hb; cases hb
    · intro _; rfl
  | succ fuel ih =>
    intro key hlen
    cases key with
    | nil =>
      constructor
      · intro _ b hb; cases hb
      · intro _; rfl
    | cons b rest =>
      unfold IsZipCodeLoop
      by_cases hb : (48 ≤ b ∧ b ≤ 57) ∨ b = 45
      · have hm : UTF8ToUCS2_mblen (b :: rest) = 1 :=
          UTF8ToUCS2_mblen_ascii b rest (by omega)
        rw [if_pos ⟨hm, hb⟩, hm]
        simp only [List.drop_succ_cons, List.drop_zero]
        rw [ih rest (by simpa using hlen)]
        constructor
        · intro hall c hc
          rcases List.mem_cons.1 hc with hc | hc
          · rw [hc]; exact hb
          · exact hall c hc
        · intro hall c hc
          exact hall c (List.mem_cons_of_mem _ hc)
      · rw [if_neg (fun h => hb h.2)]
        constructor
        · intro h; cases h
        · intro hall
          exact absurd (hall b (List.mem_cons_self _ _)) hb

/-! ## The order of the rounded costs -/

theorem RoundShiftLoop_min (n : Nat) :
    ∀ (fuel s t : Nat), s ≤ t → t < RoundShiftLoop fuel n s → 2 ^ 53 ≤ n / 2 ^ t := by
  intro fuel
  induction fuel with
  | zero =>
    intro s t h1 h2
    unfold RoundShiftLoop at h2
    omega
  | succ fuel ih =>
    intro s t h1 h2
    unfold RoundShiftLoop at h2
    by_cases h : n / 2 ^ s < 2 ^ 53
    · rw [if_pos h] at h2
      omega
    · rw [if_neg h] at h2
      by_cases hts : t = s
      · rw [hts]; omega
      · exact ih (s + 1) t (by omega) h2

theorem RoundShiftLoop_stop (n : Nat) :
    ∀ (fuel s : Nat), RoundShiftLoop fuel n s < s + fuel →
      n / 2 ^ RoundShiftLoop fuel n s < 2 ^ 53 := by
  intro fuel
  induction fuel with
  | zero =>
    intro s h
    unfold RoundShiftLoop at h
    omega
  | succ fuel ih =>
    intro s h
    unfold RoundShiftLoop at h ⊢
    by_cases hc : n / 2 ^ s < 2 ^ 53
    · rw [if_pos hc]; exact hc
    · rw [if_neg hc] at h ⊢
      exact ih (s + 1) (by omega)

theorem RoundShiftLoop_mono (n m : Nat) (h : n ≤ m) :
    RoundShiftLoop 128 n 0 ≤ RoundShiftLoop 128 m 0 := by
  by_cases hm : RoundShiftLoop 128 m 0 < 0 + 128
  · have hstop := RoundShiftLoop_stop m 128 0 hm
    have hle : n / 2 ^ RoundShiftLoop 128 m 0 < 2 ^ 53 :=
      Nat.lt_of_le_of_lt (Nat.div_le_div_right h) hstop
    exact (RoundShiftLoop_spec n 128 0 _ (Nat.zero_le _) (by omega) hle).1
  · have := RoundShiftLoop_le n 128 0
    omega

theorem RoundToDouble_bounds (n : Nat) :
    n / 2 ^ RoundShiftLoop 128 n 0 * 2 ^ RoundShiftLoop 128 n 0 ≤ RoundToDouble n ∧
    RoundToDouble n ≤ (n / 2 ^ RoundShiftLoop 128 n 0 + 1) * 2 ^ RoundShiftLoop 128 n 0 := by
  unfold RoundToDouble
  simp only []
  split_ifs
  · exact ⟨Nat.mul_le_mul_right _ (Nat.le_succ _), Nat.le_refl _⟩
  · exact ⟨Nat.le_refl _, Nat.mul_le_mul_right _ (Nat.le_succ _)⟩

theorem RoundToDouble_mono (n m : Nat) (h : n ≤ m) : RoundToDouble n ≤ RoundToDouble m := by
  have hs := RoundShiftLoop_mono n m h
  rcases Nat.lt_or_eq_of_le hs with hlt | heq
  · -- the exponent grows: the two values lie on both sides of a power of two
    have hn := (RoundToDouble_bounds n).2
    have hm := (RoundToDouble_bounds m).1
    have hmle := RoundShiftLoop_le m 128 0
    have hqn : n / 2 ^ RoundShiftLoop 128 n 0 < 2 ^ 53 :=
      RoundShiftLoop_stop n 128 0 (by omega)
    have hqm : 2 ^ 53 ≤ m / 2 ^ (RoundShiftLoop 128 m 0 - 1) :=
      RoundShiftLoop_min m 128 0 (RoundShiftLoop 128 m 0 - 1) (Nat.zero_le _) (by omega)
    generalize RoundShiftLoop 128 n 0 = s at hlt hn hqn ⊢
    generalize RoundShiftLoop 128 m 0 = t at hlt hm hqm hmle ⊢
    have hq2 : 2 ^ 52 ≤ m / 2 ^ t := by
      have e1 : 2 ^ t = 2 ^ (t - 1) * 2 := by
        rw [← Nat.pow_succ]
        congr 1
        omega
      rw [e1, ← Nat.div_div_eq_div_mul]
      omega
    have h1 : (n / 2 ^ s + 1) * 2 ^ s ≤ 2 ^ 53 * 2 ^ s := Nat.mul_le_mul_right _ hqn
    have h2 : 2 ^ 52 * 2 ^ t ≤ m / 2 ^ t * 2 ^ t := Nat.mul_le_mul_right _ hq2
    have h3 : 2 ^ 53 * 2 ^ s ≤ 2 ^ 52 * 2 ^ t := by
      rw [← Nat.pow_add, ← Nat.pow_add]
      exact Nat.pow_le_pow_right (by norm_num) (by omega)
    omega
  · -- the same exponent: rounding to the multiples of one power of two
    unfold RoundToDouble
    simp only []
    rw [← heq]
    generalize RoundShiftLoop 128 n 0 = s
    have hP : 0 < 2 ^ s := by positivity
    have hqle : n / 2 ^ s ≤ m / 2 ^ s := Nat.div_le_div_right h
    have hdn := Nat.div_add_mod' n (2 ^ s)
    have hdm := Nat.div_add_mod' m (2 ^ s)
    have hrn := Nat.mod_lt n hP
    have hrm := Nat.mod_lt m hP
    rcases Nat.lt_or_eq_of_le hqle with hq | hq
    · have hstep : (n / 2 ^ s + 1) * 2 ^ s ≤ m / 2 ^ s * 2 ^ s := Nat.mul_le_mul_right _ hq
      have hup : n / 2 ^ s * 2 ^ s ≤ (n / 2 ^ s + 1) * 2 ^ s :=
        Nat.mul_le_mul_right _ (Nat.le_succ _)
      have hupm : m / 2 ^ s * 2 ^ s ≤ (m / 2 ^ s + 1) * 2 ^ s :=
        Nat.mul_le_mul_right _ (Nat.le_succ _)
      split_ifs <;> omega
    · rw [← hq] at hdm ⊢
      have hup : n / 2 ^ s * 2 ^ s ≤ (n / 2 ^ s + 1) * 2 ^ s :=
        Nat.mul_le_mul_right _ (Nat.le_succ _)
      have hr : n % 2 ^ s ≤ m % 2 ^ s := by omega
      generalize n / 2 ^ s * 2 ^ s = A at *
      generalize (n / 2 ^ s + 1) * 2 ^ s = B at *
      generalize n % 2 ^ s = rn at *
      generalize m % 2 ^ s = rm at *
      generalize 2 ^ s = P at *
      generalize n / P = q at *
      split_ifs with c1 c2 c2
      · exact Nat.le_refl _
      · exfalso
        apply c2
        rcases c1 with c1 | c1
        · left; omega
        · by_cases he : 2 * rm = P
          · right; exact ⟨he, c1.2⟩
          · left; omega
      · exact hup
      · exact Nat.le_refl _

theorem truncated_mono (e : Nat) (n1 n2 : Int) (h : n1 ≤ n2) :
    (if n1 < 0 then -((RoundToDouble n1.natAbs / 2 ^ e : Nat) : Int)
      else ((RoundToDouble n1.natAbs / 2 ^ e : Nat) : Int))
    ≤ (if n2 < 0 then -((RoundToDouble n2.natAbs / 2 ^ e : Nat) : Int)
      else ((RoundToDouble n2.natAbs / 2 ^ e : Nat) : Int)) := by
  by_cases h2 : n2 < 0
  · have h1 : n1 < 0 := by omega
    rw [if_pos h1, if_pos h2]
    have hab : n2.natAbs ≤ n1.natAbs := by omega
    have : RoundToDouble n2.natAbs / 2 ^ e ≤ RoundToDouble n1.natAbs / 2 ^ e :=
      Nat.div_le_div_right (RoundToDouble_mono _ _ hab)
    generalize RoundToDouble n1.natAbs / 2 ^ e = t1 at this ⊢
    generalize RoundToDouble n2.natAbs / 2 ^ e = t2 at this ⊢
    omega
  · rw [if_neg h2]
    by_cases h1 : n1 < 0
    · rw [if_pos h1]
      generalize RoundToDouble n1.natAbs / 2 ^ e = t1
      generalize RoundToDouble n2.natAbs / 2 ^ e = t2
      omega
    · rw [if_neg h1]
      have hab : n1.natAbs ≤ n2.natAbs := by omega
      have : RoundToDouble n1.natAbs / 2 ^ e ≤ RoundToDouble n2.natAbs / 2 ^ e :=
        Nat.div_le_div_right (RoundToDouble_mono _ _ hab)
      generalize RoundToDouble n1.natAbs / 2 ^ e = t1 at this ⊢
      generalize RoundToDouble n2.natAbs / 2 ^ e = t2 at this ⊢
      omega

theorem SubtractLengthBonus_eq (env : Env) (cost remain_len : Int) :
    SubtractLengthBonus env cost remain_len
      = wrap32 (LengthBonusDifference env cost remain_len) := rfl

theorem LengthBonusDifference_mono (env : Env) (remain_len cost1 cost2 : Int)
    (h : cost1 ≤ cost2) :
    LengthBonusDifference env cost1 remain_len ≤ LengthBonusDifference env cost2 remain_len := by
  unfold LengthBonusDifference
  simp only []
  apply truncated_mono
  have hpos : (0 : Int) < 2 ^ (env.log (1 + remain_len.toNat)).2 := by positivity
  have := Int.mul_le_mul_of_nonneg_right h (Int.le_of_lt hpos)
  omega

theorem LengthBonusDifference_le (env : Env) (remain_len cost : Int)
    (h1 : -2147483648 ≤ cost) (h2 : cost ≤ 2147483647) :
    LengthBonusDifference env cost remain_len ≤ cost := by
  unfold LengthBonusDifference
  simp only []
  generalize (env.log (1 + remain_len.toNat)).2 = e
  generalize RoundToDouble (500 * (env.log (1 + remain_len.toNat)).1) = b
  have hpos : (0 : Int) < 2 ^ e := by positivity
  have hstep := truncated_mono e (cost * 2 ^ e - (b : Int)) (cost * 2 ^ e) (by omega)
  refine le_trans hstep (le_of_eq ?_)
  have habs : (cost * 2 ^ e).natAbs = cost.natAbs * 2 ^ e := by
    rw [Int.natAbs_mul, Int.natAbs_pow]
    rfl
  have hsmall : cost.natAbs < 9007199254740992 := by omega
  rw [habs, RoundToDouble_exact _ _ hsmall, Nat.mul_div_cancel _ (by positivity)]
  by_cases hc : cost < 0
  · have hn : cost * 2 ^ e < 0 := Int.mul_neg_of_neg_of_pos hc hpos
    rw [if_pos hn]
    omega
  · have hn : ¬ cost * 2 ^ e < 0 := by
      have : 0 ≤ cost * 2 ^ e := Int.mul_nonneg (by omega) (by omega)
      omega
    rw [if_neg hn]
    omega

theorem SetPredictionCostOne_cost (env : Env) (segments : Segments) (total : Nat) (r : Result)
    (hgate : IsAggressiveSuggestion (QueryLenSpec segments r) (CharsLen r.node.key)
      (GetLMCost env r.type r.node (HistoryRid segments))
      (decide (segments.request_type = RequestType.SUGGESTION)) total = false) :
    (SetPredictionCostOne env segments total r).cost
      = SubtractLengthBonus env (GetLMCost env r.type r.node (HistoryRid segments))
          (max 0 (wrap32 ((CharsLen r.node.key : Int) - (QueryLenSpec segments r : Int)))) := by
  unfold QueryLenSpec at hgate ⊢
  unfold SetPredictionCostOne
  simp only []
  rw [if_neg (by rw [hgate]; exact Bool.false_ne_true)]

/-! ## Claims -/

/-- C1, as amended: provided the converter only appends candidates and appends
none when it returns false, `PredictForRequest` on non-null segments returns
true if and only if conversion segment 0 holds more candidates on return than
on entry; the candidates on return are those on entry followed by the appended
ones. -/
theorem C1_true_iff_appended (env : Env) (request : ConversionRequest) (segments : Segments)
    (b : Bool) (segs2 : Segments) (hconv : ConvertOnlyAppends env)
    (hfail : ConvertAppendsNoneOnFailure env)
    (h : PredictForRequest env request (some segments) = some (b, some segs2)) :
    ∃ appended : List Candidate,
      (segs2.conversion_segment 0).candidates
        = (segments.conversion_segment 0).candidates ++ appended ∧
      (b = true ↔ appended ≠ []) ∧
      (b = true ↔ (segments.conversion_segment 0).candidates.length
        < (segs2.conversion_segment 0).candidates.length) := by
  have key : ∃ appended : List Candidate,
      (segs2.conversion_segment 0).candidates
        = (segments.conversion_segment 0).candidates ++ appended ∧
      (b = true ↔ appended ≠ []) := by
    rcases PredictForRequest_cases env request segments b segs2 h with
      ⟨results, ha, hb⟩ | ⟨segs1, results, ha, hp⟩
    · refine ⟨[], ?_, by simp [hb]⟩
      rcases AggregatePrediction_segments env request segments _ _ _ _ _ ha with
        ⟨_, _, hs⟩ | ⟨_, hs⟩
      · rw [hs, List.append_nil]
      · rw [hs, List.append_nil]
        exact (AggregateRealtimeConversion_frame env hconv _ segments []).2.2 hfail
    · rcases AggregatePrediction_segments env request segments _ _ _ _ _ ha with
        ⟨_, hb, _⟩ | ⟨hty, hs⟩
      · cases hb
      · obtain ⟨hnil, _, hsame⟩ := AggregateRealtimeConversion_frame env hconv
          (GetPredictionType env segments) segments []
        have hsame := hsame hfail
        rw [← hs] at hnil hsame
        obtain ⟨st, hrun, hb, hsegs⟩ := AddPredictionToCandidates_eq_some env segs1 _ b segs2 hp
        obtain ⟨hlen, _⟩ := AddPredictionRun_added env segs1 _ st hrun
        have hne : ¬ segs1.conversion_segments = [] := fun hc =>
          GetPredictionType_conversion_segments env segments hty (hnil.1 hc)
        refine ⟨st.emitted.map Prod.snd, ?_, ?_⟩
        · rw [hsegs, Segments.candidates_set_candidates, if_neg hne, hsame]
        · rw [hb, decide_eq_true_eq, ← hlen]
          cases st.emitted <;> simp
  obtain ⟨appended, h1, h2⟩ := key
  refine ⟨appended, h1, h2, ?_⟩
  rw [h2, h1, List.length_append]
  constructor
  · intro hne
    have := List.length_pos.2 hne
    omega
  · intro hlt hnil
    rw [hnil] at hlt
    simp at hlt

/-- C1, at a concrete input: the converter appends "AB" and succeeds;
`PredictForRequest` returns true and the segment holds one candidate more. -/
theorem C1_true_iff_appended_witness :
    ConvertOnlyAppends Examples.convertingEnv ∧
    ConvertAppendsNoneOnFailure Examples.convertingEnv ∧
    PredictForRequest Examples.convertingEnv { composer := none } (some Examples.segmentsAbHeld)
      = some (true, some (Examples.segmentsAbHeld.set_candidates
          [Examples.heldCandidate, Examples.realtimeCandidate])) ∧
    ∃ appended : List Candidate,
      ((Examples.segmentsAbHeld.set_candidates
          [Examples.heldCandidate, Examples.realtimeCandidate]).conversion_segment 0).candidates
        = (Examples.segmentsAbHeld.conversion_segment 0).candidates ++ appended ∧
      (true = true ↔ appended ≠ []) ∧
      (true = true ↔ (Examples.segmentsAbHeld.conversion_segment 0).candidates.length
        < ((Examples.segmentsAbHeld.set_candidates
          [Examples.heldCandidate, Examples.realtimeCandidate]).conversion_segment 0
            ).candidates.length) :=
  have hconv : ConvertOnlyAppends Examples.convertingEnv := fun _ =>
    ⟨[Examples.realtimeCandidate], rfl⟩
  have hfail : ConvertAppendsNoneOnFailure Examples.convertingEnv := fun _ h =>
    Bool.noConfusion h
  ⟨hconv, hfail, by decide,
   C1_true_iff_appended Examples.convertingEnv { composer := none } Examples.segmentsAbHeld
    true _ hconv hfail (by decide)⟩

/-- C1 as stated fails: with a converter that appends "AB" and returns false,
`PredictForRequest` returns false although conversion segment 0 holds two
candidates on return and one on entry. -/
theorem C1_false_with_candidate_left :
    PredictForRequest Examples.leakyEnv { composer := none } (some Examples.segmentsAbHeld)
      = some (false, some ((Examples.segmentsAbHeld.set_candidates
          [Examples.heldCandidate, Examples.realtimeCandidate]
            ).set_max_prediction_candidates_size 7)) ∧
    ¬ (false = true ↔ (Examples.segmentsAbHeld.conversion_segment 0).candidates.length
        < (((Examples.segmentsAbHeld.set_candidates
          [Examples.heldCandidate, Examples.realtimeCandidate]
            ).set_max_prediction_candidates_size 7).conversion_segment 0).candidates.length) := by
  constructor
  · decide
  · decide

/-- C2: the number of candidates that one call of `AddPredictionToCandidates`
appends to conversion segment 0 is at most `max_prediction_candidates_size`
and at most the size of the results vector. -/
theorem C2_appended_within_cap (env : Env) (segments : Segments) (results : List Result)
    (b : Bool) (segs1 : Segments)
    (h : AddPredictionToCandidates env segments results = some (b, segs1)) :
    ∃ appended : List Candidate,
      segs1 = segments.set_candidates ((segments.conversion_segment 0).candidates ++ appended) ∧
      (∃ st, AddPredictionRun env segments results = some st ∧
        appended = st.emitted.map Prod.snd) ∧
      appended.length ≤ segments.max_prediction_candidates_size ∧
      appended.length ≤ results.length := by
  obtain ⟨st, hrun, _, hsegs⟩ := AddPredictionToCandidates_eq_some env segments results b segs1 h
  obtain ⟨hlen, hle⟩ := AddPredictionRun_added env segments results st hrun
  refine ⟨st.emitted.map Prod.snd, hsegs, ⟨st, hrun, rfl⟩, ?_, ?_⟩
  · rw [List.length_map, hlen]; exact le_trans hle (Nat.min_le_left _ _)
  · rw [List.length_map, hlen]; exact le_trans hle (Nat.min_le_right _ _)

/-- C2, at a concrete input: of the two results for "ab", with room for ten
candidates, two candidates are appended. -/
theorem C2_appended_within_cap_witness :
    AddPredictionToCandidates Examples.plainEnv Examples.segmentsAb Examples.twoResults
        = some (true, Examples.segmentsAb.set_candidates
            [MakeCandidate (Examples.word [97, 98] [120] 100) [97, 98] [120] 200,
             MakeCandidate (Examples.word [97, 98] [121] 200) [97, 98] [121] 100]) ∧
      ∃ appended : List Candidate,
        Examples.segmentsAb.set_candidates
            [MakeCandidate (Examples.word [97, 98] [120] 100) [97, 98] [120] 200,
             MakeCandidate (Examples.word [97, 98] [121] 200) [97, 98] [121] 100]
          = Examples.segmentsAb.set_candidates
            ((Examples.segmentsAb.conversion_segment 0).candidates ++ appended) ∧
        (∃ st, AddPredictionRun Examples.plainEnv Examples.segmentsAb Examples.twoResults
            = some st ∧ appended = st.emitted.map Prod.snd) ∧
        appended.length ≤ Examples.segmentsAb.max_prediction_candidates_size ∧
        appended.length ≤ Examples.twoResults.length :=
  ⟨by decide,
   C2_appended_within_cap Examples.plainEnv Examples.segmentsAb Examples.twoResults true _
    (by decide)⟩

/-- C3 (the code departs from it): at the two results for "ab" with costs 100
and 200 the candidates are appended with costs 200 and 100, in that order, so
the emitted costs decrease. -/
theorem C3_emitted_costs_decrease :
    (AddPredictionToCandidates Examples.plainEnv Examples.segmentsAb Examples.twoResults).map
        (fun out => (out.2.conversion_segment 0).candidates.map Candidate.cost)
      = some [200, 100] ∧
    ¬ List.Pairwise (fun a b : Int => a ≤ b) [200, 100] := by
  constructor
  · decide
  · decide

/-- C4 (the code departs from it): at the two results for "ab", whose costs 100
and 200 are those that `SetCost` computes, the candidate built from the result
of cost 100 gets cost 200 and the one built from the result of cost 200 gets
cost 100; key, value, ids and word cost are the node's. -/
theorem C4_candidate_cost_of_other_result :
    SetCost Examples.plainEnv Examples.segmentsAb Examples.twoResults = Examples.twoResults ∧
    (AddPredictionRun Examples.plainEnv Examples.segmentsAb
        (SetCost Examples.plainEnv Examples.segmentsAb Examples.twoResults)).map
        (fun st => st.emitted)
      = some
        [({ node := Examples.word [97, 98] [120] 100, type := UNIGRAM, cost := 100 },
          { key := [97, 98], value := [120], content_key := [97, 98], content_value := [120],
            lid := 0, rid := 0, wcost := 100, cost := 200, spelling_correction := false }),
         ({ node := Examples.word [97, 98] [121] 200, type := UNIGRAM, cost := 200 },
          { key := [97, 98], value := [121], content_key := [97, 98], content_value := [121],
            lid := 0, rid := 0, wcost := 200, cost := 100, spelling_correction := false })] := by
  constructor
  · decide
  · decide

/-- C5 (the code departs from it): in desktop mode, at ten UNIGRAM results for
the suggestion request "abc", `SetCost` gates the long entry "abcdefgh" as an
aggressive suggestion (cost `INT_MAX`), and `AddPredictionToCandidates` still
builds the tenth candidate from it. -/
theorem C5_gated_result_emitted :
    Examples.plainEnv.mixed_conversion = false ∧
    IsAggressiveSuggestion 3 8 5000 true 10 = true ∧
    (SetCost Examples.plainEnv Examples.segmentsAbc Examples.tenResults).getD 8 default
      = { node := Examples.longWord, type := UNIGRAM, cost := INT_MAX } ∧
    (AddPredictionRun Examples.plainEnv Examples.segmentsAbc
        (RemovePrediction Examples.plainEnv Examples.segmentsAbc
          (SetCost Examples.plainEnv Examples.segmentsAbc Examples.tenResults))).map
        (fun st => (st.emitted.map (fun rc => (rc.1.cost, rc.2.value))).drop 8)
      = some [(900, [57]), (INT_MAX, [71])] := by
  refine ⟨rfl, ?_, ?_, ?_⟩
  · decide
  · decide
  · decide

/-- C6 (the code departs from it): when `Convert` returns false (here without
touching the segments), `PredictForRequest` returns with
`max_prediction_candidates_size` at 6, the value set for the converter, and not
at 10, its value on entry. -/
theorem C6_max_size_not_restored :
    (Examples.plainEnv.Convert
        (Examples.segmentsAb.set_max_prediction_candidates_size 6)).1 = false ∧
    Examples.segmentsAb.max_prediction_candidates_size = 10 ∧
    PredictForRequest Examples.plainEnv { composer := none } (some Examples.segmentsAb)
      = some (false, some (Examples.segmentsAb.set_max_prediction_candidates_size 6)) := by
  refine ⟨rfl, rfl, ?_⟩
  decide

/-- C7: the values of the candidates that one call of
`AddPredictionToCandidates` appends are pairwise distinct. -/
theorem C7_appended_values_distinct (env : Env) (segments : Segments) (results : List Result)
    (b : Bool) (segs1 : Segments)
    (h : AddPredictionToCandidates env segments results = some (b, segs1)) :
    ∃ appended : List Candidate,
      segs1 = segments.set_candidates ((segments.conversion_segment 0).candidates ++ appended) ∧
      (∃ st, AddPredictionRun env segments results = some st ∧
        appended = st.emitted.map Prod.snd) ∧
      (appended.map Candidate.value).Nodup := by
  obtain ⟨st, hrun, _, hsegs⟩ := AddPredictionToCandidates_eq_some env segments results b segs1 h
  obtain ⟨_, hnd⟩ := AddPredictionRun_nodup env segments results st hrun
  refine ⟨st.emitted.map Prod.snd, hsegs, ⟨st, hrun, rfl⟩, ?_⟩
  rw [List.map_map]
  exact hnd

/-- C7, at a concrete input: of three results for "ab" of which two share the
value "x", two candidates with distinct values are appended. -/
theorem C7_appended_values_distinct_witness :
    AddPredictionToCandidates Examples.plainEnv Examples.segmentsAb Examples.duplicateResults
        = some (true, Examples.segmentsAb.set_candidates
            [MakeCandidate (Examples.word [97, 98] [120] 100) [97, 98] [120] 150,
             MakeCandidate (Examples.word [97, 98] [121] 200) [97, 98] [121] 100]) ∧
      ∃ appended : List Candidate,
        Examples.segmentsAb.set_candidates
            [MakeCandidate (Examples.word [97, 98] [120] 100) [97, 98] [120] 150,
             MakeCandidate (Examples.word [97, 98] [121] 200) [97, 98] [121] 100]
          = Examples.segmentsAb.set_candidates
            ((Examples.segmentsAb.conversion_segment 0).candidates ++ appended) ∧
        (∃ st, AddPredictionRun Examples.plainEnv Examples.segmentsAb Examples.duplicateResults
            = some st ∧ appended = st.emitted.map Prod.snd) ∧
        (appended.map Candidate.value).Nodup :=
  ⟨by decide,
   C7_appended_values_distinct Examples.plainEnv Examples.segmentsAb Examples.duplicateResults
    true _ (by decide)⟩

/-- C8: a request of type CONVERSION and segments without a conversion segment
have prediction type `NO_PREDICTION`, and whenever the prediction type is
`NO_PREDICTION`, `PredictForRequest` returns false and leaves the segments as
they were. -/
theorem C8_no_prediction_returns_false (env : Env) (request : ConversionRequest)
    (segments : Segments) :
    ((segments.request_type = RequestType.CONVERSION ∨ segments.conversion_segments_size = 0) →
      GetPredictionType env segments = NO_PREDICTION) ∧
    (GetPredictionType env segments = NO_PREDICTION →
      PredictForRequest env request (some segments) = some (false, some segments)) := by
  constructor
  · intro h
    unfold GetPredictionType
    rcases h with h | h
    · simp [h]
    · simp [h]
  · intro h
    simp [PredictForRequest, AggregatePrediction, h]

/-- C8, at a concrete input: a CONVERSION request that holds a candidate. -/
theorem C8_no_prediction_returns_false_witness :
    (Examples.segmentsConversion.request_type = RequestType.CONVERSION ∨
        Examples.segmentsConversion.conversion_segments_size = 0) ∧
      GetPredictionType Examples.plainEnv Examples.segmentsConversion = NO_PREDICTION ∧
      PredictForRequest Examples.plainEnv { composer := none } (some Examples.segmentsConversion)
        = some (false, some Examples.segmentsConversion) :=
  ⟨Or.inl rfl,
   (C8_no_prediction_returns_false Examples.plainEnv { composer := none }
      Examples.segmentsConversion).1 (Or.inl rfl),
   (C8_no_prediction_returns_false Examples.plainEnv { composer := none }
      Examples.segmentsConversion).2 (by decide)⟩

/-- C9, as amended: when the history value is not empty, every candidate that
`PredictForRequest` emits from a BIGRAM result has a non-empty key and a
non-empty value; its value is the node's value with the leading history value
removed, and its key is the node's key without its first bytes, as many as the
history key has. (Key and value may themselves start with the history key and
value.) The history is that of the segments as aggregation leaves them, which
is the history on entry when the converter only appends candidates. -/
theorem C9_bigram_candidates_stripped (env : Env) (request : ConversionRequest)
    (segments segs1 : Segments) (results : List Result) (st : EmitState)
    (ha : AggregatePrediction env request segments env.default_max_nodes_size []
      = some (true, segs1, results))
    (hrun : AddPredictionRun env segs1 (RemovePrediction env segs1 (SetCost env segs1 results))
      = some st)
    (hhist : (GetHistoryKeyAndValue segs1).2.2 ≠ []) :
    PredictForRequest env request (some segments)
      = some (decide (st.added > 0), some (segs1.set_candidates
          ((segs1.conversion_segment 0).candidates ++ st.emitted.map Prod.snd))) ∧
    (ConvertOnlyAppends env → GetHistoryKeyAndValue segs1 = GetHistoryKeyAndValue segments) ∧
    ∀ rc ∈ st.emitted, rc.1.type.bigram = true →
      rc.2.key ≠ [] ∧ rc.2.value ≠ [] ∧
      (GetHistoryKeyAndValue segs1).2.1.length ≤ rc.1.node.key.length ∧
      rc.2.key = rc.1.node.key.drop (GetHistoryKeyAndValue segs1).2.1.length ∧
      rc.1.node.value = (GetHistoryKeyAndValue segs1).2.2 ++ rc.2.value := by
  refine ⟨?_, ?_, ?_⟩
  · unfold PredictForRequest
    simp only [ha]
    unfold AddPredictionToCandidates
    simp only [hrun]
  · intro hconv
    rcases AggregatePrediction_segments env request segments _ _ _ _ _ ha with
      ⟨_, hb, _⟩ | ⟨_, hs⟩
    · cases hb
    · rw [hs]
      exact GetHistoryKeyAndValue_congr _ _ (AggregateRealtimeConversion_history env hconv _ _ _)
  · intro rc hrc hbig
    have hagg := AggregatePrediction_stripped env request segments _ _ segs1 results hhist ha
    have hcost := SetCost_forall env segs1 (BigramStripped segs1) (fun r c h => h) results hagg
    have hrem := RemovePrediction_forall env segs1 (BigramStripped segs1)
      (BigramStripped_of_not_bigram _ _ rfl) (fun r _ => BigramStripped_of_not_bigram _ _ rfl)
      _ hcost
    obtain ⟨hq, hs⟩ := AddPredictionRun_stripped env segs1 _ st hrem hrun rc hrc
    obtain ⟨hlen, hkey, hsw, hval⟩ := hq hbig
    unfold StrippedKeyValue at hs
    simp only [hbig, ↓reduceIte] at hs
    cases hk : substr rc.1.node.key (GetHistoryKeyAndValue segs1).2.1.length
        (rc.1.node.key.length - (GetHistoryKeyAndValue segs1).2.1.length) with
    | none => rw [hk] at hs; cases hs
    | some key =>
      rw [hk] at hs
      simp only [] at hs
      cases hv : substr rc.1.node.value (GetHistoryKeyAndValue segs1).2.2.length
          (rc.1.node.value.length - (GetHistoryKeyAndValue segs1).2.2.length) with
      | none => rw [hv] at hs; cases hs
      | some value =>
        rw [hv] at hs
        simp only [Option.some.injEq, Prod.mk.injEq] at hs
        obtain ⟨_, hkd⟩ := substr_eq_some _ _ _ hk
        obtain ⟨_, hvd⟩ := substr_eq_some _ _ _ hv
        rw [← hs.1, ← hs.2, hkd, hvd]
        refine ⟨hkey, hval, hlen, rfl, ?_⟩
        unfold StartsWith at hsw
        obtain ⟨t, ht⟩ := List.isPrefixOf_iff_prefix.1 hsw
        rw [← ht, List.drop_left]

/-- C9, at a concrete input: after the history "aaa" / "X" the dictionary
predicts "aaaaaab" / "XXY" for the reading "aaab"; the candidate emitted from
that BIGRAM result has key "aaab" and value "XY". -/
theorem C9_bigram_candidates_stripped_witness :
    AggregatePrediction Examples.historyEnv { composer := none } Examples.segmentsAfterX
        Examples.historyEnv.default_max_nodes_size []
      = some (true, Examples.segmentsAfterX, Examples.bigramAfterX) ∧
    AddPredictionRun Examples.historyEnv Examples.segmentsAfterX
        (RemovePrediction Examples.historyEnv Examples.segmentsAfterX
          (SetCost Examples.historyEnv Examples.segmentsAfterX Examples.bigramAfterX))
      = some Examples.stateAfterX ∧
    (GetHistoryKeyAndValue Examples.segmentsAfterX).2.2 ≠ [] ∧
    (PredictForRequest Examples.historyEnv { composer := none } (some Examples.segmentsAfterX)
      = some (decide (Examples.stateAfterX.added > 0),
          some (Examples.segmentsAfterX.set_candidates
            ((Examples.segmentsAfterX.conversion_segment 0).candidates
              ++ Examples.stateAfterX.emitted.map Prod.snd))) ∧
    (ConvertOnlyAppends Examples.historyEnv →
      GetHistoryKeyAndValue Examples.segmentsAfterX
        = GetHistoryKeyAndValue Examples.segmentsAfterX) ∧
    ∀ rc ∈ Examples.stateAfterX.emitted, rc.1.type.bigram = true →
      rc.2.key ≠ [] ∧ rc.2.value ≠ [] ∧
      (GetHistoryKeyAndValue Examples.segmentsAfterX).2.1.length ≤ rc.1.node.key.length ∧
      rc.2.key = rc.1.node.key.drop (GetHistoryKeyAndValue Examples.segmentsAfterX).2.1.length ∧
      rc.1.node.value = (GetHistoryKeyAndValue Examples.segmentsAfterX).2.2 ++ rc.2.value) :=
  have ha : AggregatePrediction Examples.historyEnv { composer := none } Examples.segmentsAfterX
        Examples.historyEnv.default_max_nodes_size []
      = some (true, Examples.segmentsAfterX, Examples.bigramAfterX) := by decide
  have hrun : AddPredictionRun Examples.historyEnv Examples.segmentsAfterX
        (RemovePrediction Examples.historyEnv Examples.segmentsAfterX
          (SetCost Examples.historyEnv Examples.segmentsAfterX Examples.bigramAfterX))
      = some Examples.stateAfterX := by decide
  have hhist : (GetHistoryKeyAndValue Examples.segmentsAfterX).2.2 ≠ [] := by decide
  ⟨ha, hrun, hhist,
   C9_bigram_candidates_stripped Examples.historyEnv { composer := none }
    Examples.segmentsAfterX Examples.segmentsAfterX Examples.bigramAfterX Examples.stateAfterX
    ha hrun hhist⟩

/-- C9 as stated fails on two counts. After the history "aaa" / "X", the
candidate emitted from the BIGRAM result "aaaaaab" / "XXY" has key "aaab",
which starts with the history key, and value "XY", which starts with the
history value. After the history "aaa" with an empty value, the candidate
emitted from the BIGRAM result "aaa" / "Z" has an empty key. -/
theorem C9_stripped_key_starts_with_history :
    (AggregatePrediction Examples.historyEnv { composer := none } Examples.segmentsAfterX
        Examples.historyEnv.default_max_nodes_size []
      = some (true, Examples.segmentsAfterX, Examples.bigramAfterX) ∧
     (AddPredictionRun Examples.historyEnv Examples.segmentsAfterX
        (RemovePrediction Examples.historyEnv Examples.segmentsAfterX
          (SetCost Examples.historyEnv Examples.segmentsAfterX Examples.bigramAfterX))).map
          (fun st => st.emitted.map (fun rc => (rc.1.type, rc.2.key, rc.2.value)))
      = some [(BIGRAM, [97, 97, 97, 98], [88, 89])] ∧
     GetHistoryKeyAndValue Examples.segmentsAfterX = (true, [97, 97, 97], [88]) ∧
     StartsWith [97, 97, 97, 98] [97, 97, 97] = true ∧ StartsWith [88, 89] [88] = true) ∧
    (AggregatePrediction Examples.historyEnv { composer := none } Examples.segmentsAfterEmpty
        Examples.historyEnv.default_max_nodes_size []
      = some (true, Examples.segmentsAfterEmpty,
          [{ node := Examples.word [97, 97, 97] [90] 20, type := BIGRAM, cost := 0 }]) ∧
     (AddPredictionRun Examples.historyEnv Examples.segmentsAfterEmpty
        (RemovePrediction Examples.historyEnv Examples.segmentsAfterEmpty
          (SetCost Examples.historyEnv Examples.segmentsAfterEmpty
            [{ node := Examples.word [97, 97, 97] [90] 20, type := BIGRAM, cost := 0 }]))).map
          (fun st => st.emitted.map (fun rc => (rc.1.type, rc.2.key, rc.2.value)))
      = some [(BIGRAM, [], [90])] ∧
     GetHistoryKeyAndValue Examples.segmentsAfterEmpty = (true, [97, 97, 97], [])) := by
  refine ⟨⟨?_, ?_, ?_, ?_, ?_⟩, ⟨?_, ?_, ?_⟩⟩ <;> decide

/-- C10: provided the converter only appends candidates, the candidates that
conversion segment 0 holds on entry of `PredictForRequest` are on return still
its first candidates, unchanged and in the same order. -/
theorem C10_entry_candidates_kept (env : Env) (request : ConversionRequest) (segments : Segments)
    (b : Bool) (segs2 : Segments) (hconv : ConvertOnlyAppends env)
    (h : PredictForRequest env request (some segments) = some (b, some segs2)) :
    ∃ appended : List Candidate, (segs2.conversion_segment 0).candidates
      = (segments.conversion_segment 0).candidates ++ appended := by
  rcases PredictForRequest_cases env request segments b segs2 h with
    ⟨results, ha, _⟩ | ⟨segs1, results, ha, hp⟩
  · rcases AggregatePrediction_segments env request segments _ _ _ _ _ ha with
      ⟨_, _, hs⟩ | ⟨_, hs⟩
    · exact ⟨[], by rw [hs, List.append_nil]⟩
    · rw [hs]
      exact (AggregateRealtimeConversion_frame env hconv _ segments []).2.1
  · rcases AggregatePrediction_segments env request segments _ _ _ _ _ ha with
      ⟨_, hb, _⟩ | ⟨hty, hs⟩
    · cases hb
    · obtain ⟨hnil, ⟨app1, happ1⟩, _⟩ := AggregateRealtimeConversion_frame env hconv
        (GetPredictionType env segments) segments []
      rw [← hs] at hnil happ1
      obtain ⟨st, _, _, hsegs⟩ := AddPredictionToCandidates_eq_some env segs1 _ b segs2 hp
      have hne : ¬ segs1.conversion_segments = [] := fun hc =>
        GetPredictionType_conversion_segments env segments hty (hnil.1 hc)
      refine ⟨app1 ++ st.emitted.map Prod.snd, ?_⟩
      rw [hsegs, Segments.candidates_set_candidates, if_neg hne, happ1, List.append_assoc]

/-- C10, at a concrete input: the converter appends "AB", the segment holds "x"
on entry and "x" followed by the emitted candidate on return. -/
theorem C10_entry_candidates_kept_witness :
    ConvertOnlyAppends Examples.convertingEnv ∧
    PredictForRequest Examples.convertingEnv { composer := none } (some Examples.segmentsAbHeld)
      = some (true, some (Examples.segmentsAbHeld.set_candidates
          [Examples.heldCandidate, Examples.realtimeCandidate])) ∧
    ∃ appended : List Candidate,
      ((Examples.segmentsAbHeld.set_candidates
          [Examples.heldCandidate, Examples.realtimeCandidate]).conversion_segment 0).candidates
        = (Examples.segmentsAbHeld.conversion_segment 0).candidates ++ appended :=
  have hconv : ConvertOnlyAppends Examples.convertingEnv := fun _ =>
    ⟨[Examples.realtimeCandidate], rfl⟩
  ⟨hconv, by decide,
   C10_entry_candidates_kept Examples.convertingEnv { composer := none } Examples.segmentsAbHeld
    true _ hconv (by decide)⟩

/-- C11: for segments that are not of type CONVERSION and have a conversion
segment, `GetPredictionType` includes REALTIME if and only if the request type
is PARTIAL_SUGGESTION, or `use_realtime_conversion` or `mixed_conversion` holds
and the byte length of the conversion key is strictly between 0 and 300. -/
theorem C11_realtime_iff (env : Env) (segments : Segments)
    (h1 : segments.request_type ≠ RequestType.CONVERSION)
    (h2 : segments.conversion_segments_size ≥ 1) :
    (GetPredictionType env segments).realtime = true ↔
      (segments.request_type = RequestType.PARTIAL_SUGGESTION ∨
        ((env.use_realtime_conversion = true ∨ env.mixed_conversion = true) ∧
          0 < (segments.conversion_segment 0).key.length ∧
          (segments.conversion_segment 0).key.length < 300)) := by
  have h2' : ¬ segments.conversion_segments_size < 1 := by omega
  rw [GetPredictionType_realtime, if_neg h1, if_neg h2']
  by_cases hp : segments.request_type = RequestType.PARTIAL_SUGGESTION
  · simp [hp]
  · rw [if_neg hp]
    simp only [hp, false_or, Bool.and_eq_true, Bool.or_eq_true, decide_eq_true_eq,
      gt_iff_lt, and_assoc]

/-- C11, at a concrete input: a prediction request for "ab" with
`use_realtime_conversion` on includes REALTIME. -/
theorem C11_realtime_iff_witness :
    Examples.segmentsAb.request_type ≠ RequestType.CONVERSION ∧
    Examples.segmentsAb.conversion_segments_size ≥ 1 ∧
    (GetPredictionType Examples.plainEnv Examples.segmentsAb).realtime = true ∧
    ((GetPredictionType Examples.plainEnv Examples.segmentsAb).realtime = true ↔
      (Examples.segmentsAb.request_type = RequestType.PARTIAL_SUGGESTION ∨
        ((Examples.plainEnv.use_realtime_conversion = true ∨
            Examples.plainEnv.mixed_conversion = true) ∧
          0 < (Examples.segmentsAb.conversion_segment 0).key.length ∧
          (Examples.segmentsAb.conversion_segment 0).key.length < 300))) :=
  ⟨by decide, by decide, by decide,
   C11_realtime_iff Examples.plainEnv Examples.segmentsAb (by decide) (by decide)⟩

/-- C12: `GetPredictionType` sets none of UNIGRAM, BIGRAM and SUFFIX when the
request type is SUGGESTION and `use_dictionary_suggest` is off, when the key is
empty and `zero_query_suggestion` is off, and when the request type is
SUGGESTION and the key has fewer than 6 characters and is accepted by
`IsZipCodeRequest`. -/
theorem C12_early_return_sets_no_dictionary_bit (env : Env) (segments : Segments)
    (h : (segments.request_type = RequestType.SUGGESTION ∧ env.use_dictionary_suggest = false) ∨
      ((segments.conversion_segment 0).key = [] ∧ env.zero_query_suggestion = false) ∨
      (segments.request_type = RequestType.SUGGESTION ∧
        CharsLen (segments.conversion_segment 0).key < 6 ∧
        IsZipCodeRequest (segments.conversion_segment 0).key = true)) :
    (GetPredictionType env segments).unigram = false ∧
    (GetPredictionType env segments).bigram = false ∧
    (GetPredictionType env segments).suffix = false := by
  have hearly : ReturnsEarly env segments = true := by
    unfold ReturnsEarly
    rcases h with ⟨h1, h2⟩ | ⟨h1, h2⟩ | ⟨h1, h2, h3⟩
    · simp [h1, h2]
    · have hlen : CharsLen (segments.conversion_segment 0).key = 0 := by rw [h1]; rfl
      simp [hlen, h2]
    · simp [h1, h2, h3]
  rw [GetPredictionType_unigram, GetPredictionType_bigram, GetPredictionType_suffix, hearly]
  exact ⟨rfl, rfl, rfl⟩

/-- C12, at concrete inputs: a suggestion request for "abc" without dictionary
suggest, a request for the empty reading without zero-query suggestion, and a
suggestion request for "123-4". -/
theorem C12_early_return_sets_no_dictionary_bit_witness :
    ((Examples.segmentsAbc.request_type = RequestType.SUGGESTION ∧
        Examples.noDictionaryEnv.use_dictionary_suggest = false) ∧
      GetPredictionType Examples.noDictionaryEnv Examples.segmentsAbc = REALTIME ∧
      (GetPredictionType Examples.noDictionaryEnv Examples.segmentsAbc).unigram = false ∧
      (GetPredictionType Examples.noDictionaryEnv Examples.segmentsAbc).bigram = false ∧
      (GetPredictionType Examples.noDictionaryEnv Examples.segmentsAbc).suffix = false) ∧
    (((Examples.segmentsEmptyKey.conversion_segment 0).key = [] ∧
        Examples.plainEnv.zero_query_suggestion = false) ∧
      (GetPredictionType Examples.plainEnv Examples.segmentsEmptyKey).unigram = false ∧
      (GetPredictionType Examples.plainEnv Examples.segmentsEmptyKey).bigram = false ∧
      (GetPredictionType Examples.plainEnv Examples.segmentsEmptyKey).suffix = false) ∧
    ((Examples.segmentsZip.request_type = RequestType.SUGGESTION ∧
        CharsLen (Examples.segmentsZip.conversion_segment 0).key < 6 ∧
        IsZipCodeRequest (Examples.segmentsZip.conversion_segment 0).key = true) ∧
      (GetPredictionType Examples.plainEnv Examples.segmentsZip).unigram = false ∧
      (GetPredictionType Examples.plainEnv Examples.segmentsZip).bigram = false ∧
      (GetPredictionType Examples.plainEnv Examples.segmentsZip).suffix = false) :=
  ⟨⟨by decide, by decide,
    C12_early_return_sets_no_dictionary_bit Examples.noDictionaryEnv Examples.segmentsAbc
      (Or.inl (by decide))⟩,
   ⟨by decide,
    C12_early_return_sets_no_dictionary_bit Examples.plainEnv Examples.segmentsEmptyKey
      (Or.inr (Or.inl (by decide)))⟩,
   ⟨by decide,
    C12_early_return_sets_no_dictionary_bit Examples.plainEnv Examples.segmentsZip
      (Or.inr (Or.inr (by decide)))⟩⟩

/-- C13: when `GetPredictionType` reaches the unigram decision (none of its
early returns is taken), UNIGRAM is set if and only if the request type is
PREDICTION and the key has at least one character, or the key has at least 1
character with `zero_query_suggestion` and at least 3 without. -/
theorem C13_unigram_iff (env : Env) (segments : Segments)
    (h : ReturnsEarly env segments = false) :
    (GetPredictionType env segments).unigram = true ↔
      ((segments.request_type = RequestType.PREDICTION ∧
          CharsLen (segments.conversion_segment 0).key ≥ 1) ∨
        CharsLen (segments.conversion_segment 0).key
          ≥ (if env.zero_query_suggestion = true then 1 else 3)) := by
  rw [GetPredictionType_unigram, h]
  simp only [Bool.not_false, Bool.true_and, Bool.or_eq_true, Bool.and_eq_true,
    decide_eq_true_eq]

/-- C13, at a concrete input: a prediction request for "ab" (two characters,
no zero-query suggestion) sets UNIGRAM. -/
theorem C13_unigram_iff_witness :
    ReturnsEarly Examples.plainEnv Examples.segmentsAb = false ∧
    (GetPredictionType Examples.plainEnv Examples.segmentsAb).unigram = true ∧
    ((GetPredictionType Examples.plainEnv Examples.segmentsAb).unigram = true ↔
      ((Examples.segmentsAb.request_type = RequestType.PREDICTION ∧
          CharsLen (Examples.segmentsAb.conversion_segment 0).key ≥ 1) ∨
        CharsLen (Examples.segmentsAb.conversion_segment 0).key
          ≥ (if Examples.plainEnv.zero_query_suggestion = true then 1 else 3))) :=
  ⟨by decide, by decide, C13_unigram_iff Examples.plainEnv Examples.segmentsAb (by decide)⟩

/-- C14, as amended: when `GetPredictionType` reaches the bigram decision (none
of its early returns is taken), BIGRAM is set whenever the last history segment
has a top candidate whose key has at least 2 characters with
`zero_query_suggestion` and at least 3 without. -/
theorem C14_bigram_of_last_history (env : Env) (segments : Segments)
    (h : ReturnsEarly env segments = false)
    (hlast : ∃ segment candidate, segments.history_segments.getLast? = some segment ∧
      segment.candidates.head? = some candidate ∧
      CharsLen candidate.key ≥ (if env.zero_query_suggestion = true then 2 else 3)) :
    (GetPredictionType env segments).bigram = true := by
  obtain ⟨segment, candidate, hseg, hcand, hlen⟩ := hlast
  have hne : segments.history_segments ≠ [] := by
    intro hnil; rw [hnil] at hseg; cases hseg
  have hsize : segments.history_segments_size > 0 := by
    unfold Segments.history_segments_size
    exact List.length_pos.2 hne
  have hsegment : segments.history_segment (segments.history_segments_size - 1) = segment := by
    unfold Segments.history_segment Segments.history_segments_size
    rw [List.getLast?_eq_getElem?] at hseg
    rw [List.getD_eq_getElem?_getD, hseg]
    rfl
  have hc : segment.candidates.length > 0 ∧ segment.candidates.getD 0 default = candidate := by
    cases hcs : segment.candidates with
    | nil => rw [hcs] at hcand; cases hcand
    | cons c rest =>
      rw [hcs] at hcand
      simp only [List.head?_cons, Option.some.injEq] at hcand
      exact ⟨by simp, by rw [← hcand]; rfl⟩
  rw [GetPredictionType_bigram, h, hsegment, hc.2]
  simp only [Bool.not_false, Bool.true_and, Bool.and_eq_true, decide_eq_true_eq]
  exact ⟨hsize, hc.1, hlen⟩

/-- C14, at a concrete input: after the history "aaa" / "X" a prediction
request for "aaab" sets BIGRAM. -/
theorem C14_bigram_of_last_history_witness :
    ReturnsEarly Examples.plainEnv Examples.segmentsAfterX = false ∧
    (∃ segment candidate, Examples.segmentsAfterX.history_segments.getLast? = some segment ∧
      segment.candidates.head? = some candidate ∧
      CharsLen candidate.key
        ≥ (if Examples.plainEnv.zero_query_suggestion = true then 2 else 3)) ∧
    (GetPredictionType Examples.plainEnv Examples.segmentsAfterX).bigram = true :=
  have hlast : ∃ segment candidate,
      Examples.segmentsAfterX.history_segments.getLast? = some segment ∧
      segment.candidates.head? = some candidate ∧
      CharsLen candidate.key
        ≥ (if Examples.plainEnv.zero_query_suggestion = true then 2 else 3) :=
    ⟨_, _, rfl, rfl, by decide⟩
  ⟨by decide, hlast,
   C14_bigram_of_last_history Examples.plainEnv Examples.segmentsAfterX (by decide) hlast⟩

/-- C14 as stated fails: with two history segments, the first with top
candidate key "aaa" (3 characters) and the last with top candidate key "a",
`GetPredictionType` reaches the bigram decision and does not set BIGRAM. -/
theorem C14_earlier_history_not_looked_at :
    ReturnsEarly Examples.plainEnv Examples.segmentsTwoHistories = false ∧
    (∃ segment ∈ Examples.segmentsTwoHistories.history_segments, ∃ candidate,
      segment.candidates.head? = some candidate ∧
      CharsLen candidate.key
        ≥ (if Examples.plainEnv.zero_query_suggestion = true then 2 else 3)) ∧
    (GetPredictionType Examples.plainEnv Examples.segmentsTwoHistories).bigram = false := by
  refine ⟨by decide, ?_, by decide⟩
  exact ⟨_, List.mem_cons_self _ _, _, rfl, by decide⟩

/-- C15: `GetRealtimeCandidateMaxSize(segments, mixed, budget)` is
`min(max_size, size)` with `max_size`, `default_size` and `size` as the
specification gives them (the difference `max_size - default_size` being the
`size_t` difference, which is the plain difference when `default_size` is at
most `max_size`), and the result never exceeds `budget`. -/
theorem C15_realtime_candidate_max_size (segments : Segments) (mixed : Bool) (budget : Nat) :
    GetRealtimeCandidateMaxSize segments mixed budget
      = RealtimeCandidateMaxSizeSpec
          (decide (segments.segments_size > 0 ∧ CharsLen (segments.segment 0).key ≥ 8))
          segments.request_type mixed budget ∧
    GetRealtimeCandidateMaxSize segments mixed budget ≤ budget ∧
    (∀ max_size default_size : Nat, default_size ≤ max_size →
      max_size < 18446744073709551616 → size_sub max_size default_size = max_size - default_size) := by
  refine ⟨?_, ?_, fun a b h1 h2 => size_sub_of_le a b h1 h2⟩
  · unfold GetRealtimeCandidateMaxSize RealtimeCandidateMaxSizeSpec
    cases segments.request_type <;> cases mixed <;> rfl
  · unfold GetRealtimeCandidateMaxSize
    simp only []
    refine le_trans (Nat.min_le_left _ _) ?_
    split_ifs
    · exact Nat.min_le_left _ _
    · exact le_refl _

/-- C15, at concrete inputs: for the short key "ab" and budget 10 a prediction
request gets 6 (4 in mixed mode) and a suggestion request for "abc" gets 1 (6
in mixed mode); the plain difference applies to `max_size = 10` and
`default_size = 6`. -/
theorem C15_realtime_candidate_max_size_witness :
    GetRealtimeCandidateMaxSize Examples.segmentsAb false 10 = 6 ∧
    GetRealtimeCandidateMaxSize Examples.segmentsAb true 10 = 4 ∧
    GetRealtimeCandidateMaxSize Examples.segmentsAbc false 10 = 1 ∧
    GetRealtimeCandidateMaxSize Examples.segmentsAbc true 10 = 6 ∧
    (6 : Nat) ≤ 10 ∧ (10 : Nat) < 18446744073709551616 ∧ size_sub 10 6 = 10 - 6 :=
  ⟨by decide, by decide, by decide, by decide, by decide, by decide,
   (C15_realtime_candidate_max_size Examples.segmentsAb true 10).2.2 10 6 (by decide)
    (by decide)⟩

/-- C16: for a key that is the UTF-8 encoding of the code points `cps`,
`GetMissSpelledPosition(key, value)` is `CharsLen(key)` when
`KatakanaToHiragana(value)` is not pure hiragana; otherwise it is the smallest
index at which the code points of the converted value and of the key differ,
and `CharsLen(key)` when the two agree on their whole common length. -/
theorem C16_miss_spelled_position (env : Env) (key value : Str) (cps : List Nat)
    (hkey : key = cps.flatMap encodeChar) (hvalid : ∀ c ∈ cps, c < 0x110000) :
    Chars32 key = cps ∧ CharsLen key = cps.length ∧
    (env.GetScriptType (env.KatakanaToHiragana value) ≠ ScriptType.HIRAGANA →
      GetMissSpelledPosition env key value = CharsLen key) ∧
    (env.GetScriptType (env.KatakanaToHiragana value) = ScriptType.HIRAGANA →
      (∀ p : Nat, p < (Chars32 (env.KatakanaToHiragana value)).length → p < cps.length →
        (Chars32 (env.KatakanaToHiragana value)).getD p 0 ≠ cps.getD p 0 →
        (∀ j, j < p → (Chars32 (env.KatakanaToHiragana value)).getD j 0 = cps.getD j 0) →
        GetMissSpelledPosition env key value = p) ∧
      ((∀ j, j < (Chars32 (env.KatakanaToHiragana value)).length → j < cps.length →
          (Chars32 (env.KatakanaToHiragana value)).getD j 0 = cps.getD j 0) →
        GetMissSpelledPosition env key value = CharsLen key)) := by
  have h32 : Chars32 key = cps := by rw [hkey]; exact Chars32_flatMap cps hvalid
  have hlen : CharsLen key = cps.length := by rw [hkey]; exact CharsLen_flatMap cps hvalid
  refine ⟨h32, hlen, ?_, ?_⟩
  · intro hn
    unfold GetMissSpelledPosition
    simp only []
    rw [if_pos hn]
  · intro hh
    have hloop : GetMissSpelledPosition env key value
        = MissSpelledLoop (Chars32 (env.KatakanaToHiragana value)) cps 0 := by
      unfold GetMissSpelledPosition
      simp only []
      rw [if_neg (not_not.mpr hh), h32]
    refine ⟨?_, ?_⟩
    · intro p h1 h2 hne hbefore
      rw [hloop, MissSpelledLoop_mismatch _ _ 0 p h1 h2 hne hbefore, Nat.zero_add]
    · intro hall
      rw [hloop, MissSpelledLoop_agree _ _ 0 hall, Nat.zero_add, hlen]

/-- C16, at the key れみおめろん and the value レミオロメン, whose conversion
れみおろめん is pure hiragana and first differs from the key at index 3: the
position is 3; and it is 0 for two empty strings. -/
theorem C16_miss_spelled_position_witness :
    utf8 "れみおめろん" = [0x308C, 0x307F, 0x304A, 0x3081, 0x308D, 0x3093].flatMap encodeChar ∧
    (∀ c ∈ [0x308C, 0x307F, 0x304A, 0x3081, 0x308D, 0x3093], c < 0x110000) ∧
    Examples.kanaEnv.GetScriptType (Examples.kanaEnv.KatakanaToHiragana (utf8 "レミオロメン"))
      = ScriptType.HIRAGANA ∧
    Examples.kanaEnv.KatakanaToHiragana (utf8 "レミオロメン") = utf8 "れみおろめん" ∧
    GetMissSpelledPosition Examples.kanaEnv (utf8 "れみおめろん") (utf8 "レミオロメン") = 3 ∧
    GetMissSpelledPosition Examples.kanaEnv [] [] = 0 ∧
    CharsLen (utf8 "れみおめろん") = 6 :=
  ⟨by decide, by decide, by decide, by decide,
   ((C16_miss_spelled_position Examples.kanaEnv (utf8 "れみおめろん") (utf8 "レミオロメン")
      [0x308C, 0x307F, 0x304A, 0x3081, 0x308D, 0x3093] (by decide) (by decide)).2.2.2
      (by decide)).1 3 (by decide) (by decide) (by decide) (by decide),
   by decide,
   (C16_miss_spelled_position Examples.kanaEnv (utf8 "れみおめろん") (utf8 "レミオロメン")
      [0x308C, 0x307F, 0x304A, 0x3081, 0x308D, 0x3093] (by decide) (by decide)).2.1⟩

/-- C17: `ApplyPenaltyForKeyExpansion` changes nothing but costs: a result whose
node key starts with the conversion key keeps its cost, and every other result
gets its cost plus 1151 (the `int` sum, which is the exact sum while it fits in
an `int`). -/
theorem C17_key_expansion_penalty (segments : Segments) (results : List Result) :
    ApplyPenaltyForKeyExpansion segments results
      = results.map (KeyExpansionPenaltySpec (segments.conversion_segment 0).key) ∧
    (∀ r : Result, StartsWith r.node.key (segments.conversion_segment 0).key = true →
      KeyExpansionPenaltySpec (segments.conversion_segment 0).key r = r) ∧
    (∀ r : Result, StartsWith r.node.key (segments.conversion_segment 0).key = false →
      -2147483648 ≤ r.cost → r.cost + 1151 ≤ 2147483647 →
      KeyExpansionPenaltySpec (segments.conversion_segment 0).key r
        = { r with cost := r.cost + 1151 }) := by
  refine ⟨?_, ?_, ?_⟩
  · unfold ApplyPenaltyForKeyExpansion
    by_cases h0 : segments.conversion_segments_size = 0
    · rw [if_pos h0]
      have hk : (segments.conversion_segment 0).key = [] := by
        unfold Segments.conversion_segments_size at h0
        unfold Segments.conversion_segment
        rw [List.length_eq_zero.mp h0]
        rfl
      rw [hk]
      have hid : KeyExpansionPenaltySpec [] = id := by
        funext r
        unfold KeyExpansionPenaltySpec
        rw [if_pos (StartsWith_nil _)]
        rfl
      rw [hid, List.map_id]
    · rw [if_neg h0]
      apply List.map_congr_left
      intro r _
      unfold KeyExpansionPenaltySpec kKeyExpansionPenalty
      cases StartsWith r.node.key (segments.conversion_segment 0).key <;> rfl
  · intro r h
    unfold KeyExpansionPenaltySpec
    rw [if_pos h]
  · intro r h h1 h2
    unfold KeyExpansionPenaltySpec
    rw [if_neg (by rw [h]; exact Bool.false_ne_true), wrap32_of_range _ (by omega) (by omega)]

/-- C17, at the conversion key あ: of two results of cost 3000 with the node keys
あい and かい the first keeps 3000 and the second ends at 4151, 1151 above. -/
theorem C17_key_expansion_penalty_witness :
    (ApplyPenaltyForKeyExpansion Examples.segmentsA Examples.expandedResults).map Result.cost
      = [3000, 3000 + 1151] ∧
    StartsWith (utf8 "かい") (Examples.segmentsA.conversion_segment 0).key = false ∧
    (-2147483648 : Int) ≤ 3000 ∧ (3000 : Int) + 1151 ≤ 2147483647 ∧
    KeyExpansionPenaltySpec (Examples.segmentsA.conversion_segment 0).key
        { node := Examples.word (utf8 "かい") (utf8 "貝") 3000, type := UNIGRAM, cost := 3000 }
      = { node := Examples.word (utf8 "かい") (utf8 "貝") 3000, type := UNIGRAM,
          cost := 3000 + 1151 } :=
  ⟨by decide, by decide, by decide, by decide,
   (C17_key_expansion_penalty Examples.segmentsA Examples.expandedResults).2.2
     { node := Examples.word (utf8 "かい") (utf8 "貝") 3000, type := UNIGRAM, cost := 3000 }
     (by decide) (by decide) (by decide)⟩

/-- C18: `SetLMCost` changes nothing but costs and sets the cost of each result
to `lm_cost`, plus 1956 for a UNIGRAM result whose node key has more characters
than the input key, plus `1347 - prev_cost` for a BIGRAM result (the `int` sum,
which is the exact sum while it fits in an `int`); `lm_cost` is
`GetLMCost(type, node, rid)` with the `rid` of the history top candidate, and
`prev_cost` is the cost of the history top candidate, 5000 when that is 0. In
mixed mode `SetCost` assigns these costs before the key-expansion penalty. -/
theorem C18_lm_cost (env : Env) (segments : Segments) (results : List Result) :
    SetLMCost env segments results
      = results.map (fun r => { r with cost := wrap32 (LMCostSpec env segments r) }) ∧
    (∀ r : Result, -2147483648 ≤ LMCostSpec env segments r →
      LMCostSpec env segments r ≤ 2147483647 →
      (SetLMCostOne env segments r).cost = LMCostSpec env segments r) ∧
    (∀ (segment : Segment) (candidate : Candidate),
      segments.history_segments.getLast? = some segment →
      segment.candidates.head? = some candidate →
      HistoryRid segments = candidate.rid ∧
      HistoryPrevCost segments = if candidate.cost = 0 then 5000 else candidate.cost) ∧
    (env.mixed_conversion = true →
      SetCost env segments results
        = ApplyPenaltyForKeyExpansion segments (SetLMCost env segments results)) := by
  refine ⟨?_, ?_, ?_, ?_⟩
  · unfold SetLMCost
    apply List.map_congr_left
    intro r _
    exact SetLMCostOne_eq env segments r
  · intro r h1 h2
    rw [SetLMCostOne_eq]
    exact wrap32_of_range _ h1 h2
  · intro segment candidate hs hc
    have hne : segments.history_segments ≠ [] := by
      intro h; rw [h] at hs; cases hs
    have hlen : segments.history_segments.length > 0 := List.length_pos.mpr hne
    have hseg : segments.history_segment (segments.history_segments_size - 1) = segment := by
      unfold Segments.history_segment Segments.history_segments_size
      rw [List.getLast?_eq_getElem?] at hs
      rw [List.getD_eq_getElem?_getD, hs]
      rfl
    have hcne : segment.candidates ≠ [] := by
      intro h; rw [h] at hc; cases hc
    have hclen : segment.candidates.length > 0 := List.length_pos.mpr hcne
    have hcand : segment.candidates.getD 0 default = candidate := by
      cases hcs : segment.candidates with
      | nil => exact absurd hcs hcne
      | cons c cs =>
        rw [hcs] at hc
        simp only [List.head?_cons, Option.some.injEq] at hc
        rw [← hc]
        rfl
    unfold HistoryRid HistoryPrevCost
    simp only [Segments.history_segments_size, hlen, if_true]
    simp only [Segments.history_segments_size] at hseg
    rw [hseg]
    simp only [hclen, if_true, hcand, and_self]
  · intro hm
    unfold SetCost
    rw [hm]
    rfl

/-- C18, at the input key ねこ in mixed mode: the UNIGRAM node ねこ with lm cost
3000 gets 3000 and the UNIGRAM node ねこまんま with lm cost 3000 gets 4956. -/
theorem C18_lm_cost_witness :
    (Examples.nekoResults.map
      (fun r => GetLMCost Examples.mixedEnv r.type r.node (HistoryRid Examples.segmentsNeko)))
      = [3000, 3000] ∧
    (SetLMCost Examples.mixedEnv Examples.segmentsNeko Examples.nekoResults).map Result.cost
      = [3000, 4956] ∧
    (-2147483648 : Int) ≤ LMCostSpec Examples.mixedEnv Examples.segmentsNeko
        { node := Examples.word (utf8 "ねこまんま") (utf8 "猫まんま") 3000, type := UNIGRAM,
          cost := 0 } ∧
    LMCostSpec Examples.mixedEnv Examples.segmentsNeko
        { node := Examples.word (utf8 "ねこまんま") (utf8 "猫まんま") 3000, type := UNIGRAM,
          cost := 0 } ≤ 2147483647 ∧
    (SetLMCostOne Examples.mixedEnv Examples.segmentsNeko
        { node := Examples.word (utf8 "ねこまんま") (utf8 "猫まんま") 3000, type := UNIGRAM,
          cost := 0 }).cost
      = LMCostSpec Examples.mixedEnv Examples.segmentsNeko
        { node := Examples.word (utf8 "ねこまんま") (utf8 "猫まんま") 3000, type := UNIGRAM,
          cost := 0 } :=
  ⟨by decide, by decide, by decide, by decide,
   (C18_lm_cost Examples.mixedEnv Examples.segmentsNeko Examples.nekoResults).2.1 _
     (by decide) (by decide)⟩

/-- C19: when SUFFIX is selected, the key of the last history segment consists
only of ASCII digits and the conversion key is empty, `AggregateSuffixPrediction`
appends exactly one SUFFIX result per suffix of the table row whose trigger is
the history key, followed by those of the default row, in table order; the i-th
appended node (from 0) has `key = value =` that suffix, `lid = rid =
counter_suffix_word_id` and `wcost = 10 * i`, so the word costs are strictly
ascending. The table has few enough suffixes for every `10 * i` to be an `int`. -/
theorem C19_number_suffixes (env : Env) (type : PredictionType) (request : ConversionRequest)
    (segments : Segments) (max_nodes_size : Nat) (results : List Result) (history : Segment)
    (hsuffix : type.suffix = true)
    (hlast : segments.history_segments.getLast? = some history)
    (hnumber : IsNumber history.key = true)
    (hkey : (segments.conversion_segment 0).key = [])
    (hsmall : 10 * (RowSuffixes env.ZeroQueryNum history.key
                ++ RowSuffixes env.ZeroQueryNum kDefault).length ≤ 2147483647) :
    AggregateSuffixPrediction env type request segments max_nodes_size results
      = results ++ (RowSuffixes env.ZeroQueryNum history.key
                      ++ RowSuffixes env.ZeroQueryNum kDefault).enum.map
          (fun p => CounterSuffixResultSpec env.counter_suffix_word_id p.1 p.2) ∧
    List.Pairwise (fun a b : Result => a.node.wcost < b.node.wcost)
      ((RowSuffixes env.ZeroQueryNum history.key
          ++ RowSuffixes env.ZeroQueryNum kDefault).enum.map
        (fun p => CounterSuffixResultSpec env.counter_suffix_word_id p.1 p.2)) := by
  refine ⟨?_, CounterSuffix_ascending _ _ 0⟩
  have hne : segments.history_segments ≠ [] := by
    intro h; rw [h] at hlast; cases hlast
  have hlen : segments.history_segments_size ≠ 0 := by
    unfold Segments.history_segments_size
    exact fun h => hne (List.length_eq_zero.mp h)
  have hseg : segments.history_segment (segments.history_segments_size - 1) = history := by
    unfold Segments.history_segment Segments.history_segments_size
    rw [List.getLast?_eq_getElem?] at hlast
    rw [List.getD_eq_getElem?_getD, hlast]
    rfl
  unfold AggregateSuffixPrediction
  simp only [hsuffix, Bool.not_true, Bool.false_eq_true, if_false, hlen, ne_eq,
    not_false_eq_true, if_true, hseg, hnumber, hkey, List.length_nil, decide_True,
    Bool.and_self]
  rw [GetNumberSuffixArray_eq _ _ (IsNumber_ne_kDefault _ hnumber),
    NumberSuffixResults_small _ _ hsmall]

/-- C19, at the table with the row 123 → 円, 本 and the default row 個, after the
committed number 123: the appended nodes are 円, 本 and 個 with the word costs
0, 10 and 20 and the ids 7. -/
theorem C19_number_suffixes_witness :
    SUFFIX.suffix = true ∧
    Examples.segmentsAfterNumber.history_segments.getLast?
      = some { key := utf8 "123", candidates := [] } ∧
    IsNumber (utf8 "123") = true ∧
    (Examples.segmentsAfterNumber.conversion_segment 0).key = [] ∧
    10 * (RowSuffixes Examples.counterEnv.ZeroQueryNum (utf8 "123")
            ++ RowSuffixes Examples.counterEnv.ZeroQueryNum kDefault).length ≤ 2147483647 ∧
    (AggregateSuffixPrediction Examples.counterEnv SUFFIX { composer := none } Examples.segmentsAfterNumber 100
        []).map (fun r => (r.node.key, r.node.value, r.node.lid, r.node.rid, r.node.wcost))
      = [(utf8 "円", utf8 "円", 7, 7, 0), (utf8 "本", utf8 "本", 7, 7, 10),
         (utf8 "個", utf8 "個", 7, 7, 20)] ∧
    AggregateSuffixPrediction Examples.counterEnv SUFFIX { composer := none } Examples.segmentsAfterNumber 100 []
      = [] ++ (RowSuffixes Examples.counterEnv.ZeroQueryNum (utf8 "123")
                ++ RowSuffixes Examples.counterEnv.ZeroQueryNum kDefault).enum.map
          (fun p => CounterSuffixResultSpec Examples.counterEnv.counter_suffix_word_id p.1 p.2) :=
  ⟨by decide, by decide, by decide, by decide, by decide, by decide,
   (C19_number_suffixes Examples.counterEnv SUFFIX { composer := none } Examples.segmentsAfterNumber 100 []
      { key := utf8 "123", candidates := [] } (by decide) (by decide) (by decide) (by decide)
      (by decide)).1⟩

/-- C20, as amended: for `key_len` below 3 * 2^50 = 3377699720527872,
`IsAggressiveSuggestion(query_len, key_len, cost, is_suggestion, total)` is true
if and only if `is_suggestion` and `total >= 10` and `key_len >= 8` and
`cost >= 5000` and `query_len <= floor(0.4 * key_len)` with the product taken
exactly, which is `2 * key_len / 5` in integer division; the bound is
inclusive. -/
theorem C20_aggressive_suggestion_iff (query_len key_len : Nat) (cost : Int)
    (is_suggestion : Bool) (total : Nat) (hk : key_len < 3377699720527872) :
    (IsAggressiveSuggestion query_len key_len cost is_suggestion total = true ↔
      is_suggestion = true ∧ total ≥ 10 ∧ key_len ≥ 8 ∧ cost ≥ 5000 ∧
        query_len ≤ 2 * key_len / 5) ∧
    ⌊(2 / 5 : ℚ) * (key_len : ℚ)⌋₊ = 2 * key_len / 5 ∧
    PointFourTimes key_len = 2 * key_len / 5 := by
  refine ⟨?_, ?_, PointFourTimes_eq key_len hk⟩
  · unfold IsAggressiveSuggestion
    rw [PointFourTimes_eq key_len hk]
    simp only [Bool.and_eq_true, decide_eq_true_eq, and_assoc]
  · have h : (2 / 5 : ℚ) * (key_len : ℚ) = ((2 * key_len : ℕ) : ℚ) / ((5 : ℕ) : ℚ) := by
      push_cast
      ring
    rw [h, Nat.floor_div_eq_div]

/-- C20, at `key_len = 10`, `query_len = 4`, `cost = 5000`, `total = 10`: the gate
fires, and it does not fire for `query_len = 5`. -/
theorem C20_aggressive_suggestion_iff_witness :
    (10 : Nat) < 3377699720527872 ∧
    IsAggressiveSuggestion 4 10 5000 true 10 = true ∧
    IsAggressiveSuggestion 5 10 5000 true 10 = false ∧
    PointFourTimes 10 = 4 :=
  ⟨by decide,
   (C20_aggressive_suggestion_iff 4 10 5000 true 10 (by decide)).1.mpr
     ⟨rfl, by decide, by decide, by decide, by decide⟩,
   by decide, by decide⟩

/-- C20 as stated fails at `key_len = 3 * 2^50`: the `double` product `0.4 * key_len` rounds up
to 1351079888211149, one more than the integer part 1351079888211148 of the
exact product, so the gate fires for `query_len = 1351079888211149`, which is
above `floor(0.4 * key_len)`. -/
theorem C20_product_rounds_up :
    PointFourTimes 3377699720527872 = 1351079888211149 ∧
    2 * 3377699720527872 / 5 = 1351079888211148 ∧
    ¬ (IsAggressiveSuggestion 1351079888211149 3377699720527872 5000 true 10 = true ↔
        true = true ∧ 10 ≥ 10 ∧ 3377699720527872 ≥ 8 ∧ (5000 : Int) ≥ 5000 ∧
          1351079888211149 ≤ 2 * 3377699720527872 / 5) := by
  refine ⟨by decide, by decide, ?_⟩
  intro h
  have h1 : IsAggressiveSuggestion 1351079888211149 3377699720527872 5000 true 10 = true := by
    decide
  have h2 := (h.mp h1).2.2.2.2
  exact absurd h2 (by decide)

/-- C21: for a `ComImplements<Interfaces...>` object, `QueryInterface(riid, out)`
returns `E_POINTER` and leaves the object as it is when `out` is null. Otherwise,
when `riid` is accepted by `IsIIDOf` for one of `Interfaces` or is the id of
`IUnknown`, it returns `S_OK`, stores a non-null pointer in `*out` and increases
the reference count by one (on the 32-bit counter); in every other case it
returns `E_NOINTERFACE`, stores null in `*out` and leaves the object as it is.
So `S_OK` is returned exactly for the accepted ids. -/
theorem C21_query_interface (self : ComImplements) (riid : IID)
    (hpack : self.Interfaces ≠ []) :
    self.QueryInterface riid none = (HRESULT.E_POINTER, self, none) ∧
    ∀ prev : Option InterfacePointer,
      (((∃ T ∈ self.Interfaces, IsIIDOf T riid = true) ∨ riid = IID_IUnknown) →
        (self.QueryInterface riid (some prev)).1 = HRESULT.S_OK ∧
        (∃ p, (self.QueryInterface riid (some prev)).2.2 = some (some p)) ∧
        (self.QueryInterface riid (some prev)).2.1.Interfaces = self.Interfaces ∧
        (self.QueryInterface riid (some prev)).2.1.ref_count_
          = (self.ref_count_ + 1) % 4294967296 ∧
        (self.ref_count_ + 1 < 4294967296 →
          (self.QueryInterface riid (some prev)).2.1.ref_count_ = self.ref_count_ + 1)) ∧
      (¬ ((∃ T ∈ self.Interfaces, IsIIDOf T riid = true) ∨ riid = IID_IUnknown) →
        self.QueryInterface riid (some prev) = (HRESULT.E_NOINTERFACE, self, some none)) ∧
      ((self.QueryInterface riid (some prev)).1 = HRESULT.S_OK ↔
        ((∃ T ∈ self.Interfaces, IsIIDOf T riid = true) ∨ riid = IID_IUnknown)) := by
  refine ⟨rfl, ?_⟩
  intro prev
  have hyes : ((∃ T ∈ self.Interfaces, IsIIDOf T riid = true) ∨ riid = IID_IUnknown) →
      (self.QueryInterface riid (some prev)).1 = HRESULT.S_OK ∧
      (∃ p, (self.QueryInterface riid (some prev)).2.2 = some (some p)) ∧
      (self.QueryInterface riid (some prev)).2.1.Interfaces = self.Interfaces ∧
      (self.QueryInterface riid (some prev)).2.1.ref_count_
        = (self.ref_count_ + 1) % 4294967296 := by
    intro hacc
    obtain ⟨p, hp⟩ := QueryInterfaceImpl_some riid self.Interfaces 0 hpack hacc
    have hq : self.QueryInterface riid (some prev)
        = (HRESULT.S_OK, (self.AddRef).2, some (some p)) := by
      unfold ComImplements.QueryInterface
      simp only [hp]
    rw [hq]
    exact ⟨rfl, ⟨p, rfl⟩, rfl, rfl⟩
  have hno : ¬ ((∃ T ∈ self.Interfaces, IsIIDOf T riid = true) ∨ riid = IID_IUnknown) →
      self.QueryInterface riid (some prev) = (HRESULT.E_NOINTERFACE, self, some none) := by
    intro hacc
    have hp := QueryInterfaceImpl_none riid self.Interfaces 0 hacc
    unfold ComImplements.QueryInterface
    simp only [hp]
  refine ⟨?_, hno, ?_⟩
  · intro hacc
    obtain ⟨h1, h2, h3, h4⟩ := hyes hacc
    refine ⟨h1, h2, h3, h4, ?_⟩
    intro hsmall
    rw [h4, Nat.mod_eq_of_lt hsmall]
  · constructor
    · intro hs
      by_contra hacc
      rw [hno hacc] at hs
      cases hs
    · intro hacc
      exact (hyes hacc).1

/-- C21, at an object `ComImplements<IFoo, IBar>` with two references: a query
for the id of `IBar` answers `S_OK` with the second base and three references;
a query for an unknown id answers `E_NOINTERFACE` with a null pointer, and a
query with a null `out` answers `E_POINTER`, both with two references. -/
theorem C21_query_interface_witness :
    Examples.fooBar.Interfaces ≠ [] ∧
    ((∃ T ∈ Examples.fooBar.Interfaces, IsIIDOf T 2 = true) ∨ 2 = IID_IUnknown) ∧
    Examples.fooBar.ref_count_ + 1 < 4294967296 ∧
    (Examples.fooBar.QueryInterface 2 (some none)).1 = HRESULT.S_OK ∧
    (Examples.fooBar.QueryInterface 2 (some none)).2.2 = some (some { index := 1 }) ∧
    (Examples.fooBar.QueryInterface 2 (some none)).2.1.ref_count_ = 2 + 1 ∧
    (Examples.fooBar.QueryInterface IID_IUnknown (some none)).2.2
      = some (some { index := 1 }) ∧
    (Examples.fooBar.QueryInterface 3 (some none)).1 = HRESULT.E_NOINTERFACE ∧
    (Examples.fooBar.QueryInterface 3 (some none)).2.2 = some none ∧
    (Examples.fooBar.QueryInterface 3 (some none)).2.1.ref_count_ = 2 ∧
    (Examples.fooBar.QueryInterface 2 none).1 = HRESULT.E_POINTER ∧
    (Examples.fooBar.QueryInterface 2 none).2.1.ref_count_ = 2 :=
  have hacc : (∃ T ∈ Examples.fooBar.Interfaces, IsIIDOf T 2 = true) ∨ 2 = IID_IUnknown :=
    Or.inl ⟨{ uuid := 2, specialization := none }, by simp [Examples.fooBar], rfl⟩
  ⟨by simp [Examples.fooBar], hacc, by decide, rfl, rfl,
   (((C21_query_interface Examples.fooBar 2 (by simp [Examples.fooBar])).2 none).1
      hacc).2.2.2.2 (by decide),
   rfl, rfl, rfl, rfl, rfl, rfl⟩

/-- C22: in desktop mode `SetPredictionCost` gives each result that is not gated
as aggressive the cost `lm_cost - 500 * log(1 + max(0, key_len - query_len))`
as the `double` expression yields it, converted to `int`; `lm_cost` is
`transition_cost(rid, node.lid) + node.wcost`, plus the suffix penalty of
`node.rid` for a result that is not REALTIME, `key_len = CharsLen(node.key)`,
and `query_len` is `CharsLen(history_key + input_key)` for a BIGRAM result and
`CharsLen(input_key)` otherwise. When `key_len <= query_len` (and the lengths
are less than 2^31 apart) the cost is `lm_cost` exactly, `log(1.0)` being 0. -/
theorem C22_prediction_cost (env : Env) (segments : Segments) (total : Nat) (r : Result)
    (hgate : IsAggressiveSuggestion (QueryLenSpec segments r) (CharsLen r.node.key)
      (GetLMCost env r.type r.node (HistoryRid segments))
      (decide (segments.request_type = RequestType.SUGGESTION)) total = false) :
    (SetPredictionCostOne env segments total r).node = r.node ∧
    (SetPredictionCostOne env segments total r).type = r.type ∧
    (SetPredictionCostOne env segments total r).cost
      = SubtractLengthBonus env (GetLMCost env r.type r.node (HistoryRid segments))
          (max 0 (wrap32 ((CharsLen r.node.key : Int) - (QueryLenSpec segments r : Int)))) ∧
    GetLMCost env r.type r.node (HistoryRid segments)
      = wrap32 (wrap32 (env.GetTransitionCost (HistoryRid segments) r.node.lid + r.node.wcost)
          + (if r.type.realtime = true then 0 else env.GetSuffixPenalty r.node.rid)) ∧
    (QueryLenSpec segments r ≤ CharsLen r.node.key →
      CharsLen r.node.key - QueryLenSpec segments r ≤ 2147483647 →
      max 0 (wrap32 ((CharsLen r.node.key : Int) - (QueryLenSpec segments r : Int)))
        = ((CharsLen r.node.key - QueryLenSpec segments r : Nat) : Int)) ∧
    ((env.log 1).1 = 0 → CharsLen r.node.key ≤ QueryLenSpec segments r →
      QueryLenSpec segments r - CharsLen r.node.key ≤ 2147483648 →
      (SetPredictionCostOne env segments total r).cost
        = GetLMCost env r.type r.node (HistoryRid segments)) ∧
    (∀ results : List Result, SetPredictionCost env segments results
      = results.map (SetPredictionCostOne env segments results.length)) := by
  have hone : SetPredictionCostOne env segments total r
      = { r with cost :=
            (SubtractLengthBonus env (GetLMCost env r.type r.node (HistoryRid segments))
              (max 0 (wrap32 ((CharsLen r.node.key : Int) - (QueryLenSpec segments r : Int))))) } := by
    unfold QueryLenSpec at hgate ⊢
    unfold SetPredictionCostOne
    simp only []
    rw [if_neg (by rw [hgate]; exact Bool.false_ne_true)]
  refine ⟨by rw [hone], by rw [hone], by rw [hone], ?_, ?_, ?_, fun _ => rfl⟩
  · unfold GetLMCost
    simp only []
    cases r.type.realtime
    · simp only [Bool.not_false, if_true, Bool.false_eq_true, if_false]
    · simp only [Bool.not_true, Bool.false_eq_true, if_false, if_true, add_zero]
      unfold wrap32
      omega
  · intro h1 h2
    rw [wrap32_of_range _ (by omega) (by omega)]
    omega
  · intro hlog hle hgap
    rw [hone]
    simp only []
    have hz : max 0 (wrap32 ((CharsLen r.node.key : Int) - (QueryLenSpec segments r : Int)))
        = 0 := by
      rw [wrap32_of_range _ (by omega) (by omega)]
      omega
    rw [hz]
    exact SubtractLengthBonus_zero env _ hlog (GetLMCost_range _ _ _ _).1
      (GetLMCost_range _ _ _ _).2

/-- C22, at the input "ab" in desktop mode with lm cost 3000: the result for the
reading "ab" gets 3000, and the result for the reading "abcd", two characters
longer, gets 2450, the integer part of `3000 - 500 * log(3.0)`. -/
theorem C22_prediction_cost_witness :
    IsAggressiveSuggestion (QueryLenSpec Examples.segmentsAb Examples.longerResult)
      (CharsLen Examples.longerResult.node.key)
      (GetLMCost Examples.plainEnv Examples.longerResult.type Examples.longerResult.node
        (HistoryRid Examples.segmentsAb))
      (decide (Examples.segmentsAb.request_type = RequestType.SUGGESTION)) 2 = false ∧
    (SetPredictionCost Examples.plainEnv Examples.segmentsAb
        [{ node := Examples.word [97, 98] [121] 3000, type := UNIGRAM, cost := 0 },
         Examples.longerResult]).map Result.cost = [3000, 2450] ∧
    GetLMCost Examples.plainEnv Examples.longerResult.type Examples.longerResult.node
        (HistoryRid Examples.segmentsAb) = 3000 ∧
    max 0 (wrap32 ((CharsLen Examples.longerResult.node.key : Int)
        - (QueryLenSpec Examples.segmentsAb Examples.longerResult : Int))) = 2 ∧
    SubtractLengthBonus Examples.plainEnv 3000 2 = 2450 ∧
    (SetPredictionCostOne Examples.plainEnv Examples.segmentsAb 2 Examples.longerResult).cost
      = SubtractLengthBonus Examples.plainEnv
          (GetLMCost Examples.plainEnv Examples.longerResult.type Examples.longerResult.node
            (HistoryRid Examples.segmentsAb))
          (max 0 (wrap32 ((CharsLen Examples.longerResult.node.key : Int)
            - (QueryLenSpec Examples.segmentsAb Examples.longerResult : Int)))) :=
  ⟨by decide, by decide, by decide, by decide, by decide,
   (C22_prediction_cost Examples.plainEnv Examples.segmentsAb 2 Examples.longerResult
      (by decide)).2.2.1⟩

/-- C23 fails at the results with the costs 1, `INT_MAX`, 2 (values "x", "y",
"z") and room for ten candidates: after the first pop the vector is 2,
`INT_MAX`, 1 and the test `results->at(i).cost == INT_MAX` at `i = 1` reads the
gated result, which is not the top of the heap. The loop stops with one
candidate, fewer than `size = 3`, and the result of cost 2, which passes every
filter, is still at the top of the heap: it was never popped. -/
theorem C23_cheaper_result_never_popped :
    min Examples.segmentsAb.max_prediction_candidates_size Examples.gatedInTheMiddle.length = 3 ∧
    AddPredictionRun Examples.plainEnv Examples.segmentsAb Examples.gatedInTheMiddle
      = some
        { results :=
            [{ node := Examples.word [97, 98, 101] [122] 2, type := UNIGRAM, cost := 2 },
             { node := Examples.word [97, 98, 100] [121] 2, type := UNIGRAM, cost := INT_MAX },
             { node := Examples.word [97, 98, 99] [120] 1, type := UNIGRAM, cost := 1 }],
          added := 1,
          seen := [[120]],
          emitted :=
            [({ node := Examples.word [97, 98, 99] [120] 1, type := UNIGRAM, cost := 1 },
              MakeCandidate (Examples.word [97, 98, 99] [120] 1) [97, 98, 99] [120] 2)] } ∧
    (AddPredictionToCandidates Examples.plainEnv Examples.segmentsAb
        Examples.gatedInTheMiddle).map
      (fun p => (p.2.conversion_segment 0).candidates.map (fun c => c.value)) = some [[120]] ∧
    (2 : Int) < INT_MAX := by
  decide

/-- C24 fails at a spelling correction "abc" → "x" of cost 100 and a plain
entry "abd" → "x" of cost 200 for the input "ab": the correction is popped
first, puts "x" into `seen` and is then dropped for its miss-spelled position;
the plain entry, which passes every other filter, finds its value in `seen`.
No candidate is emitted although the cap of 10 is not reached. -/
theorem C24_value_taken_by_dropped_correction :
    AddPredictionRun Examples.plainEnv Examples.segmentsAb Examples.correctionTakesValue
      = some
        { results :=
            [{ node := Examples.word [97, 98, 100] [120] 200, type := UNIGRAM, cost := 200 },
             { node := { key := [97, 98, 99], value := [120], lid := 0, rid := 0, wcost := 100,
                         spelling_correction := true }, type := UNIGRAM, cost := 100 }],
          added := 0, seen := [[120]], emitted := [] } ∧
    ReachesSeenSpec Examples.plainEnv Examples.segmentsAb
      { node := Examples.word [97, 98, 100] [120] 200, type := UNIGRAM, cost := 200 } = true ∧
    (Examples.word [97, 98, 100] [120] 200).spelling_correction = false ∧
    StrippedKeyValue Examples.segmentsAb
      { node := Examples.word [97, 98, 100] [120] 200, type := UNIGRAM, cost := 200 }
      = some ([97, 98, 100], [120]) ∧
    min Examples.segmentsAb.max_prediction_candidates_size
      Examples.correctionTakesValue.length = 2 := by
  decide

/-- C24, as amended: the values of the emitted candidates are pairwise distinct,
and the candidate emitted with a value comes from a result of least cost among
the results with that stripped value that pass the type, suggestion-filter and
exact-key tests. When no result has the cost `INT_MAX` and the cap is not
reached, the value of every such result is emitted, unless a spelling correction
that is dropped for its miss-spelled position carries it: such a correction
still puts its value into `seen`. -/
theorem C24_duplicates_to_lowest_cost (env : Env) (segments : Segments)
    (results : List Result) (st : EmitState)
    (h : AddPredictionRun env segments results = some st) :
    (st.emitted.map (fun rc => rc.2.value)).Nodup ∧
    (∀ rc ∈ st.emitted, rc.1 ∈ results ∧ ReachesSeenSpec env segments rc.1 = true ∧
      StrippedKeyValue segments rc.1 = some (rc.2.key, rc.2.value) ∧
      ∀ r ∈ results, ReachesSeenSpec env segments r = true →
        ∀ key, StrippedKeyValue segments r = some (key, rc.2.value) → rc.1.cost ≤ r.cost) ∧
    ((∀ r ∈ results, r.cost ≠ INT_MAX) →
      st.added < min segments.max_prediction_candidates_size results.length →
      ∀ r ∈ results, ReachesSeenSpec env segments r = true →
        ∀ key value, StrippedKeyValue segments r = some (key, value) →
          (∃ rc ∈ st.emitted, rc.2.value = value) ∨
          (∃ z ∈ results, DroppedCorrectionSpec env segments z value)) := by
  obtain ⟨j, inv, hend⟩ := AddPredictionRun_indexed env segments results st h
  refine ⟨(AddPredictionRun_nodup env segments results st h).2, ?_, ?_⟩
  · intro rc hrc
    obtain ⟨h1, h2, h3⟩ := inv.emitted_from rc hrc
    exact ⟨h1, h2, h3, inv.lowest rc hrc⟩
  · intro hcost hcap r hr hreach key value hs
    have hlen : st.results.length = results.length := inv.perm.length_eq
    have hj : j = results.length := by
      rcases hend with hj | hadd | hmax
      · exact hj
      · omega
      · by_contra hne
        have hjl : j < st.results.length := by have := inv.index_le; omega
        exact hcost _ (inv.perm.mem_iff.1 (getD_mem st.results j default hjl)) hmax
    obtain ⟨p, hp, hpr⟩ := exists_getD_of_mem st.results r default (inv.perm.mem_iff.2 hr)
    apply inv.seen_from value
    exact inv.popped_seen p (by omega) (by omega) (by rw [hpr]; exact hreach) key value
      (by rw [hpr]; exact hs)

/-- C24, at the results "abc" → "x" of cost 200, "abd" → "x" of cost 100 and
"abe" → "y" of cost 150: the candidate with the value "x" comes from the result
of cost 100, and both values are emitted. -/
theorem C24_duplicates_to_lowest_cost_witness :
    AddPredictionRun Examples.plainEnv Examples.segmentsAb Examples.cheaperDuplicate
      = some Examples.stateCheaperDuplicate ∧
    Examples.stateCheaperDuplicate.emitted.map (fun rc => (rc.1.cost, rc.2.value))
      = [(100, [120]), (150, [121])] ∧
    (Examples.stateCheaperDuplicate.emitted.map (fun rc => rc.2.value)).Nodup ∧
    (∀ rc ∈ Examples.stateCheaperDuplicate.emitted,
      rc.1 ∈ Examples.cheaperDuplicate ∧
      ReachesSeenSpec Examples.plainEnv Examples.segmentsAb rc.1 = true ∧
      StrippedKeyValue Examples.segmentsAb rc.1 = some (rc.2.key, rc.2.value) ∧
      ∀ r ∈ Examples.cheaperDuplicate,
        ReachesSeenSpec Examples.plainEnv Examples.segmentsAb r = true →
        ∀ key, StrippedKeyValue Examples.segmentsAb r = some (key, rc.2.value) →
          rc.1.cost ≤ r.cost) ∧
    (∀ r ∈ Examples.cheaperDuplicate, r.cost ≠ INT_MAX) ∧
    Examples.stateCheaperDuplicate.added
      < min Examples.segmentsAb.max_prediction_candidates_size
          Examples.cheaperDuplicate.length ∧
    (∀ r ∈ Examples.cheaperDuplicate,
      ReachesSeenSpec Examples.plainEnv Examples.segmentsAb r = true →
      ∀ key value, StrippedKeyValue Examples.segmentsAb r = some (key, value) →
        (∃ rc ∈ Examples.stateCheaperDuplicate.emitted, rc.2.value = value) ∨
        (∃ z ∈ Examples.cheaperDuplicate,
          DroppedCorrectionSpec Examples.plainEnv Examples.segmentsAb z value)) :=
  ⟨by decide, by decide,
   (C24_duplicates_to_lowest_cost Examples.plainEnv Examples.segmentsAb
      Examples.cheaperDuplicate Examples.stateCheaperDuplicate (by decide)).1,
   (C24_duplicates_to_lowest_cost Examples.plainEnv Examples.segmentsAb
      Examples.cheaperDuplicate Examples.stateCheaperDuplicate (by decide)).2.1,
   by decide, by decide,
   (C24_duplicates_to_lowest_cost Examples.plainEnv Examples.segmentsAb
      Examples.cheaperDuplicate Examples.stateCheaperDuplicate (by decide)).2.2
      (by decide) (by decide)⟩

/-- C25, at a concrete input: the only result is a spelling correction whose
key is the input key "ab"; its miss-spelled position is 2, so that
`input_key_len <= position + 1`, and it is appended as a candidate. -/
theorem C25_correction_of_input_key_emitted :
    Examples.correctionOfKey.node.spelling_correction = true ∧
    CharsLen (Examples.segmentsAb.conversion_segment 0).key
      ≤ GetMissSpelledPosition Examples.plainEnv Examples.correctionOfKey.node.key
          Examples.correctionOfKey.node.value + 1 ∧
    (AddPredictionToCandidates Examples.plainEnv Examples.segmentsAb
        [Examples.correctionOfKey]).map
      (fun p => (p.2.conversion_segment 0).candidates.map
        (fun c => (c.key, c.value, c.spelling_correction)))
      = some [([97, 98], [120], true)] := by
  decide

/-- C25, as amended: no candidate appended by `AddPredictionToCandidates` is a
spelling correction whose key differs from the input key and whose miss-spelled
position is at least `input_key_len - 1`: a candidate carries
SPELLING_CORRECTION exactly when the node of its result does, its key and value
are those of the result after stripping, and when it carries the attribute and
its key is not the input key, `input_key_len > GetMissSpelledPosition(key,
value) + 1`. -/
theorem C25_no_spelling_correction_near_end (env : Env) (segments : Segments)
    (results : List Result) (st : EmitState)
    (h : AddPredictionRun env segments results = some st) :
    AddPredictionToCandidates env segments results
      = some (decide (st.added > 0),
          segments.set_candidates
            ((segments.conversion_segment 0).candidates ++ st.emitted.map Prod.snd)) ∧
    ∀ rc ∈ st.emitted, rc.2.spelling_correction = rc.1.node.spelling_correction ∧
      StrippedKeyValue segments rc.1 = some (rc.2.key, rc.2.value) ∧
      (rc.2.spelling_correction = true → rc.2.key ≠ (segments.conversion_segment 0).key →
        CharsLen (segments.conversion_segment 0).key
          > GetMissSpelledPosition env rc.2.key rc.2.value + 1) := by
  refine ⟨?_, ?_⟩
  · unfold AddPredictionToCandidates
    rw [h]
  · intro rc hrc
    obtain ⟨h1, h2, h3⟩ := AddPredictionRun_spelling env segments results st h rc hrc
    refine ⟨h1, h2, ?_⟩
    intro hs hk
    by_contra hc
    exact h3 ⟨hs, hk, Nat.le_of_not_lt hc⟩

/-- C25, at the input れみおめろ (5 characters) and the spelling correction
れみおめろん → レミオロメン, whose miss-spelled position is 3: the candidate
is appended, and `5 > 3 + 1`. -/
theorem C25_no_spelling_correction_near_end_witness :
    AddPredictionRun Examples.kanaEnv Examples.segmentsRemio [Examples.remioromen]
      = some Examples.stateRemio ∧
    GetMissSpelledPosition Examples.kanaEnv (utf8 "れみおめろん") (utf8 "レミオロメン") = 3 ∧
    ∀ rc ∈ Examples.stateRemio.emitted,
      rc.2.spelling_correction = rc.1.node.spelling_correction ∧
      StrippedKeyValue Examples.segmentsRemio rc.1 = some (rc.2.key, rc.2.value) ∧
      (rc.2.spelling_correction = true →
        rc.2.key ≠ (Examples.segmentsRemio.conversion_segment 0).key →
        CharsLen (Examples.segmentsRemio.conversion_segment 0).key
          > GetMissSpelledPosition Examples.kanaEnv rc.2.key rc.2.value + 1) :=
  ⟨by decide, by decide,
   (C25_no_spelling_correction_near_end Examples.kanaEnv Examples.segmentsRemio
      [Examples.remioromen] Examples.stateRemio (by decide)).2⟩

/-- C26: when the loop of `RemoveMissSpelledCandidates` examines result `i`
(its node carries SPELLING_CORRECTION and the counter has not run out), it goes
on with the results that the rule of the specification gives: with `same_key`
and `same_value` the other results without the attribute whose node key and
node value equal those of `i`, result `i` and all `same_key` entries get the
type `NO_PREDICTION` when both are non-empty, only `i` when only `same_value` is
non-empty, all `same_key` entries (and `i` exactly when `request_key_len <=
GetMissSpelledPosition(key, value)`) when only `same_key` is non-empty, and
nothing changes when both are empty. With at least two results the method is
this loop from index 0 with the counter 5. -/
theorem C26_miss_spelled_rule (env : Env) (request_key_len n i : Nat) (c : Int)
    (results : List Result)
    (hspell : (results.getD i default).node.spelling_correction = true)
    (hcount : c - 1 ≠ 0) :
    RemoveMissSpelledLoop env request_key_len (n + 1) i c results
      = RemoveMissSpelledLoop env request_key_len n (i + 1) (c - 1)
          (MissSpelledRuleSpec env request_key_len i results) ∧
    (MissSpelledRuleSpec env request_key_len i results).length = results.length ∧
    (∀ j, j < results.length →
      (MissSpelledRuleSpec env request_key_len i results).getD j default
        = if MissSpelledDropSpec env request_key_len results i j = true then
            { results.getD j default with type := NO_PREDICTION }
          else results.getD j default) ∧
    ((List.range results.length).any (SameKeySpec results i) = false →
      (List.range results.length).any (SameValueSpec results i) = false →
      MissSpelledRuleSpec env request_key_len i results = results) ∧
    (results.length ≥ 2 →
      RemoveMissSpelledCandidates env request_key_len results
        = RemoveMissSpelledLoop env request_key_len results.length 0 5 results) := by
  refine ⟨RemoveMissSpelledLoop_step env request_key_len n i c results hspell hcount, ?_, ?_,
    ?_, ?_⟩
  · unfold MissSpelledRuleSpec
    rw [List.length_map, List.length_range]
  · intro j hj
    unfold MissSpelledRuleSpec
    rw [range_map_getD_lt _ _ j hj]
  · intro hK hV
    unfold MissSpelledRuleSpec MissSpelledDropSpec
    simp only [hK, hV, Bool.and_self, Bool.false_and, Bool.and_false, Bool.or_self,
      Bool.not_false, ite_self, Bool.false_eq_true, if_false]
    exact range_map_getD results default
  · intro h2
    unfold RemoveMissSpelledCandidates
    rw [if_neg (by omega)]

/-- C26, at a spelling correction "ab" → "x" with a plain entry of the same key
and a plain entry of the same value: the correction and the entry of the same
key get `NO_PREDICTION`, the entry of the same value keeps its type. -/
theorem C26_miss_spelled_rule_witness :
    (Examples.correctionWithBoth.getD 0 default).node.spelling_correction = true ∧
    (5 : Int) - 1 ≠ 0 ∧
    (RemoveMissSpelledCandidates Examples.plainEnv 2 Examples.correctionWithBoth).map
      Result.type = [NO_PREDICTION, NO_PREDICTION, UNIGRAM] ∧
    (MissSpelledRuleSpec Examples.plainEnv 2 0 Examples.correctionWithBoth).map Result.type
      = [NO_PREDICTION, NO_PREDICTION, UNIGRAM] ∧
    RemoveMissSpelledLoop Examples.plainEnv 2 (2 + 1) 0 5 Examples.correctionWithBoth
      = RemoveMissSpelledLoop Examples.plainEnv 2 2 (0 + 1) (5 - 1)
          (MissSpelledRuleSpec Examples.plainEnv 2 0 Examples.correctionWithBoth) :=
  ⟨by decide, by decide, by decide, by decide,
   (C26_miss_spelled_rule Examples.plainEnv 2 2 0 5 Examples.correctionWithBoth
      (by decide) (by decide)).1⟩

/-- C27 fails at five spelling corrections with the value "x" followed by a
plain entry with the same value: the rule gives `NO_PREDICTION` to each
correction it is applied to, and `RemoveMissSpelledCandidates` leaves the fifth
correction with its type UNIGRAM, because `--spelling_correction_size == 0`
holds at the fifth correction and the method returns before examining it. -/
theorem C27_fifth_correction_not_examined :
    (Examples.fiveCorrections.map (fun r => r.node.spelling_correction))
      = [true, true, true, true, true, false] ∧
    (RemoveMissSpelledCandidates Examples.plainEnv 2 Examples.fiveCorrections).map Result.type
      = [NO_PREDICTION, NO_PREDICTION, NO_PREDICTION, NO_PREDICTION, UNIGRAM, UNIGRAM] ∧
    MissSpelledDropSpec Examples.plainEnv 2 Examples.fiveCorrections 4 4 = true := by
  decide

/-- C28: `AggregateUnigramPrediction`, called with UNIGRAM selected, looks up
with the cutoff `mixed ? 256 : (request_type = PREDICTION ? 100000 : 256)`; when
the lookup returns fewer nodes than the cutoff, results grows by exactly these
nodes as UNIGRAM results in lookup order, and when it returns at least as many,
results is on return what it was before the call. -/
theorem C28_unigram_aggregation (env : Env) (type : PredictionType)
    (request : ConversionRequest) (segments : Segments) (max_nodes_size : Nat)
    (results : List Result) (hu : type.unigram = true) :
    GetUnigramCandidateCutoffThreshold segments env.mixed_conversion
      = UnigramCutoffSpec env segments ∧
    ((GetPredictiveNodes env env.dictionary [] request segments
        (UnigramCutoffSpec env segments)).length < UnigramCutoffSpec env segments →
      (AggregateUnigramPrediction env type request segments max_nodes_size results).2
        = results ++ (GetPredictiveNodes env env.dictionary [] request segments
            (UnigramCutoffSpec env segments)).map
            (fun node => { node := node, type := UNIGRAM, cost := 0 })) ∧
    ((GetPredictiveNodes env env.dictionary [] request segments
        (UnigramCutoffSpec env segments)).length ≥ UnigramCutoffSpec env segments →
      (AggregateUnigramPrediction env type request segments max_nodes_size results).2
        = results) := by
  have hc : GetUnigramCandidateCutoffThreshold segments env.mixed_conversion
      = UnigramCutoffSpec env segments := by
    unfold GetUnigramCandidateCutoffThreshold UnigramCutoffSpec kSuggestionMaxNodesSize
      kPredictionMaxNodesSize
    rfl
  refine ⟨hc, ?_, ?_⟩
  · intro hlt
    unfold AggregateUnigramPrediction
    simp only [hu, Bool.not_true, Bool.false_eq_true, if_false, hc]
    rw [if_neg (by omega)]
  · intro hge
    unfold AggregateUnigramPrediction
    simp only [hu, Bool.not_true, Bool.false_eq_true, if_false, hc]
    rw [if_pos hge]
    exact List.take_left' rfl

/-- C28, at a dictionary that predicts one entry for the reading "aaa": the
cutoff of a prediction request in desktop mode is 100000 and results grows by
that entry as a UNIGRAM result. -/
theorem C28_unigram_aggregation_witness :
    UNIGRAM.unigram = true ∧
    UnigramCutoffSpec Examples.historyEnv Examples.segmentsAaa = 100000 ∧
    (GetPredictiveNodes Examples.historyEnv Examples.historyEnv.dictionary []
        { composer := none } Examples.segmentsAaa
        (UnigramCutoffSpec Examples.historyEnv Examples.segmentsAaa)).length
      < UnigramCutoffSpec Examples.historyEnv Examples.segmentsAaa ∧
    (AggregateUnigramPrediction Examples.historyEnv UNIGRAM { composer := none }
        Examples.segmentsAaa 8192 Examples.twoResults).2
      = Examples.twoResults
        ++ [{ node := Examples.word [97, 97, 97] [90] 20, type := UNIGRAM, cost := 0 }] ∧
    (AggregateUnigramPrediction Examples.historyEnv UNIGRAM { composer := none }
        Examples.segmentsAaa 8192 Examples.twoResults).2
      = Examples.twoResults ++ (GetPredictiveNodes Examples.historyEnv
            Examples.historyEnv.dictionary [] { composer := none } Examples.segmentsAaa
            (UnigramCutoffSpec Examples.historyEnv Examples.segmentsAaa)).map
            (fun node => { node := node, type := UNIGRAM, cost := 0 }) :=
  ⟨by decide, by decide, by decide, by decide,
   (C28_unigram_aggregation Examples.historyEnv UNIGRAM { composer := none }
      Examples.segmentsAaa 8192 Examples.twoResults (by decide)).2.1 (by decide)⟩

set_option maxRecDepth 100000 in
/-- C29 fails in mixed mode for a prediction request: the unigram cutoff is
256, the dictionary yields 256 bigram nodes, and `AggregateBigramPrediction`,
whose own cutoff is 100000, keeps the block. -/
theorem C29_block_of_256_kept_in_mixed_mode :
    UnigramCutoffSpec Examples.crowdedEnv Examples.segmentsAfterX = 256 ∧
    (BigramBlock Examples.crowdedEnv { composer := none } Examples.segmentsAfterX).length
      = 256 ∧
    (AggregateBigramPrediction Examples.crowdedEnv BIGRAM { composer := none }
        Examples.segmentsAfterX 8192 []).map (fun p => (p.1, p.2.length))
      = some (100000, 256) := by
  decide

/-- C29, as amended: `AggregateBigramPrediction`, called with BIGRAM selected
and a history that the dictionary holds, discards the block it appended and
restores results to its previous size whenever the number of bigram results it
appended is at least `request_type = PREDICTION ? 100000 : 256`; this is the
unigram cutoff except for a prediction request in mixed mode. -/
theorem C29_bigram_overflow (env : Env) (type : PredictionType) (request : ConversionRequest)
    (segments : Segments) (max_nodes_size : Nat) (results : List Result) (history_node : Node)
    (hb : type.bigram = true)
    (hh : LookupKeyValueFromDictionary env (GetHistoryKeyAndValue segments).2.1
      (GetHistoryKeyAndValue segments).2.2 max_nodes_size = some history_node)
    (hover : (BigramBlock env request segments).length ≥ BigramCutoff segments) :
    AggregateBigramPrediction env type request segments max_nodes_size results
      = some (BigramCutoff segments, results) ∧
    BigramCutoff segments
      = (if segments.request_type = RequestType.PREDICTION then 100000 else 256) ∧
    (¬ (env.mixed_conversion = true ∧ segments.request_type = RequestType.PREDICTION) →
      BigramCutoff segments = UnigramCutoffSpec env segments) := by
  refine ⟨?_, rfl, ?_⟩
  · rw [AggregateBigramPrediction_unfold env type request segments max_nodes_size results
      history_node hb hh, if_pos hover, List.take_left' rfl]
  · intro hn
    unfold BigramCutoff UnigramCutoffSpec kPredictionMaxNodesSize kSuggestionMaxNodesSize
    by_cases hm : env.mixed_conversion = true
    · have hp : ¬ segments.request_type = RequestType.PREDICTION := fun h => hn ⟨hm, h⟩
      rw [if_pos hm, if_neg hp]
    · rw [if_neg hm]

set_option maxRecDepth 100000 in
/-- C29, at a suggestion request for which the dictionary yields 256 bigram
nodes: the block is discarded and results is what it was. -/
theorem C29_bigram_overflow_witness :
    BIGRAM.bigram = true ∧
    LookupKeyValueFromDictionary Examples.crowdedEnv
        (GetHistoryKeyAndValue Examples.segmentsSuggestAfterX).2.1
        (GetHistoryKeyAndValue Examples.segmentsSuggestAfterX).2.2 8192
      = some (Examples.word [97, 97, 97] [88] 10) ∧
    (BigramBlock Examples.crowdedEnv { composer := none }
        Examples.segmentsSuggestAfterX).length
      ≥ BigramCutoff Examples.segmentsSuggestAfterX ∧
    AggregateBigramPrediction Examples.crowdedEnv BIGRAM { composer := none }
        Examples.segmentsSuggestAfterX 8192 Examples.twoResults
      = some (BigramCutoff Examples.segmentsSuggestAfterX, Examples.twoResults) :=
  ⟨by decide, by decide, by decide,
   (C29_bigram_overflow Examples.crowdedEnv BIGRAM { composer := none }
      Examples.segmentsSuggestAfterX 8192 Examples.twoResults
      (Examples.word [97, 97, 97] [88] 10) (by decide) (by decide) (by decide)).1⟩

/-- C30: for a history that the dictionary holds, with a non-empty history
value, and a bigram block below the cutoff, `AggregateBigramPrediction` appends
the block with each result keeping the type BIGRAM exactly when the condition
of the specification holds for its node (non-empty remainders, not
`history_node.wcost > node.wcost`, no unreliable boundary between equal script
types, and KANJI with an empty conversion key or the remainders found in the
dictionary) and getting the type `NO_PREDICTION` otherwise. The nodes of the
lookup have keys at least as long as the history key. -/
theorem C30_bigram_filter (env : Env) (type : PredictionType) (request : ConversionRequest)
    (segments : Segments) (max_nodes_size : Nat) (results : List Result) (history_node : Node)
    (hb : type.bigram = true)
    (hh : LookupKeyValueFromDictionary env (GetHistoryKeyAndValue segments).2.1
      (GetHistoryKeyAndValue segments).2.2 max_nodes_size = some history_node)
    (hunder : (BigramBlock env request segments).length < BigramCutoff segments)
    (hvalue : CharsLen (GetHistoryKeyAndValue segments).2.2 ≠ 0)
    (hkeys : ∀ r ∈ BigramBlock env request segments,
      (GetHistoryKeyAndValue segments).2.1.length ≤ r.node.key.length) :
    AggregateBigramPrediction env type request segments max_nodes_size results
      = some (BigramCutoff segments,
          results ++ (BigramBlock env request segments).map (fun r =>
            if BigramKeepSpec env segments history_node r.node = true then r
            else { r with type := NO_PREDICTION })) ∧
    (∀ r ∈ BigramBlock env request segments, r.type = BIGRAM) := by
  have htype : ∀ r ∈ BigramBlock env request segments, r.type = BIGRAM := by
    intro r hr
    unfold BigramBlock at hr
    obtain ⟨node, _, rfl⟩ := List.mem_map.1 hr
    rfl
  have hvalues : ∀ r ∈ BigramBlock env request segments,
      (GetHistoryKeyAndValue segments).2.2.length ≤ r.node.value.length := by
    intro r hr
    unfold BigramBlock at hr
    obtain ⟨node, hnode, rfl⟩ := List.mem_map.1 hr
    exact StartsWith_length _ _ (List.mem_filter.1 hnode).2
  refine ⟨?_, htype⟩
  rw [AggregateBigramPrediction_unfold env type request segments max_nodes_size results
    history_node hb hh, if_neg (by omega), if_neg hvalue,
    BigramFilterLoop_eq env segments history_node _
      (fun r hr => ⟨hkeys r hr, hvalues r hr⟩)]

/-- C30, at the history "aaa" / "X" and the request "aaab": the node "aaaaaab" /
"XXY" with the remainders "aaab" / "XY", which the dictionary holds, keeps the
type BIGRAM. -/
theorem C30_bigram_filter_witness :
    BIGRAM.bigram = true ∧
    LookupKeyValueFromDictionary Examples.historyEnv
        (GetHistoryKeyAndValue Examples.segmentsAfterX).2.1
        (GetHistoryKeyAndValue Examples.segmentsAfterX).2.2 8192
      = some (Examples.word [97, 97, 97] [88] 10) ∧
    (BigramBlock Examples.historyEnv { composer := none } Examples.segmentsAfterX).length
      < BigramCutoff Examples.segmentsAfterX ∧
    CharsLen (GetHistoryKeyAndValue Examples.segmentsAfterX).2.2 ≠ 0 ∧
    (∀ r ∈ BigramBlock Examples.historyEnv { composer := none } Examples.segmentsAfterX,
      (GetHistoryKeyAndValue Examples.segmentsAfterX).2.1.length ≤ r.node.key.length) ∧
    BigramKeepSpec Examples.historyEnv Examples.segmentsAfterX
      (Examples.word [97, 97, 97] [88] 10)
      (Examples.word [97, 97, 97, 97, 97, 97, 98] [88, 88, 89] 20) = true ∧
    AggregateBigramPrediction Examples.historyEnv BIGRAM { composer := none }
        Examples.segmentsAfterX 8192 []
      = some (100000, Examples.bigramAfterX) ∧
    AggregateBigramPrediction Examples.historyEnv BIGRAM { composer := none }
        Examples.segmentsAfterX 8192 []
      = some (BigramCutoff Examples.segmentsAfterX,
          [] ++ (BigramBlock Examples.historyEnv { composer := none }
              Examples.segmentsAfterX).map (fun r =>
            if BigramKeepSpec Examples.historyEnv Examples.segmentsAfterX
                (Examples.word [97, 97, 97] [88] 10) r.node = true then r
            else { r with type := NO_PREDICTION })) :=
  ⟨by decide, by decide, by decide, by decide, by decide, by decide, by decide,
   (C30_bigram_filter Examples.historyEnv BIGRAM { composer := none } Examples.segmentsAfterX
      8192 [] (Examples.word [97, 97, 97] [88] 10) (by decide) (by decide) (by decide)
      (by decide) (by decide)).1⟩

/-- C31 fails at a dictionary with the entries "abc" / "X", "abcde" / "XY" and
"e" / "Y" and the history "abcd" / "X", a pair that is no entry: the prefix
lookup of "abcd" yields the entry "abc" / "X", whose value is the one looked
for, and `LookupKeyValueFromDictionary` returns this node although its key is
not "abcd"; the node key is never compared. Bigram aggregation for the request
"e" goes on with it and appends the BIGRAM result "abcde" / "XY". -/
theorem C31_node_of_shorter_key_returned :
    (∀ e ∈ Examples.abcEntries, ¬ (e.key = [97, 98, 99, 100] ∧ e.value = [88])) ∧
    Examples.abcEnv.dictionary.LookupPrefix [97, 98, 99, 100] 8192
      = [Examples.word [97, 98, 99] [88] 10] ∧
    LookupKeyValueFromDictionary Examples.abcEnv [97, 98, 99, 100] [88] 8192
      = some (Examples.word [97, 98, 99] [88] 10) ∧
    (Examples.word [97, 98, 99] [88] 10).key ≠ [97, 98, 99, 100] ∧
    GetHistoryKeyAndValue Examples.segmentsAfterAbcd = (true, [97, 98, 99, 100], [88]) ∧
    (GetPredictionType Examples.abcEnv Examples.segmentsAfterAbcd).bigram = true ∧
    AggregateBigramPrediction Examples.abcEnv
        (GetPredictionType Examples.abcEnv Examples.segmentsAfterAbcd) { composer := none }
        Examples.segmentsAfterAbcd 8192 []
      = some (100000,
          [{ node := Examples.word [97, 98, 99, 100, 101] [88, 89] 20, type := BIGRAM,
             cost := 0 }]) := by
  decide

/-- C32: for the request types PARTIAL_SUGGESTION and PARTIAL_PREDICTION
`AggregatePrediction` returns what `AggregateRealtimeConversion` alone leaves,
whatever bits `GetPredictionType` returned: every result it appends has the
type REALTIME, and the outcome depends neither on the dictionary nor on the
suffix dictionary, nor on the request handed to the lookups and the node limit
of the allocator: no unigram, bigram or suffix lookup takes part. -/
theorem C32_partial_uses_realtime_only (env : Env) (request : ConversionRequest)
    (segments : Segments) (max_nodes_size : Nat) (results : List Result)
    (hrequest : segments.request_type = RequestType.PARTIAL_SUGGESTION ∨
      segments.request_type = RequestType.PARTIAL_PREDICTION) :
    (GetPredictionType env segments ≠ NO_PREDICTION →
      AggregatePrediction env request segments max_nodes_size results
        = some (!(AggregateRealtimeConversion env (GetPredictionType env segments) segments
              results).2.isEmpty,
            (AggregateRealtimeConversion env (GetPredictionType env segments) segments results).1,
            (AggregateRealtimeConversion env (GetPredictionType env segments) segments
              results).2)) ∧
    (∃ (b : Bool) (segments1 : Segments) (appended : List Result),
      AggregatePrediction env request segments max_nodes_size results
        = some (b, segments1, results ++ appended) ∧
      ∀ r ∈ appended, r.type = REALTIME) ∧
    (∀ (dictionary suffix_dictionary : DictionaryInterface) (request1 : ConversionRequest)
        (max_nodes_size1 : Nat),
      AggregatePrediction
          { env with dictionary := dictionary, suffix_dictionary := suffix_dictionary }
          request1 segments max_nodes_size1 results
        = AggregatePrediction env request segments max_nodes_size results) := by
  have hunfold : ∀ (env1 : Env) (request1 : ConversionRequest) (n : Nat),
      AggregatePrediction env1 request1 segments n results
        = if GetPredictionType env1 segments = NO_PREDICTION then some (false, segments, results)
          else some (!(AggregateRealtimeConversion env1 (GetPredictionType env1 segments) segments
              results).2.isEmpty,
            (AggregateRealtimeConversion env1 (GetPredictionType env1 segments) segments
              results).1,
            (AggregateRealtimeConversion env1 (GetPredictionType env1 segments) segments
              results).2) := by
    intro env1 request1 n
    unfold AggregatePrediction
    simp only []
    by_cases h1 : GetPredictionType env1 segments = NO_PREDICTION
    · rw [if_pos h1, if_pos h1]
    · rw [if_neg h1, if_neg h1, if_pos hrequest]
  refine ⟨?_, ?_, ?_⟩
  · intro h1
    rw [hunfold, if_neg h1]
  · rw [hunfold]
    by_cases h1 : GetPredictionType env segments = NO_PREDICTION
    · rw [if_pos h1]
      exact ⟨false, segments, [], by rw [List.append_nil], fun r hr => by cases hr⟩
    · rw [if_neg h1]
      unfold AggregateRealtimeConversion
      simp only []
      split_ifs
      · exact ⟨_, _, [], by rw [List.append_nil], fun r hr => by cases hr⟩
      · refine ⟨_, _, _, rfl, ?_⟩
        intro r hr
        obtain ⟨c, _, rfl⟩ := List.mem_map.1 hr
        rfl
      · exact ⟨_, _, [], by rw [List.append_nil], fun r hr => by cases hr⟩
  · intro dictionary suffix_dictionary request1 max_nodes_size1
    rw [hunfold, hunfold]
    rfl

/-- C32, at the PARTIAL_PREDICTION request "aaa" with a converter that appends
"AB" and a dictionary that predicts "aaa" / "Z" from "aaa": the type holds
REALTIME and UNIGRAM, and the one result is the REALTIME result "AB". -/
theorem C32_partial_uses_realtime_only_witness :
    (Examples.segmentsPartialAaa.request_type = RequestType.PARTIAL_SUGGESTION ∨
      Examples.segmentsPartialAaa.request_type = RequestType.PARTIAL_PREDICTION) ∧
    GetPredictionType Examples.convertingHistoryEnv Examples.segmentsPartialAaa
      = { realtime := true, unigram := true, bigram := false, suffix := false } ∧
    Examples.convertingHistoryEnv.dictionary.LookupPredictive [97, 97, 97] 100000
      = [Examples.word [97, 97, 97] [90] 20] ∧
    AggregatePrediction Examples.convertingHistoryEnv { composer := none }
        Examples.segmentsPartialAaa 8192 []
      = some (true, Examples.segmentsPartialAaa,
          [{ node := NodeOfCandidate Examples.realtimeCandidate, type := REALTIME, cost := 0 }]) ∧
    ∃ (b : Bool) (segments1 : Segments) (appended : List Result),
      AggregatePrediction Examples.convertingHistoryEnv { composer := none }
          Examples.segmentsPartialAaa 8192 []
        = some (b, segments1, [] ++ appended) ∧
      ∀ r ∈ appended, r.type = REALTIME :=
  ⟨by decide, by decide, by decide, by decide,
   (C32_partial_uses_realtime_only Examples.convertingHistoryEnv { composer := none }
      Examples.segmentsPartialAaa 8192 [] (by decide)).2.1⟩

/-- C33: in `SetPredictionCost` two results of one call that have the same node
key and agree on being BIGRAM or not, neither gated as aggressive, are ordered
by their language-model costs: `lm_cost1 <= lm_cost2` implies
`cost1 <= cost2`. Both get the same length bonus, and rounding the `double`
difference and cutting its fraction off keep the order. The difference of the
first result is taken to be at least `INT_MIN`, so that its conversion to `int`
is defined; for the second result this follows. -/
theorem C33_same_reading_ranked_by_lm_cost (env : Env) (segments : Segments)
    (results : List Result) (i j : Nat) (hi : i < results.length) (hj : j < results.length)
    (hkey : (results.getD i default).node.key = (results.getD j default).node.key)
    (hbigram : (results.getD i default).type.bigram = (results.getD j default).type.bigram)
    (hgate1 : IsAggressiveSuggestion (QueryLenSpec segments (results.getD i default))
      (CharsLen (results.getD i default).node.key)
      (GetLMCost env (results.getD i default).type (results.getD i default).node
        (HistoryRid segments))
      (decide (segments.request_type = RequestType.SUGGESTION)) results.length = false)
    (hgate2 : IsAggressiveSuggestion (QueryLenSpec segments (results.getD j default))
      (CharsLen (results.getD j default).node.key)
      (GetLMCost env (results.getD j default).type (results.getD j default).node
        (HistoryRid segments))
      (decide (segments.request_type = RequestType.SUGGESTION)) results.length = false)
    (hrange : -2147483648 ≤ LengthBonusDifference env
      (GetLMCost env (results.getD i default).type (results.getD i default).node
        (HistoryRid segments))
      (max 0 (wrap32 ((CharsLen (results.getD i default).node.key : Int)
        - (QueryLenSpec segments (results.getD i default) : Int)))))
    (hlm : GetLMCost env (results.getD i default).type (results.getD i default).node
        (HistoryRid segments)
      ≤ GetLMCost env (results.getD j default).type (results.getD j default).node
        (HistoryRid segments)) :
    ((SetPredictionCost env segments results).getD i default).cost
      ≤ ((SetPredictionCost env segments results).getD j default).cost := by
  have hget : ∀ k, k < results.length →
      (SetPredictionCost env segments results).getD k default
        = SetPredictionCostOne env segments results.length (results.getD k default) := by
    intro k hk
    unfold SetPredictionCost
    rw [List.getD_eq_getElem _ _ (by rw [List.length_map]; exact hk), List.getElem_map,
      List.getD_eq_getElem _ _ hk]
  rw [hget i hi, hget j hj, SetPredictionCostOne_cost env segments _ _ hgate1,
    SetPredictionCostOne_cost env segments _ _ hgate2, SubtractLengthBonus_eq,
    SubtractLengthBonus_eq]
  have hq : QueryLenSpec segments (results.getD j default)
      = QueryLenSpec segments (results.getD i default) := by
    unfold QueryLenSpec
    rw [hbigram]
  rw [hq, ← hkey]
  generalize GetLMCost env (results.getD i default).type (results.getD i default).node
    (HistoryRid segments) = c1 at hrange hlm ⊢
  have hr2 := GetLMCost_range env (results.getD j default).type (results.getD j default).node
    (HistoryRid segments)
  generalize GetLMCost env (results.getD j default).type (results.getD j default).node
    (HistoryRid segments) = c2 at hlm hr2 ⊢
  generalize max 0 (wrap32 ((CharsLen (results.getD i default).node.key : Int)
    - (QueryLenSpec segments (results.getD i default) : Int))) = remain_len at hrange ⊢
  have hmono := LengthBonusDifference_mono env remain_len c1 c2 hlm
  have hup := LengthBonusDifference_le env remain_len c2 hr2.1 hr2.2
  rw [wrap32_of_range _ hrange (by omega), wrap32_of_range _ (by omega) (by omega)]
  exact hmono

/-- C33, at the input "ab" in desktop mode: two results with the reading "abcd"
and the language-model costs 3000 and 3100 get the costs 2450 and 2550. -/
theorem C33_same_reading_ranked_by_lm_cost_witness :
    (Examples.sameReading.getD 0 default).node.key = (Examples.sameReading.getD 1 default).node.key ∧
    GetLMCost Examples.plainEnv (Examples.sameReading.getD 0 default).type
      (Examples.sameReading.getD 0 default).node (HistoryRid Examples.segmentsAb) = 3000 ∧
    GetLMCost Examples.plainEnv (Examples.sameReading.getD 1 default).type
      (Examples.sameReading.getD 1 default).node (HistoryRid Examples.segmentsAb) = 3100 ∧
    LengthBonusDifference Examples.plainEnv 3000 2 = 2450 ∧
    (SetPredictionCost Examples.plainEnv Examples.segmentsAb Examples.sameReading).map Result.cost
      = [2450, 2550] ∧
    ((SetPredictionCost Examples.plainEnv Examples.segmentsAb Examples.sameReading).getD 0
        default).cost
      ≤ ((SetPredictionCost Examples.plainEnv Examples.segmentsAb Examples.sameReading).getD 1
        default).cost :=
  ⟨by decide, by decide, by decide, by decide, by decide,
   C33_same_reading_ranked_by_lm_cost Examples.plainEnv Examples.segmentsAb Examples.sameReading
     0 1 (by decide) (by decide) (by decide) (by decide) (by decide) (by decide) (by decide)
     (by decide)⟩

/-- C34: `IsZipCodeRequest(key)` is true exactly when `key` is not empty and
each of its characters is one byte that is an ASCII digit '0'..'9' or '-'. Its
loop ends within `key.size()` rounds for every byte string: each round that
goes on moves by one byte, and more rounds than bytes change nothing. It is
false for the empty string and for every string that holds a full-width digit
U+FF10..U+FF19. -/
theorem C34_zip_code_request (key : Str) :
    (IsZipCodeRequest key = true ↔ ZipCodeSpec key) ∧
    (∀ fuel : Nat, key.length ≤ fuel →
      IsZipCodeLoop fuel key = IsZipCodeLoop key.length key) ∧
    IsZipCodeRequest [] = false ∧
    (∀ c : Nat, 0xFF10 ≤ c → c ≤ 0xFF19 → ∀ before after : Str,
      key = before ++ encodeChar c ++ after → IsZipCodeRequest key = false) := by
  have hiff : IsZipCodeRequest key = true ↔ ZipCodeSpec key := by
    unfold IsZipCodeRequest ZipCodeSpec
    cases key with
    | nil =>
      constructor
      · intro h; cases h
      · intro h; exact absurd rfl h.1
    | cons b rest =>
      rw [if_neg (by simp)]
      rw [IsZipCodeLoop_iff _ _ (Nat.le_refl _)]
      constructor
      · intro h; exact ⟨List.cons_ne_nil _ _, h⟩
      · intro h; exact h.2
  refine ⟨hiff, ?_, rfl, ?_⟩
  · intro fuel hfuel
    have h1 := IsZipCodeLoop_iff fuel key hfuel
    have h2 := IsZipCodeLoop_iff key.length key (Nat.le_refl _)
    cases ha : IsZipCodeLoop fuel key with
    | true => exact (h2.2 (h1.1 ha)).symm
    | false =>
      cases hb : IsZipCodeLoop key.length key with
      | false => rfl
      | true => rw [h1.2 (h2.1 hb)] at ha; cases ha
  · intro c h1 h2 before after hkey
    cases hz : IsZipCodeRequest key with
    | false => rfl
    | true =>
      have hall := (hiff.1 hz).2 (0xE0 + c / 4096) (by
        rw [hkey]
        apply List.mem_append_left
        apply List.mem_append_right
        unfold encodeChar
        rw [if_neg (by omega), if_neg (by omega), if_pos (by omega)]
        exact List.mem_cons_self _ _)
      omega

/-- C34, at concrete inputs: "123-4" is a zip-code request, the string of the
full-width digits １２３ is none, and neither is "12a". -/
theorem C34_zip_code_request_witness :
    ZipCodeSpec [49, 50, 51, 45, 52] ∧
    IsZipCodeRequest [49, 50, 51, 45, 52] = true ∧
    utf8 "１２３" = [] ++ encodeChar 0xFF11 ++ utf8 "２３" ∧
    IsZipCodeRequest (utf8 "１２３") = false ∧
    IsZipCodeRequest [49, 50, 97] = false ∧
    IsZipCodeLoop 100 [49, 50, 51, 45, 52] = IsZipCodeLoop 5 [49, 50, 51, 45, 52] :=
  have hspec : ZipCodeSpec [49, 50, 51, 45, 52] := ⟨by decide, by decide⟩
  ⟨hspec, (C34_zip_code_request [49, 50, 51, 45, 52]).1.2 hspec, by decide,
   (C34_zip_code_request (utf8 "１２３")).2.2.2 0xFF11 (by decide) (by decide) []
      (utf8 "２３") (by decide),
   by decide,
   (C34_zip_code_request [49, 50, 51, 45, 52]).2.1 100 (by decide)⟩

/-- C35 fails at a PARTIAL_SUGGESTION request with one conversion segment whose
key is empty: `GetPredictionType` sets REALTIME for that request type without
looking at the key, `AggregatePrediction` calls `AggregateRealtimeConversion`
with this type, and the assertion `DCHECK(!segment->key().empty())` is reached
with an empty key. -/
theorem C35_realtime_with_empty_key :
    (Examples.segmentsPartialEmpty.conversion_segment 0).key = [] ∧
    GetPredictionType Examples.plainEnv Examples.segmentsPartialEmpty = REALTIME ∧
    RealtimeCall Examples.plainEnv Examples.segmentsPartialEmpty
      = some (REALTIME, Examples.segmentsPartialEmpty) ∧
    RealtimeKeyAssertion REALTIME Examples.segmentsPartialEmpty = false := by
  decide

/-- C36 fails at a suggestion request for "b" after the history "aaa" / "X"
with ten results, the last one the BIGRAM entry "aaabcdefgh" of word cost 5000:
`SetPredictionCost` gates it as aggressive and sets its cost to `INT_MAX`; its
node key starts with the history key and not with the conversion key "b", so
`ApplyPenaltyForKeyExpansion` adds 1151 and the 32-bit sum is -2147482498. The
filtered result ends as the cheapest one and its candidate "bcdefgh" / "G" is
emitted first. -/
theorem C36_gated_result_wraps :
    (SetPredictionCost Examples.plainEnv Examples.segmentsSuggestB
        Examples.gatedBigramResults).map Result.cost
      = [100, 200, 300, 400, 500, 600, 700, 800, 900, INT_MAX] ∧
    (ApplyPenaltyForKeyExpansion Examples.segmentsSuggestB
        (SetPredictionCost Examples.plainEnv Examples.segmentsSuggestB
          Examples.gatedBigramResults)).map Result.cost
      = [100, 200, 300, 400, 500, 600, 700, 800, 900, -2147482498] ∧
    (SetCost Examples.plainEnv Examples.segmentsSuggestB Examples.gatedBigramResults).map
        Result.cost
      = [100, 200, 300, 400, 500, 600, 700, 800, 900, -2147482498] ∧
    wrap32 (INT_MAX + kKeyExpansionPenalty) = -2147482498 ∧
    ((AddPredictionRun Examples.plainEnv Examples.segmentsSuggestB
        (RemovePrediction Examples.plainEnv Examples.segmentsSuggestB
          (SetCost Examples.plainEnv Examples.segmentsSuggestB
            Examples.gatedBigramResults))).map
      (fun st => (st.emitted.map (fun rc => rc.2.value)).take 1)) = some [[71]] := by
  decide

/-- C37: `ApplyPenaltyForKeyExpansion` tests the whole node key. With a
conversion segment, a result whose node key is `history_key ++ remainder` and
does not start with the conversion key gets its cost plus 1151 (the `int` sum,
the exact sum while it fits in an `int`), whether `remainder` starts with the
conversion key or not; for a BIGRAM result `remainder` is the key of the
candidate that the emission builds from it. With an empty conversion key no
result is changed. -/
theorem C37_penalty_tests_unstripped_key (segments : Segments) (results : List Result) :
    (∀ (i : Nat) (remainder : Str), i < results.length →
      segments.conversion_segments_size ≠ 0 →
      (results.getD i default).node.key = (GetHistoryKeyAndValue segments).2.1 ++ remainder →
      StartsWith ((GetHistoryKeyAndValue segments).2.1 ++ remainder)
        (segments.conversion_segment 0).key = false →
      ((ApplyPenaltyForKeyExpansion segments results).getD i default).cost
        = wrap32 ((results.getD i default).cost + 1151) ∧
      (-2147483648 ≤ (results.getD i default).cost →
        (results.getD i default).cost + 1151 ≤ 2147483647 →
        ((ApplyPenaltyForKeyExpansion segments results).getD i default).cost
          = (results.getD i default).cost + 1151) ∧
      ((results.getD i default).type.bigram = true →
        ∀ kv, StrippedKeyValue segments (results.getD i default) = some kv →
          kv.1 = remainder)) ∧
    ((segments.conversion_segment 0).key = [] →
      ApplyPenaltyForKeyExpansion segments results = results) := by
  refine ⟨?_, ?_⟩
  · intro i remainder hi hseg hkey hnot
    have hcost : ((ApplyPenaltyForKeyExpansion segments results).getD i default).cost
        = wrap32 ((results.getD i default).cost + 1151) := by
      unfold ApplyPenaltyForKeyExpansion
      rw [if_neg hseg]
      have hlen : i < (results.map (fun r : Result =>
          if (!StartsWith r.node.key (segments.conversion_segment 0).key) = true then
            { r with cost := wrap32 (r.cost + kKeyExpansionPenalty) } else r)).length := by
        rw [List.length_map]; exact hi
      rw [List.getD_eq_getElem _ _ hlen, List.getElem_map, List.getD_eq_getElem _ _ hi] at *
      rw [hkey, hnot]
      rfl
    refine ⟨hcost, ?_, ?_⟩
    · intro h1 h2
      rw [hcost, wrap32_of_range _ (by omega) (by omega)]
    · intro hb kv hkv
      unfold StrippedKeyValue at hkv
      simp only [hb, if_true] at hkv
      rw [hkey] at hkv
      have hsub : substr ((GetHistoryKeyAndValue segments).2.1 ++ remainder)
          (GetHistoryKeyAndValue segments).2.1.length
          (((GetHistoryKeyAndValue segments).2.1 ++ remainder).length
            - (GetHistoryKeyAndValue segments).2.1.length) = some remainder := by
        rw [substr_drop _ _ (by rw [List.length_append]; omega), List.drop_left]
      rw [hsub] at hkv
      simp only [] at hkv
      split at hkv
      · cases hkv
      · cases hkv; rfl
  · intro hk
    unfold ApplyPenaltyForKeyExpansion
    split_ifs with h0
    · rfl
    · rw [hk]
      conv_rhs => rw [← List.map_id results]
      apply List.map_congr_left
      intro r _
      rw [StartsWith_nil]
      rfl

/-- C37, at the request "aaab" after the history "aaa" / "X" and the BIGRAM
result "aaaaaab" / "XXY" of cost 20: the remainder "aaab" starts with the
conversion key, the node key "aaaaaab" does not, and the cost ends at 1171,
1151 above. -/
theorem C37_penalty_tests_unstripped_key_witness :
    (0 : Nat) < Examples.pricedBigramAfterX.length ∧
    Examples.segmentsAfterX.conversion_segments_size ≠ 0 ∧
    (Examples.pricedBigramAfterX.getD 0 default).node.key
      = (GetHistoryKeyAndValue Examples.segmentsAfterX).2.1 ++ [97, 97, 97, 98] ∧
    StartsWith [97, 97, 97, 98] (Examples.segmentsAfterX.conversion_segment 0).key = true ∧
    StartsWith ((GetHistoryKeyAndValue Examples.segmentsAfterX).2.1 ++ [97, 97, 97, 98])
      (Examples.segmentsAfterX.conversion_segment 0).key = false ∧
    (ApplyPenaltyForKeyExpansion Examples.segmentsAfterX Examples.pricedBigramAfterX).map
      Result.cost = [1171] ∧
    StrippedKeyValue Examples.segmentsAfterX (Examples.pricedBigramAfterX.getD 0 default)
      = some ([97, 97, 97, 98], [88, 89]) ∧
    ((ApplyPenaltyForKeyExpansion Examples.segmentsAfterX Examples.pricedBigramAfterX).getD 0
        default).cost = wrap32 ((Examples.pricedBigramAfterX.getD 0 default).cost + 1151) ∧
    ((Examples.segmentsAfterEmpty.conversion_segment 0).key = [] ∧
      ApplyPenaltyForKeyExpansion Examples.segmentsAfterEmpty Examples.bigramAfterX
        = Examples.bigramAfterX) :=
  ⟨by decide, by decide, by decide, by decide, by decide, by decide, by decide,
   ((C37_penalty_tests_unstripped_key Examples.segmentsAfterX Examples.pricedBigramAfterX).1
      0 [97, 97, 97, 98] (by decide) (by decide) (by decide) (by decide)).1,
   by decide,
   (C37_penalty_tests_unstripped_key Examples.segmentsAfterEmpty Examples.bigramAfterX).2
     (by decide)⟩

/-- C38: for a PREDICTION request in mixed mode and a budget below 2^64,
`GetRealtimeCandidateMaxSize` returns `max_size - default_size` when
`max_size >= default_size` and `max_size` when `max_size < default_size`, with
`max_size = min(budget, 8)` and `default_size = 3` when there is a first
segment whose key has 8 characters or more, `max_size = budget` and
`default_size = 6` otherwise. In the second case the `size_t` difference is
`2^64 - (default_size - max_size)`, which is above `max_size`, so that the
final `min` yields `max_size`. -/
theorem C38_prediction_mixed_size (segments : Segments) (budget : Nat)
    (hrequest : segments.request_type = RequestType.PREDICTION)
    (hbudget : budget < 18446744073709551616) :
    GetRealtimeCandidateMaxSize segments true budget
      = (if segments.segments_size > 0 ∧ CharsLen (segments.segment 0).key ≥ 8 then
          (if min budget 8 ≥ 3 then min budget 8 - 3 else min budget 8)
        else (if budget ≥ 6 then budget - 6 else budget)) ∧
    (∀ max_size default_size : Nat, max_size < default_size →
      default_size < 18446744073709551616 →
      size_sub max_size default_size = 18446744073709551616 - (default_size - max_size) ∧
      min max_size (size_sub max_size default_size) = max_size) := by
  refine ⟨?_, ?_⟩
  · unfold GetRealtimeCandidateMaxSize
    simp only [hrequest, if_true]
    by_cases hfew : segments.segments_size > 0 ∧ CharsLen (segments.segment 0).key ≥ 8
    · simp only [hfew, and_self, decide_True, if_true]
      by_cases h3 : min budget 8 ≥ 3
      · rw [if_pos h3, size_sub_of_le _ _ h3 (by omega)]
        omega
      · rw [if_neg h3, size_sub_of_lt _ _ (by omega) (by omega)]
        omega
    · simp only [hfew, decide_False, if_false, Bool.false_eq_true]
      by_cases h6 : budget ≥ 6
      · rw [if_pos h6, size_sub_of_le _ _ h6 hbudget]
        omega
      · rw [if_neg h6, size_sub_of_lt _ _ (by omega) (by omega)]
        omega
  · intro max_size default_size hlt hd
    rw [size_sub_of_lt _ _ hlt hd]
    omega

/-- C38, at concrete inputs: for the key "ab" the budget 10 yields 4 and the
budget 2 yields 2, the difference being 2^64 - 4; for the key "abcdefgh" the
budget 10 yields 5 and the budget 2 yields 2. -/
theorem C38_prediction_mixed_size_witness :
    Examples.segmentsAb.request_type = RequestType.PREDICTION ∧
    (2 : Nat) < 18446744073709551616 ∧
    GetRealtimeCandidateMaxSize Examples.segmentsAb true 10 = 4 ∧
    GetRealtimeCandidateMaxSize Examples.segmentsAb true 2 = 2 ∧
    size_sub 2 6 = 18446744073709551612 ∧
    GetRealtimeCandidateMaxSize Examples.segmentsLongKey true 10 = 5 ∧
    GetRealtimeCandidateMaxSize Examples.segmentsLongKey true 2 = 2 ∧
    GetRealtimeCandidateMaxSize Examples.segmentsAb true 2
      = (if Examples.segmentsAb.segments_size > 0 ∧
            CharsLen (Examples.segmentsAb.segment 0).key ≥ 8 then
          (if min 2 8 ≥ 3 then min 2 8 - 3 else min 2 8)
        else (if 2 ≥ 6 then 2 - 6 else 2)) :=
  ⟨by decide, by decide, by decide, by decide, by decide, by decide, by decide,
   (C38_prediction_mixed_size Examples.segmentsAb 2 (by decide) (by decide)).1⟩

/-- C39: whenever `GetPredictionType(segments)` holds UNIGRAM the key of
conversion segment 0 has at least one character and is not empty. On the call
of `AggregateUnigramPrediction` that `AggregatePrediction` makes (after a
realtime conversion that only appends candidates) the assertion
`DCHECK(!segments->conversion_segment(0).key().empty())` holds, and when the
type holds UNIGRAM, so that `GetUnigramCandidateCutoffThreshold` is reached, the
request type is PREDICTION or SUGGESTION as its assertion requires: the
request types PARTIAL_SUGGESTION and PARTIAL_PREDICTION take the branch without
this call. -/
theorem C39_unigram_assertions (env : Env) (segments : Segments) :
    ((GetPredictionType env segments).unigram = true →
      CharsLen (segments.conversion_segment 0).key ≥ 1 ∧
      (segments.conversion_segment 0).key ≠ [] ∧
      UnigramKeyAssertion (GetPredictionType env segments) segments = true) ∧
    (∀ (results : List Result) (type : PredictionType) (segments1 : Segments),
      ConvertOnlyAppends env →
      UnigramCall env segments results = some (type, segments1) →
      UnigramKeyAssertion type segments1 = true ∧
      (type.unigram = true → CutoffThresholdAssertion segments1 = true)) := by
  have hkey : (GetPredictionType env segments).unigram = true →
      (segments.conversion_segment 0).key ≠ [] := by
    intro h hnil
    have := (GetPredictionType_unigram_key env segments h).1
    rw [hnil] at this
    exact absurd this (by decide)
  refine ⟨?_, ?_⟩
  · intro h
    refine ⟨(GetPredictionType_unigram_key env segments h).1, hkey h, ?_⟩
    unfold UnigramKeyAssertion
    rw [h]
    have := hkey h
    cases hk : (segments.conversion_segment 0).key with
    | nil => exact absurd hk this
    | cons b rest => rfl
  · intro results type segments1 hconv hcall
    unfold UnigramCall at hcall
    split_ifs at hcall with h1 h2
    simp only [Option.some.injEq, Prod.mk.injEq] at hcall
    obtain ⟨rfl, rfl⟩ := hcall
    obtain ⟨hk, hr⟩ := AggregateRealtimeConversion_key env hconv
      (GetPredictionType env segments) segments results
    constructor
    · unfold UnigramKeyAssertion
      rw [hk]
      cases hu : (GetPredictionType env segments).unigram with
      | false => rfl
      | true =>
        have := hkey hu
        cases hkk : (segments.conversion_segment 0).key with
        | nil => exact absurd hkk this
        | cons b rest => rfl
    · intro hu
      unfold CutoffThresholdAssertion
      rw [hr, decide_eq_true_eq]
      have hc := (GetPredictionType_unigram_key env segments hu).2
      cases hreq : segments.request_type with
      | CONVERSION => exact absurd hreq hc
      | PREDICTION => exact Or.inl rfl
      | SUGGESTION => exact Or.inr rfl
      | PARTIAL_PREDICTION => exact absurd (Or.inr hreq) h2
      | PARTIAL_SUGGESTION => exact absurd (Or.inl hreq) h2

/-- C39, at the prediction request "ab" without history in desktop mode: the
type holds REALTIME and UNIGRAM, the key has two characters, and
`AggregateUnigramPrediction` is called with a PREDICTION request whose key is
"ab". -/
theorem C39_unigram_assertions_witness :
    (GetPredictionType Examples.plainEnv Examples.segmentsAb).unigram = true ∧
    CharsLen (Examples.segmentsAb.conversion_segment 0).key = 2 ∧
    ConvertOnlyAppends Examples.plainEnv ∧
    UnigramCall Examples.plainEnv Examples.segmentsAb []
      = some ({ realtime := true, unigram := true, bigram := false, suffix := false },
          Examples.segmentsAb.set_max_prediction_candidates_size 6) ∧
    (Examples.segmentsAb.set_max_prediction_candidates_size 6).request_type
      = RequestType.PREDICTION ∧
    (UnigramKeyAssertion { realtime := true, unigram := true, bigram := false, suffix := false }
        (Examples.segmentsAb.set_max_prediction_candidates_size 6) = true ∧
      (({ realtime := true, unigram := true, bigram := false, suffix := false } :
          PredictionType).unigram = true →
        CutoffThresholdAssertion (Examples.segmentsAb.set_max_prediction_candidates_size 6)
          = true)) :=
  have hconv : ConvertOnlyAppends Examples.plainEnv := fun s =>
    ⟨[], by rw [List.append_nil, Segments.set_candidates_self]; rfl⟩
  ⟨by decide, by decide, hconv, by decide, by decide,
   (C39_unigram_assertions Examples.plainEnv Examples.segmentsAb).2 [] _ _ hconv (by decide)⟩

end Mozc
